import Mathlib

/-!
# Verification of the circus arbiter core

Shallow embedding of `circus/arbiter.py` (the `Arbiter` class): the watcher
and socket tables, the add/remove/stop/manage operations, and the
configuration reconciler `reload_from_config`.  External collaborators that
are not part of the sources (`Watcher`, `CircusSocket`, the configuration
loader) are modelled from the specification, with doc comments marking them
as such.  Python dictionaries become association lists, Python sets become
duplicate-free lists in first-occurrence order, and Python object identity
becomes an explicit `objId : Nat` field (CPython 2 falls back to comparing
object addresses when instances define no ordering, which is what
`list.sort` does on `(priority, watcher)` pairs with equal priorities).

Observable side effects (closing a socket, stopping a watcher, ...) are
recorded in an event trace so that ordering claims ("the error is raised
before any watcher is stopped") become statements about traces.
-/

namespace Circus

/-! ## Python-level helpers: dictionaries, sets, substring search -/

/-- Lookup in a Python dictionary modelled as an association list
(`d[k]` returning `None` instead of raising is expressed by `Option`). -/
def lookupD (d : List (String × Nat)) (k : String) : Option Nat :=
  match d.find? (fun p => p.1 == k) with
  | some p => some p.2
  | none => none

/-- Python `d[k] = v`: replace the entry if the key is present, append otherwise. -/
def insertD (d : List (String × Nat)) (k : String) (v : Nat) :
    List (String × Nat) :=
  if (d.find? (fun p => p.1 == k)).isSome then
    d.map (fun p => if p.1 == k then (k, v) else p)
  else
    d ++ [(k, v)]

/-- Python `del d[k]` / `d.pop(k)` after a successful lookup: drop the entry. -/
def eraseD (d : List (String × Nat)) (k : String) : List (String × Nat) :=
  d.eraseP (fun p => p.1 == k)

/-- Canonical representation of a Python `set(l)`: the elements of `l` in
first-occurrence order, each kept once (the iteration order of a Python set
is unspecified, so any canonical order is a faithful model). -/
def dedupFirst : List String → List String
  | [] => []
  | x :: xs => x :: (dedupFirst xs).filter (fun y => y != x)

/-- Python set difference `a - b`, keeping the (canonicalised) order of `a`. -/
def setDiff (a b : List String) : List String :=
  a.filter (fun x => !(b.contains x))

/-- Python set union `a | b`. -/
def setUnionS (a b : List String) : List String :=
  a ++ b.filter (fun x => !(a.contains x))

/-- Python `s.add(x)` on a set represented as a duplicate-free list. -/
def setAdd (a : List String) (x : String) : List String :=
  if a.contains x then a else a ++ [x]

/-- Character-list prefix test (structural helper for `strContains`). -/
def listPrefixB : List Char → List Char → Bool
  | [], _ => true
  | _ :: _, [] => false
  | c :: cs, d :: ds => c == d && listPrefixB cs ds

/-- Character-list substring test (structural helper for `strContains`). -/
def listContainsB (needle : List Char) : List Char → Bool
  | [] => listPrefixB needle []
  | c :: tl => listPrefixB needle (c :: tl) || listContainsB needle tl

/-- Python `needle in haystack` on strings (substring containment),
used for the `circus.sockets.<name>` marker test in watcher commands. -/
def strContains (hay needle : String) : Bool :=
  listContainsB needle.data hay.data

/-- Python `s.lower()` (the names handled here are ASCII, where Python's
`lower` is the per-character case map). -/
def pyLower (s : String) : String :=
  ⟨s.data.map Char.toLower⟩

/-! ## Configuration entries (`circus/config.py` is not part of the sources) -/

/-- Modelled from the spec: a `socket:<name>` configuration entry, §3
(`{name, host?, port?, ...}`), already in the normalised dictionary shape
compared by the reconciler. -/
structure SocketConfig where
  name : String
  host : String
  port : Nat
  deriving DecidableEq, Repr

/-- Modelled from the spec: per-socket `cfg2dict` "normalises a config entry
to a comparable dictionary-shaped value" (§4.1); entries are already records,
so normalisation is the identity. -/
def socketCfg2dict (c : SocketConfig) : SocketConfig := c

/-- Modelled from the spec: a `watcher:<name>` configuration entry, §3. -/
structure WatcherConfig where
  name : String
  cmd : String
  numprocesses : Nat
  priority : Int
  singleton : Bool
  deriving DecidableEq, Repr

/-- Modelled from the spec: `Watcher.cfg2dict` normalisation (§4.2), the
identity on the record form. -/
def watcherCfg2dict (c : WatcherConfig) : WatcherConfig := c

/-- Modelled from the spec: the parsed configuration file produced by
`get_config` (§3).  `Option` fields model `cfg.get(key, default)`. -/
structure Config where
  endpoint : String
  pubsub_endpoint : String
  check_delay : Option Nat := none
  prereload_fn : Option String := none
  stats_endpoint : Option String := none
  plugins : Option (List String) := none
  warmup_delay : Option Nat := none
  httpd : Option Bool := none
  httpd_host : Option String := none
  httpd_port : Option Nat := none
  debug : Option Bool := none
  stream_backend : Option String := none
  ssh_server : Option String := none
  sockets : List SocketConfig := []
  watchers : List WatcherConfig := []
  deriving DecidableEq, Repr

/-- The arbiter-identity projection computed by `Arbiter.cfg2dict`
(`arbiter.py` lines 173-189): thirteen fields with their defaults. -/
structure ArbiterDict where
  endpoint : String
  pubsub_endpoint : String
  check_delay : Nat
  prereload_fn : Option String
  stats_endpoint : Option String
  plugins : Option (List String)
  warmup_delay : Nat
  httpd : Bool
  httpd_host : String
  httpd_port : Nat
  debug : Bool
  stream_backend : String
  ssh_server : Option String
  deriving DecidableEq, Repr

/-- `Arbiter.cfg2dict` (`arbiter.py` lines 173-189). -/
def arbiterCfg2dict (c : Config) : ArbiterDict where
  endpoint := c.endpoint
  pubsub_endpoint := c.pubsub_endpoint
  check_delay := c.check_delay.getD 1
  prereload_fn := c.prereload_fn
  stats_endpoint := c.stats_endpoint
  plugins := c.plugins
  warmup_delay := c.warmup_delay.getD 0
  httpd := c.httpd.getD false
  httpd_host := c.httpd_host.getD "localhost"
  httpd_port := c.httpd_port.getD 8080
  debug := c.debug.getD false
  stream_backend := c.stream_backend.getD "thread"
  ssh_server := c.ssh_server

/-- `Arbiter.get_socket_config` (`arbiter.py` lines 159-164): first entry
with the given name, else `None`. -/
def getSocketConfig (c : Config) (name : String) : Option SocketConfig :=
  c.sockets.find? (fun e => e.name == name)

/-- `Arbiter.get_watcher_config` (`arbiter.py` lines 166-171). -/
def getWatcherConfig (c : Config) (name : String) : Option WatcherConfig :=
  c.watchers.find? (fun e => e.name == name)

/-! ## Sockets and watchers (entities; `sockets.py` / `watcher.py` are not
part of the sources, so they are modelled from the spec contracts) -/

/-- Modelled from the spec: `CircusSocket` (§3, §4.1) — identity `name`,
a `cfg` snapshot used for diffing, and a bound/listening flag. -/
structure CircusSocket where
  name : String
  cfg : SocketConfig
  bound : Bool
  deriving DecidableEq, Repr

/-- Modelled from the spec: `CircusSocket.load_from_config` builds an
unbound socket whose `cfg` snapshot is the normalised entry. -/
def CircusSocket.load_from_config (e : SocketConfig) : CircusSocket where
  name := e.name
  cfg := socketCfg2dict e
  bound := false

/-- Modelled from the spec: the `Watcher` collaborator contract (§4.2).
`objId` is CPython object identity, which the arbiter's tuple sort and
`list.remove` fall back to; `cfg` is "the dict-form snapshot used for
diffing"; `stopped` and `initialized` track the lifecycle calls the
arbiter makes.  Child processes and streams are outside the modelled
state (their effects appear only as trace events). -/
structure Watcher where
  objId : Nat
  name : String
  cmd : String
  numprocesses : Nat
  priority : Int
  singleton : Bool
  cfg : WatcherConfig
  stopped : Bool
  initialized : Bool
  deriving DecidableEq, Repr

/-- Modelled from the spec: `Watcher.load_from_config` builds a watcher
from a config entry; the `cfg` snapshot is the normalised entry, so a
freshly loaded watcher compares equal against its own entry. -/
def Watcher.load_from_config (e : WatcherConfig) (id : Nat) : Watcher where
  objId := id
  name := e.name
  cmd := e.cmd
  numprocesses := e.numprocesses
  priority := e.priority
  singleton := e.singleton
  cfg := watcherCfg2dict e
  stopped := true
  initialized := false

/-- Modelled from the spec: keyword options accepted by the `Watcher`
constructor that the modelled state tracks (`add_watcher` passes `**kw`). -/
structure WatcherOpts where
  numprocesses : Nat := 1
  priority : Int := 0
  singleton : Bool := false
  deriving DecidableEq, Repr

/-- Modelled from the spec: the direct `Watcher(name, cmd, **kw)`
constructor used by `add_watcher` and by `Arbiter.__init__`. -/
def mkWatcher (id : Nat) (name cmd : String) (opts : WatcherOpts) : Watcher where
  objId := id
  name := name
  cmd := cmd
  numprocesses := opts.numprocesses
  priority := opts.priority
  singleton := opts.singleton
  cfg := { name := name, cmd := cmd, numprocesses := opts.numprocesses,
           priority := opts.priority, singleton := opts.singleton }
  stopped := true
  initialized := false

/-! ## Errors and the event trace -/

/-- Python exceptions the embedded operations can raise.  `AlreadyExist` is
the class from `circus/exc.py` raised by `add_watcher`. -/
inductive PyErr where
  | typeError (msg : String)
  | keyError (key : String)
  | valueError (msg : String)
  | attributeError (msg : String)
  | alreadyExist (msg : String)
  deriving DecidableEq, Repr

/-- Observable side effects, recorded in execution order. -/
inductive Event where
  | socketClosed (name : String)
  | socketRemoved (name : String)
  | socketBound (name : String)
  | watcherConstructed (id : Nat)
  | watcherInitialized (id : Nat)
  | watcherStarted (id : Nat)
  | watcherStopped (id : Nat)
  | watcherUnregistered (id : Nat)
  | watcherRemoved (id : Nat)
  | watcherRegistered (id : Nat)
  | setNumprocesses (id : Nat) (n : Nat)
  | manageProcesses (id : Nat)
  | reapProcesses
  deriving DecidableEq, Repr

/-- An event that mutates the watcher side of the arbiter (anything other
than a re-`initialize`, which only re-wires sockets into a watcher). -/
def Event.isWatcherMutation : Event → Bool
  | .watcherConstructed _ => true
  | .watcherStarted _ => true
  | .watcherStopped _ => true
  | .watcherUnregistered _ => true
  | .watcherRemoved _ => true
  | .watcherRegistered _ => true
  | .setNumprocesses _ _ => true
  | _ => false

/-! ## The arbiter state -/

/-- The `Arbiter` state (`arbiter.py` lines 60-150): `watchers` is the
Python list (references into `heap`), `watchersNames` the lowercased-name
dictionary `_watchers_names`, `sockets` the `CircusSockets` collection.
`heap` holds every watcher object ever created (by `objId`) so that
aliasing between the list, the dictionary, and local variables behaves as
in Python; `nextId` allocates fresh object identities. -/
structure Arbiter where
  heap : List Watcher
  nextId : Nat
  watchers : List Nat
  watchersNames : List (String × Nat)
  sockets : List CircusSocket
  cfg : ArbiterDict
  configFile : String
  alive : Bool
  deriving DecidableEq, Repr

/-- Dereference an object identity in the heap. -/
def findHeap (h : List Watcher) (id : Nat) : Option Watcher :=
  h.find? (fun w => w.objId == id)

/-- In-place `watcher.stop()` on the shared object (§4.2: sets `stopped`). -/
def stopInHeap (h : List Watcher) (id : Nat) : List Watcher :=
  h.map (fun w => if w.objId == id then { w with stopped := true } else w)

/-- In-place `watcher.start()` (§4.2: spawns children, clears `stopped`). -/
def startInHeap (h : List Watcher) (id : Nat) : List Watcher :=
  h.map (fun w => if w.objId == id then { w with stopped := false } else w)

/-- In-place `watcher.initialize(evpub, sockets, arbiter)` (§4.2). -/
def initInHeap (h : List Watcher) (id : Nat) : List Watcher :=
  h.map (fun w => if w.objId == id then { w with initialized := true } else w)

/-- The watcher objects of `self.watchers`, in list (insertion) order. -/
def Arbiter.objs (a : Arbiter) : List Watcher :=
  a.watchers.filterMap (fun id => findHeap a.heap id)

/-- `Arbiter.get_socket` (`arbiter.py` lines 152-157): first socket with the
name, else `None`. -/
def Arbiter.getSocket (a : Arbiter) (name : String) : Option CircusSocket :=
  a.sockets.find? (fun s => s.name == name)

/-- The key Python sorts `(priority, watcher)` tuples by: priority first,
ties decided by CPython's default object comparison (object identity). -/
def wkeyLe (w1 w2 : Watcher) : Prop :=
  w1.priority < w2.priority ∨ (w1.priority = w2.priority ∧ w1.objId ≤ w2.objId)

instance : DecidableRel wkeyLe := fun w1 w2 => by
  unfold wkeyLe; infer_instance

instance : IsTotal Watcher wkeyLe where
  total w1 w2 := by unfold wkeyLe; omega

instance : IsTrans Watcher wkeyLe where
  trans w1 w2 w3 := by unfold wkeyLe; omega

/-- `Arbiter.iter_watchers` (`arbiter.py` lines 315-319): sort the
`(priority, watcher)` pairs, descending when `reverse` (CPython implements
`sort(reverse=True)` as reverse, stable ascending sort, reverse). -/
def Arbiter.iterWatchers (a : Arbiter) (reverse : Bool) : List Watcher :=
  if reverse then
    (List.insertionSort wkeyLe a.objs.reverse).reverse
  else
    List.insertionSort wkeyLe a.objs

/-- `Arbiter.numwatchers` (`arbiter.py` lines 454-456): `len(self.watchers)`. -/
def Arbiter.numwatchers (a : Arbiter) : Nat :=
  a.watchers.length

/-- `Arbiter.get_watcher` (`arbiter.py` lines 458-460):
`self._watchers_names[name]` — note the raw, not lowercased, key. -/
def Arbiter.getWatcher (a : Arbiter) (name : String) : Option Nat :=
  lookupD a.watchersNames name

/-! ## Arbiter operations -/

/-- What `add_watcher` evaluates to: the new watcher, a **returned** (not
raised) `ValueError` instance, or a raised exception. -/
inductive AddWatcherOutcome where
  | watcher (id : Nat)
  | valueErrorInstance (msg : String)
  | raised (e : PyErr)
  deriving DecidableEq, Repr

/-- `Arbiter.add_watcher` (`arbiter.py` lines 466-485).  The membership
check and the `pop`-side of `rm_watcher` use the raw name while
registration lowercases it; the empty-name check **returns** the
`ValueError` instead of raising it (line 479). -/
def Arbiter.addWatcher (a : Arbiter) (name cmd : String) (opts : WatcherOpts) :
    Arbiter × List Event × AddWatcherOutcome :=
  if (lookupD a.watchersNames name).isSome then
    (a, [], .raised (.alreadyExist (name ++ " already exist")))
  else if name == "" then
    (a, [], .valueErrorInstance "command name should not be empty")
  else
    let id := a.nextId
    let w := mkWatcher id name cmd opts
    -- watcher.initialize(self.evpub_socket, self.sockets, self)
    let w := { w with initialized := true }
    ({ a with heap := a.heap ++ [w]
            , nextId := id + 1
            , watchers := a.watchers ++ [id]
            , watchersNames := insertD a.watchersNames (pyLower name) id },
     [.watcherConstructed id, .watcherInitialized id, .watcherRegistered id],
     .watcher id)

/-- `Arbiter.rm_watcher` (`arbiter.py` lines 487-501):
`watcher = self._watchers_names.pop(name)` (raw name — `KeyError` when the
key differs from the lowercased one used on insert), then
`del self.watchers[self.watchers.index(watcher)]`, then `watcher.stop()`. -/
def Arbiter.rmWatcher (a : Arbiter) (name : String) :
    Arbiter × List Event × Option PyErr :=
  match lookupD a.watchersNames name with
  | none => (a, [], some (.keyError name))
  | some id =>
    let a1 := { a with watchersNames := eraseD a.watchersNames name }
    if a1.watchers.contains id then
      let a2 := { a1 with watchers := a1.watchers.erase id }
      let a3 := { a2 with heap := stopInHeap a2.heap id }
      (a3, [.watcherUnregistered id, .watcherRemoved id, .watcherStopped id],
       none)
    else
      -- self.watchers.index(watcher) raises when the object is absent
      (a1, [.watcherUnregistered id],
       some (.valueError "x not in list"))

/-- `Arbiter.stop_watchers` (`arbiter.py` lines 508-517): a no-op once
`alive` is false; clears `alive` when `stop_alive`; stops the watchers in
increasing priority (`iter_watchers(reverse=False)`). -/
def Arbiter.stopWatchers (a : Arbiter) (stopAlive : Bool) :
    Arbiter × List Event :=
  if !a.alive then (a, [])
  else
    let a1 := if stopAlive then { a with alive := false } else a
    let order := a1.iterWatchers false
    (order.foldl (fun st w => { st with heap := stopInHeap st.heap w.objId }) a1,
     order.map (fun w => .watcherStopped w.objId))

/-- `Arbiter.start_watchers` (`arbiter.py` lines 503-506): starts the
watchers in decreasing priority. -/
def Arbiter.startWatchers (a : Arbiter) : Arbiter × List Event :=
  let order := a.iterWatchers true
  (order.foldl (fun st w => { st with heap := startInHeap st.heap w.objId }) a,
   order.map (fun w => .watcherStarted w.objId))

/-- `Arbiter.restart` (`arbiter.py` lines 519-521). -/
def Arbiter.restart (a : Arbiter) : Arbiter × List Event :=
  let (a1, t1) := a.stopWatchers false
  let (a2, t2) := a1.startWatchers
  (a2, t1 ++ t2)

/-- `Arbiter.manage_watchers` (`arbiter.py` lines 417-425): a no-op once
`alive` is false; otherwise reaps and then manages every watcher.  Child
bookkeeping lives in the external `Watcher`, so here it is trace-only. -/
def Arbiter.manageWatchers (a : Arbiter) : Arbiter × List Event :=
  if !a.alive then (a, [])
  else
    (a, .reapProcesses :: (a.iterWatchers true).map
      (fun w => .manageProcesses w.objId))

/-- `Arbiter.stop` (`arbiter.py` lines 379-386): stop the watchers (setting
`alive := false`) when still alive, stop the loop, close every socket. -/
def Arbiter.stop (a : Arbiter) : Arbiter × List Event :=
  let (a1, t1) := if a.alive then a.stopWatchers true else (a, [])
  -- self.sockets.close_all()
  ({ a1 with sockets := a1.sockets.map (fun s => { s with bound := false }) },
   t1 ++ a1.sockets.map (fun s => .socketClosed s.name))

/-- `Arbiter.initialize` (`arbiter.py` lines 321-339): bind all sockets,
then register each watcher under its lowercased name and initialize it, in
decreasing priority order.  The event-publisher socket is outside the
modelled state. -/
def Arbiter.initAll (a : Arbiter) : Arbiter × List Event :=
  let a1 : Arbiter :=
    { a with sockets := a.sockets.map (fun s => { s with bound := true }) }
  let order := a1.iterWatchers true
  (order.foldl
    (fun (st : Arbiter) (w : Watcher) =>
      { st with watchersNames := insertD st.watchersNames (pyLower w.name) w.objId
              , heap := initInHeap st.heap w.objId }) a1,
   a1.sockets.map (fun s => .socketBound s.name)
     ++ order.map (fun w => .watcherInitialized w.objId))

/-! ## The reconciler (`Arbiter.reload_from_config`, lines 191-280)

The body is split phase by phase, following the source order.  Each phase
returns the state reached, the events emitted, and the exception it raised,
if any — a raise aborts the remaining phases but keeps the mutations made
so far, as in Python. -/

/-- The `maybechanged_socket_names` loop (lines 207-220).  On the first
socket whose `cfg2dict` differs from its running `cfg`, the source reaches
`for w in self.iter_watchers:` (line 218) — the method is **not called**, and
iterating a bound method raises `TypeError`, so the local set additions are
discarded and `watcher_names_with_changed_socket` stays empty forever. -/
def changedSocketScan (a : Arbiter) (cfg : Config) :
    List String → Option PyErr
  | [] => none
  | n :: rest =>
    match a.getSocket n with
    | none => some (.attributeError "NoneType has no attribute cfg2dict")
    | some s =>
      match getSocketConfig cfg n with
      | none => some (.typeError "cfg2dict of None")
      | some e =>
        if socketCfg2dict e ≠ s.cfg then
          some (.typeError "instancemethod object is not iterable")
        else
          changedSocketScan a cfg rest

/-- The `deleted_socket_names` loop (lines 222-230): close the socket, scan
`iter_watchers()` for commands holding the `circus.sockets.<n.lower()>`
marker (collecting `watcher_names_with_deleted_socket`), remove the socket. -/
def deleteSocketsLoop (a : Arbiter) (acc : List String) :
    List String → Arbiter × List Event × List String × Option PyErr
  | [] => (a, [], acc, none)
  | n :: rest =>
    match a.getSocket n with
    | none => (a, [], acc, some (.attributeError "NoneType has no attribute close"))
    | some s =>
      -- s.close()
      let a1 : Arbiter :=
        { a with sockets :=
            a.sockets.map (fun t => if t == s then { t with bound := false } else t) }
      let users := (a1.iterWatchers true).filterMap
        (fun w => if strContains w.cmd ("circus.sockets." ++ pyLower n)
                  then some w.name else none)
      let acc1 := users.foldl setAdd acc
      -- self.sockets.remove(s); the closed copy of `s` is the list element
      let a2 : Arbiter :=
        { a1 with sockets := a1.sockets.eraseP (fun t => t.name == s.name) }
      let (a3, tr, acc2, err) := deleteSocketsLoop a2 acc1 rest
      (a3, .socketClosed n :: .socketRemoved n :: tr, acc2, err)

/-- The `added_socket_names` loop (lines 232-236): build each socket from
its config entry, bind and listen, append it. -/
def addSocketsLoop (cfg : Config) (a : Arbiter) :
    List String → Arbiter × List Event × Option PyErr
  | [] => (a, [], none)
  | n :: rest =>
    match getSocketConfig cfg n with
    | none => (a, [], some (.attributeError "load_from_config of None"))
    | some e =>
      let s := CircusSocket.load_from_config e
      -- s.bind_and_listen()
      let s := { s with bound := true }
      let a1 : Arbiter := { a with sockets := a.sockets ++ [s] }
      let (a2, tr, err) := addSocketsLoop cfg a1 rest
      (a2, .socketBound n :: tr, err)

/-- The re-`initialize` pass over every watcher run when some socket was
added or deleted (lines 238-241). -/
def reinitWatchers (a : Arbiter) : Arbiter × List Event :=
  let order := a.iterWatchers true
  (order.foldl (fun (st : Arbiter) (w : Watcher) =>
      { st with heap := initInHeap st.heap w.objId }) a,
   order.map (fun w => .watcherInitialized w.objId))

/-- The `maybechanged_watcher_names` loop (lines 253-265).  `get_watcher`
looks the **raw** name up in the lowercased-key table (`KeyError` when they
differ).  The `if False:` branch around `set_numprocesses` (line 258) is
dead, so a changed watcher is always scheduled as delete plus add. -/
def changedWatchersLoop (a : Arbiter) (cfg : Config) :
    List String → List String → List String → List String →
    List String × List String × List String × Option PyErr
  | [], chg, del, add => (chg, del, add, none)
  | n :: rest, chg, del, add =>
    match a.getWatcher n with
    | none => (chg, del, add, some (.keyError n))
    | some id =>
      match findHeap a.heap id with
      | none => (chg, del, add, some (.keyError n))
      | some w =>
        match getWatcherConfig cfg n with
        | none => (chg, del, add, some (.attributeError "cfg2dict of None"))
        | some e =>
          if watcherCfg2dict e ≠ w.cfg then
            changedWatchersLoop a cfg rest
              (setAdd chg n) (setAdd del n) (setAdd add n)
          else
            changedWatchersLoop a cfg rest chg del add

/-- The `deleted_watcher_names` loop (lines 267-272): fetch through
`get_watcher` (raw-name lookup), `w.stop()`, delete the lowercased key,
remove the object from the list (`list.remove` raises `ValueError` when the
object is absent). -/
def deleteWatchersLoop (a : Arbiter) :
    List String → Arbiter × List Event × Option PyErr
  | [] => (a, [], none)
  | n :: rest =>
    match a.getWatcher n with
    | none => (a, [], some (.keyError n))
    | some id =>
      match findHeap a.heap id with
      | none => (a, [], some (.keyError n))
      | some w =>
        let a1 : Arbiter := { a with heap := stopInHeap a.heap id }
        match lookupD a1.watchersNames (pyLower w.name) with
        | none => (a1, [.watcherStopped id], some (.keyError (pyLower w.name)))
        | some _ =>
          let a2 : Arbiter :=
            { a1 with watchersNames := eraseD a1.watchersNames (pyLower w.name) }
          if a2.watchers.contains id then
            let a3 : Arbiter := { a2 with watchers := a2.watchers.erase id }
            let (a4, tr, err) := deleteWatchersLoop a3 rest
            (a4, .watcherStopped id :: .watcherUnregistered id ::
                 .watcherRemoved id :: tr, err)
          else
            (a2, [.watcherStopped id, .watcherUnregistered id],
             some (.valueError "x not in list"))

/-- The `added_watcher_names` loop (lines 274-280): construct from the
config entry, initialize, start, append, register under the lowercased
name. -/
def addWatchersLoop (cfg : Config) (a : Arbiter) :
    List String → Arbiter × List Event × Option PyErr
  | [] => (a, [], none)
  | n :: rest =>
    match getWatcherConfig cfg n with
    | none => (a, [], some (.attributeError "load_from_config of None"))
    | some e =>
      let id := a.nextId
      let w := Watcher.load_from_config e id
      -- w.initialize(self.evpub_socket, self.sockets, self); w.start()
      let w := { w with initialized := true, stopped := false }
      let a1 : Arbiter :=
        { a with heap := a.heap ++ [w]
               , nextId := id + 1
               , watchers := a.watchers ++ [id]
               , watchersNames := insertD a.watchersNames (pyLower w.name) id }
      let (a2, tr, err) := addWatchersLoop cfg a1 rest
      (a2, .watcherConstructed id :: .watcherInitialized id ::
           .watcherStarted id :: .watcherRegistered id :: tr, err)

/-- What a call to `reload_from_config` evaluates to. -/
inductive ReloadOutcome where
  | diffApplied
  | fullReload (newArb : Arbiter)
  | error (e : PyErr)
  deriving DecidableEq, Repr

/-- Result of `reload_from_config`: the state of `self` after the call (the
partial mutations are kept when an exception propagates), the trace, and
the outcome. -/
structure ReloadResult where
  st : Arbiter
  trace : List Event
  outcome : ReloadOutcome
  deriving DecidableEq, Repr

/-- Modelled from the spec: `get_plugin_cmd` materialises the command
string of a plugin watcher (§1 treats the exact encoding as out of scope). -/
def getPluginCmd (use endpoint pubsub : String) : String :=
  "plugin " ++ use ++ " --endpoint " ++ endpoint ++ " --pubsub " ++ pubsub

/-- `Arbiter.__init__` (`arbiter.py` lines 60-150) restricted to the
modelled state: takes the watchers and sockets built by the caller, appends
the `circusd-stats` watcher when `stats_endpoint` is set, the `circushttpd`
watcher and socket when `httpd` is set, and one watcher per plugin; the
name table starts empty (names are registered by `initialize`), `alive`
starts true.  Stream, zmq-context and controller wiring are outside the
modelled state. -/
def Arbiter.init (watchers : List WatcherConfig) (sockets : List CircusSocket)
    (d : ArbiterDict) (configFile : String) : Arbiter :=
  let base : List Watcher :=
    (List.range watchers.length).zip watchers |>.map
      (fun p => Watcher.load_from_config p.2 p.1)
  let n0 := watchers.length
  let statsW : List Watcher :=
    match d.stats_endpoint with
    | some sep =>
      [mkWatcher n0 "circusd-stats"
        ("python -c stats --endpoint " ++ d.endpoint ++ " --pubsub "
          ++ d.pubsub_endpoint ++ " --statspoint " ++ sep)
        { singleton := true }]
    | none => []
  let n1 := n0 + statsW.length
  let httpdW : List Watcher :=
    if d.httpd then
      [mkWatcher n1 "circushttpd"
        ("python -c circushttpd --endpoint " ++ d.endpoint
          ++ " --fd $(circus.sockets.circushttpd)")
        { singleton := true }]
    else []
  let httpdS : List CircusSocket :=
    if d.httpd then
      [{ name := "circushttpd"
       , cfg := { name := "circushttpd", host := d.httpd_host, port := d.httpd_port }
       , bound := false }]
    else []
  let n2 := n1 + httpdW.length
  let pluginW : List Watcher :=
    match d.plugins with
    | some uses =>
      (List.range uses.length).zip uses |>.map
        (fun p => { mkWatcher (n2 + p.1)
            ("plugin:" ++ (p.2.replace "." "-"))
            (getPluginCmd p.2 d.endpoint d.pubsub_endpoint)
            { singleton := true } with priority := 1 })
    | none => []
  let allW := base ++ statsW ++ httpdW ++ pluginW
  { heap := allW
  , nextId := n2 + pluginW.length
  , watchers := allW.map (·.objId)
  , watchersNames := []
  , sockets := sockets ++ httpdS
  , cfg := d
  , configFile := configFile
  , alive := true }

/-- `Arbiter.load_from_config` (`arbiter.py` lines 282-313): build watchers
and sockets from the parsed file, construct the arbiter, store
`cfg2dict(cfg)` and the file path.  `fs` stands for `get_config`, mapping a
path to its parsed configuration. -/
def loadFromConfig (fs : String → Config) (configFile : String) : Arbiter :=
  let cfg := fs configFile
  Arbiter.init cfg.watchers
    (cfg.sockets.map CircusSocket.load_from_config)
    (arbiterCfg2dict cfg) configFile

/-- The socket half of `reload_from_config` (lines 198-241): compute the
added/deleted/maybe-changed socket-name sets, scan for changed sockets
(which raises, see `changedSocketScan`), close and remove the deleted ones
(collecting `watcher_names_with_deleted_socket`), build and bind the added
ones, and re-initialize every watcher when the socket set moved.  Returns
the state, trace, the collected watcher names, and the raised error. -/
def socketsPhase (cfg : Config) (a : Arbiter) :
    Arbiter × List Event × List String × Option PyErr :=
  let currentSocketNames := dedupFirst (a.sockets.map (fun s => s.name))
  let newSocketNames := dedupFirst (cfg.sockets.map (fun s => s.name))
  let addedSocketNames := setDiff newSocketNames currentSocketNames
  let deletedSocketNames := setDiff currentSocketNames newSocketNames
  let maybechangedSocketNames := setDiff currentSocketNames deletedSocketNames
  -- get changed sockets (lines 207-220); raises before recording anything
  match changedSocketScan a cfg maybechangedSocketNames with
  | some e => (a, [], [], some e)
  | none =>
    -- get deleted sockets (lines 222-230)
    match deleteSocketsLoop a [] deletedSocketNames with
    | (a1, t1, wds, some e) => (a1, t1, wds, some e)
    | (a1, t1, wds, none) =>
      -- get added sockets (lines 232-236)
      match addSocketsLoop cfg a1 addedSocketNames with
      | (a2, t2, some e) => (a2, t1 ++ t2, wds, some e)
      | (a2, t2, none) =>
        -- re-initialize all watchers when the socket set moved (lines 238-241)
        let (a3, t3) :=
          if addedSocketNames ≠ [] ∨ deletedSocketNames ≠ [] then
            reinitWatchers a2
          else (a2, [])
        (a3, t1 ++ t2 ++ t3, wds, none)

/-- The watcher half of `reload_from_config` (lines 243-280).  On the guard
at line 250, the source writes
`watcher_names_with_deleted_socket not in new_watcher_names` — membership
of a *set* in a set of *strings*; CPython coerces the left side to a
frozenset and looks for it among the string elements, which never succeeds,
so the guard reduces to the nonemptiness of the left set and the
`ValueError` is raised whether or not the watchers are being re-added.
`watcher_names_with_changed_socket` is provably empty: the only code adding
to it sits after the line-218 `TypeError` (see `changedSocketScan`), so the
source unions and subtracts the empty set here. -/
def watchersPhase (cfg : Config) (a3 : Arbiter) (wds : List String) :
    Arbiter × List Event × Option PyErr :=
  let currentWatcherNames := dedupFirst ((a3.iterWatchers true).map (fun w => w.name))
  let newWatcherNames := dedupFirst (cfg.watchers.map (fun e => e.name))
  let watcherNamesWithChangedSocket : List String := []
  let addedWatcherNames :=
    setUnionS (setDiff newWatcherNames currentWatcherNames)
      watcherNamesWithChangedSocket
  let deletedWatcherNames :=
    setDiff (setDiff currentWatcherNames newWatcherNames)
      watcherNamesWithChangedSocket
  let maybechangedWatcherNames :=
    setDiff currentWatcherNames deletedWatcherNames
  -- the orphaned-socket guard (lines 250-251)
  if wds ≠ [] then
    (a3, [], some (.valueError "Watchers use a socket which is deleted"))
  else
    -- get changed watchers (lines 253-265)
    match changedWatchersLoop a3 cfg maybechangedWatcherNames []
        deletedWatcherNames addedWatcherNames with
    | (_, _, _, some e) => (a3, [], some e)
    | (_, delW, addW, none) =>
      -- get deleted watchers (lines 267-272)
      match deleteWatchersLoop a3 delW with
      | (a4, t4, some e) => (a4, t4, some e)
      | (a4, t4, none) =>
        -- get added watchers (lines 274-280)
        match addWatchersLoop cfg a4 addW with
        | (a5, t5, e6) => (a5, t4 ++ t5, e6)

/-- `Arbiter.reload_from_config` (`arbiter.py` lines 191-280): bail out to a
full reload when the arbiter identity changed (lines 194-196), otherwise
run the socket phase then the watcher phase, keeping partial mutations when
an exception propagates. -/
def reloadFromConfig (fs : String → Config) (a : Arbiter)
    (configFile : Option String) : ReloadResult :=
  let file := configFile.getD a.configFile
  let cfg := fs file
  -- if arbiter is changed, reload everything (lines 194-196)
  if arbiterCfg2dict cfg ≠ a.cfg then
    { st := a, trace := [], outcome := .fullReload (loadFromConfig fs file) }
  else
    match socketsPhase cfg a with
    | (a3, ts, _, some e) => { st := a3, trace := ts, outcome := .error e }
    | (a3, ts, wds, none) =>
      match watchersPhase cfg a3 wds with
      | (a5, tw, some e) =>
        { st := a5, trace := ts ++ tw, outcome := .error e }
      | (a5, tw, none) =>
        { st := a5, trace := ts ++ tw, outcome := .diffApplied }

/-! ## Operations as a step function (for lifecycle invariants) -/

/-- The arbiter operations reachable from the controller or the loop. -/
inductive Op where
  | stop
  | stopWatchers (stopAlive : Bool)
  | startWatchers
  | restart
  | manageWatchers
  | initAll
  | addWatcher (name cmd : String) (opts : WatcherOpts)
  | rmWatcher (name : String)
  | reloadFromConfig (path : Option String)
  deriving DecidableEq, Repr

/-- One operation on the arbiter: the state of `self` afterwards and the
events emitted.  `reload_from_config` taking the full-reload branch builds
and returns a fresh arbiter without touching `self` (its caller in
`commands/reloadconfig.py` discards the return value). -/
def step (fs : String → Config) (op : Op) (a : Arbiter) :
    Arbiter × List Event :=
  match op with
  | .stop => a.stop
  | .stopWatchers b => a.stopWatchers b
  | .startWatchers => a.startWatchers
  | .restart => a.restart
  | .manageWatchers => a.manageWatchers
  | .initAll => a.initAll
  | .addWatcher n c o => let (a1, t, _) := a.addWatcher n c o; (a1, t)
  | .rmWatcher n => let (a1, t, _) := a.rmWatcher n; (a1, t)
  | .reloadFromConfig p => let r := reloadFromConfig fs a p; (r.st, r.trace)

/-! ## Concrete fixtures

Small states and configurations mirroring the `reload1..5` fixtures and the
spec scenarios, used to evaluate the embedded code at concrete inputs. -/

/-- A minimal parsed configuration supplying only the arbiter endpoints. -/
def baseConfig : Config := { endpoint := "e", pubsub_endpoint := "p" }

/-- Its arbiter-identity projection. -/
def baseDict : ArbiterDict := arbiterCfg2dict baseConfig

/-- An arbiter with no watchers and no sockets. -/
def arbEmpty : Arbiter where
  heap := []
  nextId := 0
  watchers := []
  watchersNames := []
  sockets := []
  cfg := baseDict
  configFile := "P"
  alive := true

/-- Scenario 5/6: socket `s1` on port 9000. -/
def s1cfg : SocketConfig := { name := "s1", host := "localhost", port := 9000 }

/-- Scenario 5/6: watcher `w` whose command references `circus.sockets.s1`. -/
def wCfg : WatcherConfig :=
  { name := "w", cmd := "foo circus.sockets.s1", numprocesses := 1
  , priority := 0, singleton := false }

/-- The running watcher object `w` (initialized and started). -/
def wWatcher : Watcher :=
  { Watcher.load_from_config wCfg 0 with initialized := true, stopped := false }

/-- Config-A state: socket `s1` bound, watcher `w` running. -/
def arbA : Arbiter where
  heap := [wWatcher]
  nextId := 1
  watchers := [0]
  watchersNames := [("w", 0)]
  sockets := [{ name := "s1", cfg := s1cfg, bound := true }]
  cfg := baseDict
  configFile := "A"
  alive := true

/-- Scenario 6's config B: `s1` removed, `w` kept. -/
def configB : Config := { baseConfig with watchers := [wCfg] }

/-- Scenario 5's config B: `s1` moved to port 9001, `w` kept. -/
def configB5 : Config :=
  { baseConfig with
      watchers := [wCfg]
      sockets := [{ name := "s1", host := "localhost", port := 9001 }] }

/-- Scenario 4: `test3` with `numprocesses = 1` (the `reload4` fixture). -/
def t3cfg1 : WatcherConfig :=
  { name := "test3", cmd := "sleep 1", numprocesses := 1
  , priority := 0, singleton := false }

/-- Scenario 4: the same watcher with `numprocesses = 2` (`reload5`). -/
def t3cfg2 : WatcherConfig := { t3cfg1 with numprocesses := 2 }

/-- The state after loading `reload4`: `test3` running as object 0. -/
def arb4 : Arbiter where
  heap := [{ Watcher.load_from_config t3cfg1 0 with initialized := true, stopped := false }]
  nextId := 1
  watchers := [0]
  watchersNames := [("test3", 0)]
  sockets := []
  cfg := baseDict
  configFile := "r4"
  alive := true

/-- The `reload5` configuration. -/
def config5 : Config := { baseConfig with watchers := [t3cfg2] }

/-- A configuration with a single watcher whose name has an uppercase
letter. -/
def configT : Config :=
  { baseConfig with watchers :=
      [{ name := "Test", cmd := "c", numprocesses := 1, priority := 0
       , singleton := false }] }

/-- The first `reload_from_config` call of the uppercase-name scenario. -/
def firstReloadT : ReloadResult := reloadFromConfig (fun _ => configT) arbEmpty none

/-- An arbiter with the watcher `foo` registered under its (already
lowercase) name. -/
def arbFoo : Arbiter where
  heap := [mkWatcher 0 "foo" "c" {}]
  nextId := 1
  watchers := [0]
  watchersNames := [("foo", 0)]
  sockets := []
  cfg := baseDict
  configFile := "f"
  alive := true

/-- Two equal-priority watchers whose object identities run opposite to
their insertion order in `self.watchers`. -/
def arbTie : Arbiter where
  heap := [mkWatcher 1 "b" "c" {}, mkWatcher 2 "a" "c" {}]
  nextId := 3
  watchers := [2, 1]
  watchersNames := [("a", 2), ("b", 1)]
  sockets := []
  cfg := baseDict
  configFile := "t"
  alive := true

/-- A configuration whose single watcher entry matches the running `foo`
watcher of `arbFoo` exactly. -/
def configFoo : Config :=
  { baseConfig with watchers :=
      [{ name := "foo", cmd := "c", numprocesses := 1, priority := 0
       , singleton := false }] }

/-- An arbiter that has already been stopped (`alive = false`). -/
def arbDead : Arbiter := { arbEmpty with alive := false }

/-- A configuration whose `ArbiterCfg` projection differs from `baseDict`
(`check_delay` changed). -/
def configNewDelay : Config := { baseConfig with check_delay := some 5 }

/-! ## Well-formedness predicates -/

/-- The state invariants of a healthy arbiter (spec §3 name-table
consistency plus bookkeeping of the object store): the watcher list has no
duplicate references, every reference resolves, every listed watcher is
registered in the name table under its own name, names and object
identities are unique, fresh identities are really fresh, and socket names
are unique. -/
def Tidy (a : Arbiter) : Prop :=
  a.watchers.Nodup ∧
  (∀ id ∈ a.watchers, (findHeap a.heap id).isSome) ∧
  (∀ w ∈ a.objs, pyLower w.name = w.name) ∧
  (a.objs.map (fun w => w.name)).Nodup ∧
  (∀ w ∈ a.objs, lookupD a.watchersNames w.name = some w.objId) ∧
  (∀ kv ∈ a.watchersNames, kv.2 ∈ a.watchers ∧
    ∃ w, findHeap a.heap kv.2 = some w ∧ w.name = kv.1) ∧
  (a.watchersNames.map (fun kv => kv.1)).Nodup ∧
  (∀ w ∈ a.heap, w.objId < a.nextId) ∧
  (a.heap.map (fun w => w.objId)).Nodup ∧
  (a.sockets.map (fun s => s.name)).Nodup

/-- The observable identity of a stored watcher object: its name and its
diffing snapshot (the lifecycle flags may change, the rest may not). -/
def heapProj (h : List Watcher) (id : Nat) : Option (String × WatcherConfig) :=
  (findHeap h id).map (fun w => (w.name, w.cfg))

/-- Sanity of a parsed configuration: watcher names are lowercase and
unique, socket names unique. -/
def TidyCfg (cfg : Config) : Prop :=
  (∀ e ∈ cfg.watchers, pyLower e.name = e.name) ∧
  (cfg.watchers.map (fun e => e.name)).Nodup ∧
  (cfg.sockets.map (fun e => e.name)).Nodup

/-- The running state matches the configuration: same socket names with
matching `cfg` snapshots, same watcher names with matching snapshots, each
current watcher reachable through `get_watcher` under its raw name, and the
arbiter identity unchanged. -/
def Converged (cfg : Config) (a : Arbiter) : Prop :=
  arbiterCfg2dict cfg = a.cfg ∧
  (∀ n ∈ dedupFirst (cfg.sockets.map (fun s => s.name)),
    n ∈ dedupFirst (a.sockets.map (fun s => s.name))) ∧
  (∀ n ∈ dedupFirst (a.sockets.map (fun s => s.name)),
    n ∈ dedupFirst (cfg.sockets.map (fun s => s.name))) ∧
  (∀ n ∈ dedupFirst (a.sockets.map (fun s => s.name)),
    ∃ s e, a.getSocket n = some s ∧ getSocketConfig cfg n = some e ∧
      socketCfg2dict e = s.cfg) ∧
  (∀ n ∈ dedupFirst ((a.iterWatchers true).map (fun w => w.name)),
    n ∈ dedupFirst (cfg.watchers.map (fun e => e.name))) ∧
  (∀ n ∈ dedupFirst (cfg.watchers.map (fun e => e.name)),
    n ∈ dedupFirst ((a.iterWatchers true).map (fun w => w.name))) ∧
  (∀ n ∈ dedupFirst ((a.iterWatchers true).map (fun w => w.name)),
    ∃ id w e, a.getWatcher n = some id ∧ findHeap a.heap id = some w ∧
      getWatcherConfig cfg n = some e ∧ watcherCfg2dict e = w.cfg)

/-- Whether the diffing test of the `maybechanged_watcher_names` loop (line
257) flags watcher `n`: the running snapshot differs from the entry. -/
def watcherChangedB (a : Arbiter) (cfg : Config) (n : String) : Bool :=
  match a.getWatcher n with
  | none => false
  | some id =>
    match findHeap a.heap id, getWatcherConfig cfg n with
    | some w, some e => watcherCfg2dict e != w.cfg
    | _, _ => false

/-- Keep a watcher reference when its object is not named for deletion (one
reference per deleted name is removed by the loop at lines 267-272). -/
def delKeepB (h : List Watcher) (l : List String) (id : Nat) : Bool :=
  match heapProj h id with
  | some p => !(l.contains p.1)
  | none => true

/-- The watcher objects the `added_watcher_names` loop builds, in order,
with the object identities it allocates to them. -/
def addedWatchers (cfg : Config) : Nat → List String → List Watcher
  | _, [] => []
  | base, n :: rest =>
    match getWatcherConfig cfg n with
    | none => []
    | some e =>
      { Watcher.load_from_config e base with
          initialized := true, stopped := false }
        :: addedWatchers cfg (base + 1) rest

/-! ## Helper lemmas -/

theorem lookupD_eq_none_iff (d : List (String × Nat)) (k : String) :
    lookupD d k = none ↔ d.find? (fun p => p.1 == k) = none := by
  unfold lookupD
  cases d.find? (fun p => p.1 == k) <;> simp

theorem lookupD_append_single (d : List (String × Nat)) (k : String) (v : Nat)
    (h : lookupD d k = none) : lookupD (d ++ [(k, v)]) k = some v := by
  rw [lookupD_eq_none_iff] at h
  unfold lookupD
  rw [List.find?_append, h]
  simp

theorem eraseD_append_single (d : List (String × Nat)) (k : String) (v : Nat)
    (h : lookupD d k = none) : eraseD (d ++ [(k, v)]) k = d := by
  rw [lookupD_eq_none_iff, List.find?_eq_none] at h
  unfold eraseD
  rw [List.eraseP_append_right _ h]
  simp

theorem mem_dedupFirst (l : List String) (x : String) :
    x ∈ dedupFirst l ↔ x ∈ l := by
  induction l with
  | nil => rfl
  | cons hd tl ih =>
    unfold dedupFirst
    by_cases hx : x = hd
    · subst hx; simp
    · simp only [List.mem_cons, List.mem_filter, ih, bne_iff_ne, ne_eq]
      constructor
      · rintro (h | ⟨h, _⟩)
        · exact Or.inl h
        · exact Or.inr h
      · rintro (h | h)
        · exact Or.inl h
        · exact Or.inr ⟨h, hx⟩

theorem nodup_dedupFirst (l : List String) : (dedupFirst l).Nodup := by
  induction l with
  | nil => exact List.nodup_nil
  | cons hd tl ih =>
    unfold dedupFirst
    refine List.Nodup.cons ?_ (List.Nodup.filter _ ih)
    intro hmem
    have := List.of_mem_filter hmem
    simp at this

theorem mem_setDiff (a b : List String) (x : String) :
    x ∈ setDiff a b ↔ x ∈ a ∧ ¬ x ∈ b := by
  unfold setDiff
  simp [List.mem_filter]

theorem setDiff_nil (a : List String) : setDiff a [] = a := by
  unfold setDiff
  simp

theorem setDiff_eq_nil (a b : List String) (h : ∀ x ∈ a, x ∈ b) :
    setDiff a b = [] := by
  unfold setDiff
  rw [List.filter_eq_nil_iff]
  intro x hx
  simp [h x hx]

theorem nodup_setDiff (a b : List String) (h : a.Nodup) :
    (setDiff a b).Nodup :=
  List.Nodup.filter _ h

theorem mem_setUnionS (a b : List String) (x : String) :
    x ∈ setUnionS a b ↔ x ∈ a ∨ x ∈ b := by
  unfold setUnionS
  by_cases ha : x ∈ a
  · simp [ha]
  · simp [ha, List.mem_filter]

theorem setAdd_of_not_mem (a : List String) (x : String) (h : ¬ x ∈ a) :
    setAdd a x = a ++ [x] := by
  unfold setAdd
  simp [h]

theorem lookupD_mem (d : List (String × Nat)) (k : String) (v : Nat)
    (h : lookupD d k = some v) : (k, v) ∈ d := by
  unfold lookupD at h
  cases hf : d.find? (fun p => p.1 == k) with
  | none => rw [hf] at h; cases h
  | some p =>
    rw [hf] at h
    injection h with h
    have hp := List.find?_some hf
    have hm := List.mem_of_find?_eq_some hf
    obtain ⟨k', v'⟩ := p
    simp only [beq_iff_eq] at hp
    cases h
    cases hp
    exact hm

theorem lookupD_isSome_of_mem (d : List (String × Nat)) (k : String) (v : Nat)
    (h : (k, v) ∈ d) : (lookupD d k).isSome := by
  unfold lookupD
  cases hf : d.find? (fun p => p.1 == k) with
  | none =>
    rw [List.find?_eq_none] at hf
    exact absurd (by simp : ((k, v).1 == k) = true) (hf _ h)
  | some p => rfl

theorem heapProj_stopInHeap (h : List Watcher) (j id : Nat) :
    heapProj (stopInHeap h j) id = heapProj h id := by
  induction h with
  | nil => rfl
  | cons hd tl ih =>
    unfold heapProj findHeap stopInHeap at *
    by_cases hj : hd.objId == j
    · by_cases hid : hd.objId == id <;>
        simp_all [List.find?_cons]
    · by_cases hid : hd.objId == id <;>
        simp_all [List.find?_cons]

theorem heapProj_initInHeap (h : List Watcher) (j id : Nat) :
    heapProj (initInHeap h j) id = heapProj h id := by
  induction h with
  | nil => rfl
  | cons hd tl ih =>
    unfold heapProj findHeap initInHeap at *
    by_cases hj : hd.objId == j
    · by_cases hid : hd.objId == id <;>
        simp_all [List.find?_cons]
    · by_cases hid : hd.objId == id <;>
        simp_all [List.find?_cons]

theorem heapProj_startInHeap (h : List Watcher) (j id : Nat) :
    heapProj (startInHeap h j) id = heapProj h id := by
  induction h with
  | nil => rfl
  | cons hd tl ih =>
    unfold heapProj findHeap startInHeap at *
    by_cases hj : hd.objId == j
    · by_cases hid : hd.objId == id <;>
        simp_all [List.find?_cons]
    · by_cases hid : hd.objId == id <;>
        simp_all [List.find?_cons]

theorem findHeap_append (h1 h2 : List Watcher) (id : Nat) :
    findHeap (h1 ++ h2) id =
      match findHeap h1 id with
      | some w => some w
      | none => findHeap h2 id := by
  unfold findHeap
  rw [List.find?_append]
  cases h1.find? (fun w => w.objId == id) <;> rfl

theorem find?_name_of_mem {α : Type} (f : α → String) (l : List α) (n : String)
    (h : n ∈ l.map f) :
    ∃ x, l.find? (fun y => f y == n) = some x ∧ x ∈ l ∧ f x = n := by
  cases hf : l.find? (fun y => f y == n) with
  | some x =>
    exact ⟨x, rfl, List.mem_of_find?_eq_some hf, by simpa using List.find?_some hf⟩
  | none =>
    rw [List.find?_eq_none] at hf
    obtain ⟨x, hx, rfl⟩ := List.mem_map.mp h
    exact absurd (by simp) (hf x hx)

theorem lookupD_cons (hd : String × Nat) (tl : List (String × Nat))
    (m : String) :
    lookupD (hd :: tl) m = if hd.1 == m then some hd.2 else lookupD tl m := by
  unfold lookupD
  cases hm : (hd.1 == m) <;> simp [List.find?_cons, hm]

theorem eraseD_cons (hd : String × Nat) (tl : List (String × Nat))
    (k : String) :
    eraseD (hd :: tl) k = if hd.1 == k then tl else hd :: eraseD tl k := by
  unfold eraseD
  cases hk : (hd.1 == k) <;> simp [List.eraseP_cons, hk]

theorem eraseP_unique_eq_filter {α β : Type} [BEq β] [LawfulBEq β]
    (f : α → β) (k : β) :
    ∀ (l : List α), ((l.map f).Nodup) →
      l.eraseP (fun x => f x == k) = l.filter (fun x => !(f x == k))
  | [], _ => rfl
  | hd :: tl, hnodup => by
    have htl : (tl.map f).Nodup := (List.nodup_cons.mp hnodup).2
    cases hfd : (f hd == k) with
    | true =>
      have hk : f hd = k := by simpa using hfd
      have hall : ∀ x ∈ tl, (!(f x == k)) = true := by
        intro x hx
        have hne : f x ≠ f hd := fun heq =>
          (List.nodup_cons.mp hnodup).1 (heq ▸ List.mem_map_of_mem f hx)
        simp [hk ▸ hne]
      simp [List.eraseP_cons, List.filter_cons, hfd,
        List.filter_eq_self.mpr hall]
    | false =>
      simp [List.eraseP_cons, List.filter_cons, hfd,
        eraseP_unique_eq_filter f k tl htl]

theorem lookupD_eraseD_ne (d : List (String × Nat)) (k m : String)
    (h : m ≠ k) : lookupD (eraseD d k) m = lookupD d m := by
  induction d with
  | nil => rfl
  | cons hd tl ih =>
    rw [eraseD_cons]
    cases hk : (hd.1 == k) with
    | true =>
      have h1 : hd.1 = k := by simpa using hk
      have h2 : (hd.1 == m) = false := by
        simp only [beq_eq_false_iff_ne, ne_eq, h1]
        exact fun e => h e.symm
      simp [lookupD_cons, h2]
    | false =>
      simp only [Bool.false_eq_true, if_false]
      rw [lookupD_cons, lookupD_cons, ih]

theorem lookupD_append_ne (d : List (String × Nat)) (k m : String) (v : Nat)
    (h : m ≠ k) : lookupD (d ++ [(k, v)]) m = lookupD d m := by
  induction d with
  | nil =>
    have h2 : (k == m) = false := by
      simp only [beq_eq_false_iff_ne, ne_eq]
      exact fun e => h e.symm
    simp [lookupD_cons, h2]
  | cons hd tl ih =>
    rw [List.cons_append, lookupD_cons, lookupD_cons, ih]

theorem find?_eq_of_mem_nodup {α β : Type} [BEq β] [LawfulBEq β] (f : α → β) :
    ∀ (l : List α), ((l.map f).Nodup) → ∀ x ∈ l,
      l.find? (fun y => f y == f x) = some x
  | [], _, x, hx => absurd hx (List.not_mem_nil x)
  | hd :: tl, hnodup, x, hx => by
    have htl := (List.nodup_cons.mp hnodup).2
    rcases List.mem_cons.mp hx with rfl | hx2
    · simp [List.find?_cons]
    · have hne : f hd ≠ f x := fun heq =>
        (List.nodup_cons.mp hnodup).1 (heq ▸ List.mem_map_of_mem f hx2)
      have hb : (f hd == f x) = false := by simpa using hne
      simp only [List.find?_cons, hb, cond_false]
      exact find?_eq_of_mem_nodup f tl htl x hx2

theorem find?_eq_of_name_mem_nodup {α : Type} (f : α → String) (l : List α)
    (hnodup : (l.map f).Nodup) (x : α) (hx : x ∈ l) (n : String)
    (hname : f x = n) : l.find? (fun y => f y == n) = some x := by
  subst hname
  exact find?_eq_of_mem_nodup f l hnodup x hx

theorem findHeap_of_mem_nodup (h : List Watcher)
    (hn : (h.map (fun w => w.objId)).Nodup) (w : Watcher) (hw : w ∈ h) :
    findHeap h w.objId = some w := by
  unfold findHeap
  exact find?_eq_of_mem_nodup (fun w => w.objId) h hn w hw

theorem findHeap_objId (h : List Watcher) (id : Nat) (w : Watcher)
    (hf : findHeap h id = some w) : w.objId = id := by
  have := List.find?_some hf
  simpa using this

theorem findHeap_mem (h : List Watcher) (id : Nat) (w : Watcher)
    (hf : findHeap h id = some w) : w ∈ h :=
  List.mem_of_find?_eq_some hf

theorem lookupD_append (d1 d2 : List (String × Nat)) (k : String) :
    lookupD (d1 ++ d2) k =
      match lookupD d1 k with
      | some v => some v
      | none => lookupD d2 k := by
  unfold lookupD
  rw [List.find?_append]
  cases d1.find? (fun p => p.1 == k) <;> rfl

theorem lookupD_filter_keep (q : String × Nat → Bool) (k : String) :
    ∀ (d : List (String × Nat)), (∀ v, q (k, v) = true) →
      lookupD (d.filter q) k = lookupD d k
  | [], _ => rfl
  | p :: d, hq => by
    cases hqp : q p with
    | true =>
      rw [List.filter_cons, if_pos hqp, lookupD_cons, lookupD_cons]
      cases hk : (p.1 == k) with
      | true => rfl
      | false => simp only [Bool.false_eq_true, if_false]
                 exact lookupD_filter_keep q k d hq
    | false =>
      have hk : (p.1 == k) = false := by
        cases hk : (p.1 == k) with
        | false => rfl
        | true =>
          have h1 : p.1 = k := by simpa using hk
          have : q (k, p.2) = true := hq p.2
          rw [← h1] at this
          rw [show ((p.1, p.2) : String × Nat) = p from rfl] at this
          rw [this] at hqp
          cases hqp
      rw [List.filter_cons, if_neg (by simp [hqp]), lookupD_cons, hk]
      simp only [Bool.false_eq_true, if_false]
      exact lookupD_filter_keep q k d hq

theorem lookupD_filter_out (q : String × Nat → Bool) (k : String) :
    ∀ (d : List (String × Nat)), (∀ v, q (k, v) = false) →
      lookupD (d.filter q) k = none
  | [], _ => rfl
  | p :: d, hq => by
    cases hqp : q p with
    | true =>
      have hk : (p.1 == k) = false := by
        cases hk : (p.1 == k) with
        | false => rfl
        | true =>
          have h1 : p.1 = k := by simpa using hk
          have : q (k, p.2) = false := hq p.2
          rw [← h1] at this
          rw [show ((p.1, p.2) : String × Nat) = p from rfl] at this
          rw [this] at hqp
          cases hqp
      rw [List.filter_cons, if_pos hqp, lookupD_cons, hk]
      simp only [Bool.false_eq_true, if_false]
      exact lookupD_filter_out q k d hq
    | false =>
      rw [List.filter_cons, if_neg (by simp [hqp])]
      exact lookupD_filter_out q k d hq

theorem lookupD_eq_none_of_not_mem_keys (d : List (String × Nat)) (k : String)
    (h : ¬ k ∈ d.map (fun kv => kv.1)) : lookupD d k = none := by
  rw [lookupD_eq_none_iff, List.find?_eq_none]
  intro kv hkv heq
  have h1 : kv.1 = k := by simpa using heq
  refine h ?_
  rw [← h1]
  exact List.mem_map_of_mem (fun kv => kv.1) hkv

theorem filter_eraseD_key (d : List (String × Nat)) (n : String)
    (rest : List String) (hnodup : (d.map (fun kv => kv.1)).Nodup) :
    (eraseD d n).filter (fun kv => !(rest.contains kv.1))
      = d.filter (fun kv => !((n :: rest).contains kv.1)) := by
  unfold eraseD
  rw [eraseP_unique_eq_filter (fun kv => kv.1) n d hnodup]
  rw [List.filter_filter]
  apply List.filter_congr
  intro kv _
  rw [List.contains_cons]
  cases hc : (kv.1 == n) <;> cases hr : (rest.contains kv.1) <;>
    simp [hc, hr]

theorem map_objId_stopInHeap (h : List Watcher) (j : Nat) :
    (stopInHeap h j).map (fun w => w.objId) = h.map (fun w => w.objId) := by
  unfold stopInHeap
  rw [List.map_map]
  apply List.map_congr_left
  intro w _
  cases hj : (w.objId == j) <;> simp [Function.comp, hj]

theorem map_objId_initInHeap (h : List Watcher) (j : Nat) :
    (initInHeap h j).map (fun w => w.objId) = h.map (fun w => w.objId) := by
  unfold initInHeap
  rw [List.map_map]
  apply List.map_congr_left
  intro w _
  cases hj : (w.objId == j) <;> simp [Function.comp, hj]

theorem findHeap_append_left (h1 h2 : List Watcher) (id : Nat) (w : Watcher)
    (h : findHeap h1 id = some w) : findHeap (h1 ++ h2) id = some w := by
  rw [findHeap_append, h]

theorem findHeap_append_right (h1 h2 : List Watcher) (id : Nat)
    (h : ∀ v ∈ h1, v.objId ≠ id) : findHeap (h1 ++ h2) id = findHeap h2 id := by
  rw [findHeap_append]
  have hnone : findHeap h1 id = none := by
    unfold findHeap
    rw [List.find?_eq_none]
    intro v hv
    simpa using h v hv
  rw [hnone]

theorem filterMap_findHeap_names_congr (h h' : List Watcher)
    (hp : ∀ id, heapProj h' id = heapProj h id) :
    ∀ (ids : List Nat),
      ((ids.filterMap (fun id => findHeap h' id)).map (fun w => w.name)) =
      ((ids.filterMap (fun id => findHeap h id)).map (fun w => w.name))
  | [] => rfl
  | id :: ids => by
    have h1 := hp id
    unfold heapProj at h1
    rw [List.filterMap_cons, List.filterMap_cons]
    cases hh : findHeap h id with
    | none =>
      rw [hh] at h1
      cases hh' : findHeap h' id with
      | none => exact filterMap_findHeap_names_congr h h' hp ids
      | some w => rw [hh'] at h1; simp at h1
    | some w =>
      rw [hh] at h1
      cases hh' : findHeap h' id with
      | none => rw [hh'] at h1; simp at h1
      | some w' =>
        rw [hh'] at h1
        have hn : w'.name = w.name := by
          simpa using congrArg (fun o => Option.map Prod.fst o) h1
        rw [List.map_cons, List.map_cons, hn,
          filterMap_findHeap_names_congr h h' hp ids]

theorem mem_objs_iff (a : Arbiter) (w : Watcher) :
    w ∈ a.objs ↔ ∃ id ∈ a.watchers, findHeap a.heap id = some w := by
  unfold Arbiter.objs
  simp [List.mem_filterMap]

theorem iterWatchers_perm (a : Arbiter) (r : Bool) :
    (a.iterWatchers r).Perm a.objs := by
  unfold Arbiter.iterWatchers
  cases r with
  | false =>
    simp only [Bool.false_eq_true, if_false]
    exact List.perm_insertionSort wkeyLe a.objs
  | true =>
    simp only [if_true]
    exact (List.reverse_perm _).trans
      ((List.perm_insertionSort wkeyLe _).trans (List.reverse_perm _))

theorem mem_iterWatchers_names (a : Arbiter) (r : Bool) (n : String) :
    n ∈ (a.iterWatchers r).map (fun w => w.name) ↔
      n ∈ a.objs.map (fun w => w.name) :=
  ((iterWatchers_perm a r).map (fun w => w.name)).mem_iff

theorem nodup_iterWatchers_names (a : Arbiter) (r : Bool)
    (h : (a.objs.map (fun w => w.name)).Nodup) :
    ((a.iterWatchers r).map (fun w => w.name)).Nodup :=
  (((iterWatchers_perm a r).map (fun w => w.name)).nodup_iff).mpr h

theorem close_remove_named :
    ∀ (l : List CircusSocket) (n : String) (s : CircusSocket),
    l.find? (fun t => t.name == n) = some s →
    ((l.map (fun t => t.name)).Nodup) →
    (l.map (fun t => if t == s then { t with bound := false } else t)).eraseP
        (fun t => t.name == s.name)
      = l.eraseP (fun t => t.name == n)
  | [], _, _, hfind, _ => by cases hfind
  | hd :: tl, n, s, hfind, hnodup => by
    have htl : (tl.map (fun t => t.name)).Nodup := (List.nodup_cons.mp hnodup).2
    cases h : (hd.name == n) with
    | true =>
      rw [List.find?_cons, h] at hfind
      injection hfind with hfind
      subst hfind
      simp only [List.map_cons, List.eraseP_cons, h, beq_self_eq_true, if_true,
        cond_true]
      refine (List.map_congr_left ?_).trans (List.map_id tl)
      intro t ht
      have hne : (t == hd) = false := by
        simp only [beq_eq_false_iff_ne, ne_eq]
        exact fun heq => (List.nodup_cons.mp hnodup).1
          (heq ▸ List.mem_map_of_mem (fun t => t.name) ht)
      simp [hne]
    | false =>
      rw [List.find?_cons, h] at hfind
      have hsname : s.name = n := by
        simpa using List.find?_some hfind
      have hne : hd ≠ s := by
        intro heq
        rw [heq, hsname] at h
        simp at h
      have hbe : (hd == s) = false := by
        simp only [beq_eq_false_iff_ne, ne_eq]
        exact hne
      have hname2 : (hd.name == s.name) = false := by
        rw [hsname]; exact h
      simp only [List.map_cons, List.eraseP_cons, hbe, Bool.false_eq_true,
        if_false, hname2, h, cond_false]
      rw [close_remove_named tl n s hfind htl]

theorem changedSocketScan_none_of (a : Arbiter) (cfg : Config) :
    ∀ (ns : List String),
    (∀ n ∈ ns, ∃ s e, a.getSocket n = some s ∧ getSocketConfig cfg n = some e ∧
      socketCfg2dict e = s.cfg) →
    changedSocketScan a cfg ns = none
  | [], _ => rfl
  | n :: rest, h => by
    obtain ⟨s, e, hs, he, hmatch⟩ := h n (List.mem_cons_self n rest)
    unfold changedSocketScan
    simp only [hs, he]
    rw [if_neg (by simp [hmatch])]
    exact changedSocketScan_none_of a cfg rest
      (fun m hm => h m (List.mem_cons_of_mem n hm))

theorem changedSocketScan_matches (a : Arbiter) (cfg : Config) :
    ∀ (ns : List String), changedSocketScan a cfg ns = none →
    ∀ n ∈ ns, ∃ s e, a.getSocket n = some s ∧ getSocketConfig cfg n = some e ∧
      socketCfg2dict e = s.cfg
  | [], _, n, hn => absurd hn (List.not_mem_nil n)
  | m :: rest, h, n, hn => by
    unfold changedSocketScan at h
    cases hs : a.getSocket m with
    | none => simp [hs] at h
    | some s =>
      simp only [hs] at h
      cases he : getSocketConfig cfg m with
      | none => simp [he] at h
      | some e =>
        simp only [he] at h
        by_cases hmatch : socketCfg2dict e ≠ s.cfg
        · rw [if_pos hmatch] at h; cases h
        · rw [if_neg hmatch] at h
          rcases List.mem_cons.mp hn with rfl | hn2
          · exact ⟨s, e, hs, he, not_ne_iff.mp hmatch⟩
          · exact changedSocketScan_matches a cfg rest h n hn2

theorem mem_setAdd (acc : List String) (y x : String) (hx : x ∈ acc ∨ x = y) :
    x ∈ setAdd acc y := by
  unfold setAdd
  rcases hx with hx | rfl
  · split
    · exact hx
    · exact List.mem_append_left _ hx
  · split
    · rename_i hc
      simpa using hc
    · exact List.mem_append_right _ (List.mem_singleton.mpr rfl)

theorem mem_foldl_setAdd_of_mem_acc :
    ∀ (l acc : List String) (x : String), x ∈ acc → x ∈ l.foldl setAdd acc
  | [], _, _, hx => hx
  | y :: l, acc, x, hx =>
    mem_foldl_setAdd_of_mem_acc l (setAdd acc y) x (mem_setAdd acc y x (Or.inl hx))

theorem mem_foldl_setAdd_of_mem :
    ∀ (l acc : List String) (x : String), x ∈ l → x ∈ l.foldl setAdd acc
  | y :: l, acc, x, hx => by
    rcases List.mem_cons.mp hx with rfl | hx2
    · exact mem_foldl_setAdd_of_mem_acc l (setAdd acc x) x
        (mem_setAdd acc x x (Or.inr rfl))
    · exact mem_foldl_setAdd_of_mem l (setAdd acc y) x hx2

theorem iterWatchers_sockets_inv (a : Arbiter) (X : List CircusSocket)
    (r : Bool) :
    ({ a with sockets := X } : Arbiter).iterWatchers r = a.iterWatchers r :=
  rfl

theorem filter_eraseP_name (l : List CircusSocket) (n : String)
    (rest : List String) (hnodup : (l.map (fun s => s.name)).Nodup) :
    (l.eraseP (fun s => s.name == n)).filter
        (fun s => !(rest.contains s.name))
      = l.filter (fun s => !((n :: rest).contains s.name)) := by
  rw [eraseP_unique_eq_filter (fun s => s.name) n l hnodup]
  rw [List.filter_filter]
  apply List.filter_congr
  intro s _
  rw [List.contains_cons]
  cases hc : (s.name == n) <;> cases hr : (rest.contains s.name) <;>
    simp [hc, hr]

theorem deleteSocketsLoop_spec :
    ∀ (ns : List String) (a : Arbiter) (acc : List String),
    ((a.sockets.map (fun s => s.name)).Nodup) →
    ns.Nodup →
    (∀ n ∈ ns, n ∈ a.sockets.map (fun s => s.name)) →
    ∃ wds,
      deleteSocketsLoop a acc ns =
        ({ a with sockets :=
            a.sockets.filter (fun s => !(ns.contains s.name)) },
         (ns.map
           (fun n => [Event.socketClosed n, Event.socketRemoved n])).flatten,
         wds, none) ∧
      (∀ n ∈ ns, ∀ w ∈ a.iterWatchers true,
        strContains w.cmd ("circus.sockets." ++ pyLower n) = true →
          w.name ∈ wds) ∧
      (∀ x ∈ acc, x ∈ wds)
  | [], a, acc, _, _, _ => by
    refine ⟨acc, ?_, ?_, fun x hx => hx⟩
    · have hfil : a.sockets.filter
          (fun s => !(([] : List String).contains s.name)) = a.sockets :=
        List.filter_eq_self.mpr (fun x _ => rfl)
      unfold deleteSocketsLoop
      rw [hfil]
      rfl
    · intro n hn
      cases hn
  | n :: rest, a, acc, hnodupS, hnodupN, hsub => by
    obtain ⟨s, hfind, hsmem, hsname⟩ :=
      find?_name_of_mem (fun s => s.name) a.sockets n
        (hsub n (List.mem_cons_self n rest))
    have hgs : a.getSocket n = some s := hfind
    have herase := close_remove_named a.sockets n s hfind hnodupS
    have hnodupS2 : (((a.sockets.eraseP (fun t => t.name == n)).map
        (fun s => s.name)).Nodup) :=
      ((List.eraseP_sublist a.sockets).map (fun s => s.name)).nodup hnodupS
    have hsub2 : ∀ m ∈ rest,
        m ∈ (a.sockets.eraseP (fun t => t.name == n)).map (fun s => s.name) := by
      intro m hm
      have hmn : m ≠ n := fun heq =>
        (List.nodup_cons.mp hnodupN).1 (heq ▸ hm)
      rw [eraseP_unique_eq_filter (fun s => s.name) n a.sockets hnodupS]
      obtain ⟨t, ht, rfl⟩ :=
        List.mem_map.mp (hsub m (List.mem_cons_of_mem n hm))
      exact List.mem_map_of_mem _
        (List.mem_filter.mpr ⟨ht, by simp [hmn]⟩)
    obtain ⟨wds, heq, hmem, haccsub⟩ :=
      deleteSocketsLoop_spec rest
        { a with sockets := a.sockets.eraseP (fun t => t.name == n) }
        (((a.iterWatchers true).filterMap
            (fun w => if strContains w.cmd ("circus.sockets." ++ pyLower n)
                      then some w.name else none)).foldl setAdd acc)
        hnodupS2 (List.nodup_cons.mp hnodupN).2 hsub2
    refine ⟨wds, ?_, ?_, ?_⟩
    · unfold deleteSocketsLoop
      rw [hgs]
      dsimp only []
      rw [iterWatchers_sockets_inv, herase, heq]
      dsimp only []
      rw [filter_eraseP_name a.sockets n rest hnodupS]
      rfl
    · intro m hm w hw hmark
      rcases List.mem_cons.mp hm with rfl | hm2
      · refine haccsub w.name (mem_foldl_setAdd_of_mem _ acc w.name ?_)
        exact List.mem_filterMap.mpr ⟨w, hw, by rw [if_pos hmark]⟩
      · refine hmem m hm2 w ?_ hmark
        rw [iterWatchers_sockets_inv]
        exact hw
    · intro x hx
      exact haccsub x (mem_foldl_setAdd_of_mem_acc _ acc x hx)

theorem addSocketsLoop_spec (cfg : Config) :
    ∀ (ns : List String) (a : Arbiter),
    (∀ n ∈ ns, n ∈ cfg.sockets.map (fun e => e.name)) →
    addSocketsLoop cfg a ns =
      ({ a with sockets := a.sockets ++ ns.filterMap (fun n =>
          (getSocketConfig cfg n).map (fun e =>
            { CircusSocket.load_from_config e with bound := true })) },
       ns.map Event.socketBound, none)
  | [], a, _ => by
    unfold addSocketsLoop
    simp
  | n :: rest, a, hsub => by
    obtain ⟨e, hfind, hemem, hename⟩ :=
      find?_name_of_mem (fun e => e.name) cfg.sockets n
        (hsub n (List.mem_cons_self n rest))
    have hge : getSocketConfig cfg n = some e := hfind
    have hrec := addSocketsLoop_spec cfg rest
      { a with sockets := a.sockets ++
          [{ CircusSocket.load_from_config e with bound := true }] }
      (fun m hm => hsub m (List.mem_cons_of_mem n hm))
    unfold addSocketsLoop
    rw [hge]
    try dsimp only []
    rw [hrec]
    simp [List.filterMap_cons, hge, List.append_assoc]

theorem reinitWatchers_spec (a : Arbiter) :
    ∃ h',
      reinitWatchers a =
        ({ a with heap := h' },
         (a.iterWatchers true).map (fun w => Event.watcherInitialized w.objId)) ∧
      (∀ id, heapProj h' id = heapProj a.heap id) ∧
      h'.map (fun w => w.objId) = a.heap.map (fun w => w.objId) := by
  suffices h : ∀ (l : List Watcher) (b : Arbiter), ∃ h',
      (l.foldl (fun (st : Arbiter) (w : Watcher) =>
        { st with heap := initInHeap st.heap w.objId }) b) = { b with heap := h' } ∧
      (∀ id, heapProj h' id = heapProj b.heap id) ∧
      h'.map (fun w => w.objId) = b.heap.map (fun w => w.objId) by
    obtain ⟨h', heq, hproj, hids⟩ := h (a.iterWatchers true) a
    refine ⟨h', ?_, hproj, hids⟩
    unfold reinitWatchers
    dsimp only []
    rw [heq]
  intro l
  induction l with
  | nil => exact fun b => ⟨b.heap, rfl, fun _ => rfl, rfl⟩
  | cons w l ih =>
    intro b
    obtain ⟨h', heq, hproj, hids⟩ := ih { b with heap := initInHeap b.heap w.objId }
    refine ⟨h', ?_, fun id => (hproj id).trans (heapProj_initInHeap _ _ _),
      hids.trans (map_objId_initInHeap _ _)⟩
    rw [List.foldl_cons]
    exact heq

theorem socketsPhase_spec (cfg : Config) (a : Arbiter)
    (hnodupS : (a.sockets.map (fun s => s.name)).Nodup)
    (hmatch : ∀ n ∈ dedupFirst (a.sockets.map (fun s => s.name)),
      match a.getSocket n, getSocketConfig cfg n with
      | some s, some e => socketCfg2dict e = s.cfg
      | _, _ => True) :
    ∃ h' wds tr,
      socketsPhase cfg a =
        ({ a with
            heap := h'
          , sockets :=
              a.sockets.filter (fun s =>
                (cfg.sockets.map (fun e => e.name)).contains s.name)
              ++ (setDiff (dedupFirst (cfg.sockets.map (fun e => e.name)))
                    (dedupFirst (a.sockets.map (fun s => s.name)))).filterMap
                  (fun n => (getSocketConfig cfg n).map (fun e =>
                    { CircusSocket.load_from_config e with bound := true })) },
         tr, wds, none) ∧
      (∀ id, heapProj h' id = heapProj a.heap id) ∧
      (h'.map (fun w => w.objId) = a.heap.map (fun w => w.objId)) ∧
      (tr.all (fun e => !e.isWatcherMutation) = true) ∧
      (∀ s ∈ a.sockets, ¬ s.name ∈ cfg.sockets.map (fun e => e.name) →
        ∀ w ∈ a.iterWatchers true,
          strContains w.cmd ("circus.sockets." ++ pyLower s.name) = true →
            w.name ∈ wds) := by
  have hscan : changedSocketScan a cfg
      (setDiff (dedupFirst (a.sockets.map (fun s => s.name)))
        (setDiff (dedupFirst (a.sockets.map (fun s => s.name)))
          (dedupFirst (cfg.sockets.map (fun s => s.name))))) = none := by
    apply changedSocketScan_none_of
    intro n hn
    have hcur : n ∈ dedupFirst (a.sockets.map (fun s => s.name)) :=
      ((mem_setDiff _ _ n).mp hn).1
    have hnew : n ∈ dedupFirst (cfg.sockets.map (fun s => s.name)) := by
      have h2 := ((mem_setDiff _ _ n).mp hn).2
      by_contra hne
      exact h2 ((mem_setDiff _ _ n).mpr ⟨hcur, hne⟩)
    obtain ⟨s, hs, _, hsname⟩ :=
      find?_name_of_mem (fun s => s.name) a.sockets n
        ((mem_dedupFirst _ n).mp hcur)
    obtain ⟨e, he, _, _⟩ :=
      find?_name_of_mem (fun e => e.name) cfg.sockets n
        ((mem_dedupFirst _ n).mp hnew)
    have hgs : a.getSocket n = some s := hs
    have hge : getSocketConfig cfg n = some e := he
    have hm := hmatch n hcur
    rw [hgs, hge] at hm
    exact ⟨s, e, hgs, hge, hm⟩
  have hdelsub : ∀ n ∈ setDiff (dedupFirst (a.sockets.map (fun s => s.name)))
      (dedupFirst (cfg.sockets.map (fun s => s.name))),
      n ∈ a.sockets.map (fun s => s.name) := by
    intro n hn
    exact (mem_dedupFirst _ n).mp ((mem_setDiff _ _ n).mp hn).1
  obtain ⟨wds, hdel, hdelmem, _⟩ :=
    deleteSocketsLoop_spec
      (setDiff (dedupFirst (a.sockets.map (fun s => s.name)))
        (dedupFirst (cfg.sockets.map (fun s => s.name)))) a []
      hnodupS
      (nodup_setDiff _ _ (nodup_dedupFirst _))
      hdelsub
  have haddsub : ∀ n ∈ setDiff (dedupFirst (cfg.sockets.map (fun e => e.name)))
      (dedupFirst (a.sockets.map (fun s => s.name))),
      n ∈ cfg.sockets.map (fun e => e.name) := by
    intro n hn
    exact (mem_dedupFirst _ n).mp ((mem_setDiff _ _ n).mp hn).1
  have hadd := addSocketsLoop_spec cfg
    (setDiff (dedupFirst (cfg.sockets.map (fun e => e.name)))
      (dedupFirst (a.sockets.map (fun s => s.name))))
    { a with sockets := a.sockets.filter (fun s =>
        !((setDiff (dedupFirst (a.sockets.map (fun s => s.name)))
            (dedupFirst (cfg.sockets.map (fun s => s.name)))).contains s.name)) }
    haddsub
  have hfiltereq : a.sockets.filter (fun s =>
      !((setDiff (dedupFirst (a.sockets.map (fun s => s.name)))
          (dedupFirst (cfg.sockets.map (fun s => s.name)))).contains s.name))
      = a.sockets.filter (fun s =>
        (cfg.sockets.map (fun e => e.name)).contains s.name) := by
    apply List.filter_congr
    intro s hs
    have hscur : s.name ∈ dedupFirst (a.sockets.map (fun t => t.name)) :=
      (mem_dedupFirst _ _).mpr (List.mem_map_of_mem (fun t => t.name) hs)
    by_cases hnew : s.name ∈ cfg.sockets.map (fun e => e.name)
    · have h1 : ¬ s.name ∈ setDiff (dedupFirst (a.sockets.map (fun t => t.name)))
          (dedupFirst (cfg.sockets.map (fun e => e.name))) := by
        intro hmem
        exact ((mem_setDiff _ _ _).mp hmem).2 ((mem_dedupFirst _ _).mpr hnew)
      simp [h1, hnew]
    · have h1 : s.name ∈ setDiff (dedupFirst (a.sockets.map (fun t => t.name)))
          (dedupFirst (cfg.sockets.map (fun e => e.name))) :=
        (mem_setDiff _ _ _).mpr
          ⟨hscur, fun hc => hnew ((mem_dedupFirst _ _).mp hc)⟩
      simp [h1, hnew]
  have hwdsprop : ∀ s ∈ a.sockets, ¬ s.name ∈ cfg.sockets.map (fun e => e.name) →
      ∀ w ∈ a.iterWatchers true,
        strContains w.cmd ("circus.sockets." ++ pyLower s.name) = true →
          w.name ∈ wds := by
    intro s hs hnotnew w hw hmark
    refine hdelmem s.name ?_ w hw hmark
    refine (mem_setDiff _ _ _).mpr ⟨(mem_dedupFirst _ _).mpr
      (List.mem_map_of_mem (fun t => t.name) hs), ?_⟩
    exact fun hc => hnotnew ((mem_dedupFirst _ _).mp hc)
  have hall1 : ∀ (ns : List String),
      ((ns.map (fun n => [Event.socketClosed n, Event.socketRemoved n])).flatten).all
        (fun e => !e.isWatcherMutation) = true := by
    intro ns
    rw [List.all_eq_true]
    intro e he
    obtain ⟨l, hl, hel⟩ := List.mem_flatten.mp he
    obtain ⟨n, _, rfl⟩ := List.mem_map.mp hl
    simp only [List.mem_cons, List.not_mem_nil, or_false] at hel
    rcases hel with rfl | rfl <;> rfl
  have hall2 : ∀ (ns : List String),
      (ns.map Event.socketBound).all (fun e => !e.isWatcherMutation) = true := by
    intro ns
    rw [List.all_eq_true]
    intro e he
    obtain ⟨n, _, rfl⟩ := List.mem_map.mp he
    rfl
  have hall3 : ∀ (l : List Watcher),
      ((l.map (fun w => Event.watcherInitialized w.objId)).all
        (fun e => !e.isWatcherMutation)) = true := by
    intro l
    rw [List.all_eq_true]
    intro e he
    obtain ⟨w, _, rfl⟩ := List.mem_map.mp he
    rfl
  by_cases hsplit :
      (setDiff (dedupFirst (cfg.sockets.map (fun s => s.name)))
        (dedupFirst (a.sockets.map (fun s => s.name))) ≠ [] ∨
       setDiff (dedupFirst (a.sockets.map (fun s => s.name)))
        (dedupFirst (cfg.sockets.map (fun s => s.name))) ≠ [])
  · obtain ⟨h3, hreinit3, hproj3, hids3⟩ := reinitWatchers_spec
      { a with sockets :=
          (a.sockets.filter (fun s =>
            !((setDiff (dedupFirst (a.sockets.map (fun s => s.name)))
                (dedupFirst (cfg.sockets.map (fun s => s.name)))).contains s.name))
          ++ (setDiff (dedupFirst (cfg.sockets.map (fun s => s.name)))
                (dedupFirst (a.sockets.map (fun s => s.name)))).filterMap
              (fun n => (getSocketConfig cfg n).map (fun e =>
                { CircusSocket.load_from_config e with bound := true }))) }
    have hphase : socketsPhase cfg a =
        ({ a with
            heap := h3,
            sockets :=
              (a.sockets.filter (fun s =>
                !((setDiff (dedupFirst (a.sockets.map (fun s => s.name)))
                    (dedupFirst (cfg.sockets.map (fun s => s.name)))).contains s.name))
              ++ (setDiff (dedupFirst (cfg.sockets.map (fun s => s.name)))
                    (dedupFirst (a.sockets.map (fun s => s.name)))).filterMap
                  (fun n => (getSocketConfig cfg n).map (fun e =>
                    { CircusSocket.load_from_config e with bound := true }))) },
         ((setDiff (dedupFirst (a.sockets.map (fun s => s.name)))
            (dedupFirst (cfg.sockets.map (fun s => s.name)))).map
              (fun n => [Event.socketClosed n, Event.socketRemoved n])).flatten
           ++ ((setDiff (dedupFirst (cfg.sockets.map (fun s => s.name)))
                (dedupFirst (a.sockets.map (fun s => s.name)))).map
                  Event.socketBound
           ++ (({ a with sockets :=
                (a.sockets.filter (fun s =>
                  !((setDiff (dedupFirst (a.sockets.map (fun s => s.name)))
                      (dedupFirst (cfg.sockets.map (fun s => s.name)))).contains
                        s.name))
                ++ (setDiff (dedupFirst (cfg.sockets.map (fun s => s.name)))
                      (dedupFirst (a.sockets.map (fun s => s.name)))).filterMap
                    (fun n => (getSocketConfig cfg n).map (fun e =>
                      { CircusSocket.load_from_config e with bound := true }))) } :
                  Arbiter).iterWatchers true).map
                (fun w => Event.watcherInitialized w.objId)),
         wds, none) := by
      unfold socketsPhase
      simp only [hscan, hdel, hadd, if_pos hsplit, hreinit3, List.append_assoc]
    rw [hfiltereq] at hphase
    refine ⟨h3, wds, _, hphase, ?_, ?_, ?_, hwdsprop⟩
    · intro id
      exact (hproj3 id).trans rfl
    · exact hids3.trans rfl
    · rw [List.all_append, List.all_append]
      rw [hall1, hall2, hall3]
      rfl
  · have hphase : socketsPhase cfg a =
        ({ a with sockets :=
            (a.sockets.filter (fun s =>
              !((setDiff (dedupFirst (a.sockets.map (fun s => s.name)))
                  (dedupFirst (cfg.sockets.map (fun s => s.name)))).contains s.name))
            ++ (setDiff (dedupFirst (cfg.sockets.map (fun s => s.name)))
                  (dedupFirst (a.sockets.map (fun s => s.name)))).filterMap
                (fun n => (getSocketConfig cfg n).map (fun e =>
                  { CircusSocket.load_from_config e with bound := true }))) },
         ((setDiff (dedupFirst (a.sockets.map (fun s => s.name)))
            (dedupFirst (cfg.sockets.map (fun s => s.name)))).map
              (fun n => [Event.socketClosed n, Event.socketRemoved n])).flatten
           ++ ((setDiff (dedupFirst (cfg.sockets.map (fun s => s.name)))
                (dedupFirst (a.sockets.map (fun s => s.name)))).map
                  Event.socketBound
           ++ []),
         wds, none) := by
      unfold socketsPhase
      simp only [hscan, hdel, hadd, if_neg hsplit, List.append_assoc]
    rw [hfiltereq] at hphase
    refine ⟨a.heap, wds, _, hphase, fun id => rfl, rfl, ?_, hwdsprop⟩
    rw [List.all_append, List.all_append]
    rw [hall1, hall2]
    rfl

theorem findHeap_proj_corr (h h' : List Watcher) (j : Nat)
    (hp : ∀ i, heapProj h' i = heapProj h i) (w : Watcher)
    (hf : findHeap h j = some w) :
    ∃ w', findHeap h' j = some w' ∧ w'.name = w.name ∧ w'.cfg = w.cfg := by
  have h1 := hp j
  unfold heapProj at h1
  rw [hf] at h1
  cases hh' : findHeap h' j with
  | none => rw [hh'] at h1; simp at h1
  | some w' =>
    rw [hh'] at h1
    have h2 : w'.name = w.name ∧ w'.cfg = w.cfg := by simpa using h1
    exact ⟨w', rfl, h2.1, h2.2⟩

theorem findHeap_isSome_of_proj (h h' : List Watcher) (j : Nat)
    (hp : heapProj h' j = heapProj h j) :
    (findHeap h' j).isSome = (findHeap h j).isSome := by
  unfold heapProj at hp
  cases hh : findHeap h j <;> cases hh' : findHeap h' j <;>
    rw [hh, hh'] at hp <;> simp_all

theorem delKeepB_congr (h h' : List Watcher)
    (hp : ∀ i, heapProj h' i = heapProj h i) (l : List String) :
    delKeepB h' l = delKeepB h l :=
  funext fun i => by unfold delKeepB; rw [hp i]

theorem changedWatchersLoop_unchanged (a : Arbiter) (cfg : Config) :
    ∀ (l : List String) (chg del add : List String),
    (∀ n ∈ l, ∃ id w e, a.getWatcher n = some id ∧
      findHeap a.heap id = some w ∧
      getWatcherConfig cfg n = some e ∧ watcherCfg2dict e = w.cfg) →
    changedWatchersLoop a cfg l chg del add = (chg, del, add, none)
  | [], _, _, _, _ => rfl
  | n :: rest, chg, del, add, h => by
    obtain ⟨id, w, e, hid, hw, he, heq⟩ := h n (List.mem_cons_self n rest)
    unfold changedWatchersLoop
    simp only [hid, hw, he]
    rw [if_neg (by simp [heq])]
    exact changedWatchersLoop_unchanged a cfg rest chg del add
      (fun m hm => h m (List.mem_cons_of_mem n hm))

theorem changedWatchersLoop_spec (a : Arbiter) (cfg : Config) :
    ∀ (l chg del add : List String),
    (∀ n ∈ l, ∃ id w e, a.getWatcher n = some id ∧
      findHeap a.heap id = some w ∧ getWatcherConfig cfg n = some e) →
    (∀ n ∈ l, ¬ n ∈ chg) → (∀ n ∈ l, ¬ n ∈ del) → (∀ n ∈ l, ¬ n ∈ add) →
    l.Nodup →
    changedWatchersLoop a cfg l chg del add =
      (chg ++ l.filter (watcherChangedB a cfg),
       del ++ l.filter (watcherChangedB a cfg),
       add ++ l.filter (watcherChangedB a cfg), none)
  | [], chg, del, add, _, _, _, _, _ => by
    unfold changedWatchersLoop
    simp
  | n :: rest, chg, del, add, hres, hc, hd, ha, hnodup => by
    obtain ⟨id, w, e, hid, hw, he⟩ := hres n (List.mem_cons_self n rest)
    have hrest : ∀ m ∈ rest, m ≠ n :=
      fun m hm heq => (List.nodup_cons.mp hnodup).1 (heq ▸ hm)
    unfold changedWatchersLoop
    simp only [hid, hw, he]
    by_cases hch : watcherCfg2dict e ≠ w.cfg
    · have hBn : watcherChangedB a cfg n = true := by
        unfold watcherChangedB
        simp only [hid, hw, he]
        simpa using hch
      rw [if_pos hch]
      rw [setAdd_of_not_mem chg n (hc n (List.mem_cons_self n rest)),
          setAdd_of_not_mem del n (hd n (List.mem_cons_self n rest)),
          setAdd_of_not_mem add n (ha n (List.mem_cons_self n rest))]
      rw [changedWatchersLoop_spec a cfg rest (chg ++ [n]) (del ++ [n])
        (add ++ [n])
        (fun m hm => hres m (List.mem_cons_of_mem n hm))
        (fun m hm hmem => by
          rcases List.mem_append.mp hmem with h1 | h1
          · exact hc m (List.mem_cons_of_mem n hm) h1
          · exact hrest m hm (List.mem_singleton.mp h1))
        (fun m hm hmem => by
          rcases List.mem_append.mp hmem with h1 | h1
          · exact hd m (List.mem_cons_of_mem n hm) h1
          · exact hrest m hm (List.mem_singleton.mp h1))
        (fun m hm hmem => by
          rcases List.mem_append.mp hmem with h1 | h1
          · exact ha m (List.mem_cons_of_mem n hm) h1
          · exact hrest m hm (List.mem_singleton.mp h1))
        (List.nodup_cons.mp hnodup).2]
      simp [List.filter_cons, hBn, List.append_assoc]
    · have hBn : watcherChangedB a cfg n = false := by
        unfold watcherChangedB
        simp only [hid, hw, he]
        simpa using hch
      rw [if_neg hch]
      rw [changedWatchersLoop_spec a cfg rest chg del add
        (fun m hm => hres m (List.mem_cons_of_mem n hm))
        (fun m hm => hc m (List.mem_cons_of_mem n hm))
        (fun m hm => hd m (List.mem_cons_of_mem n hm))
        (fun m hm => ha m (List.mem_cons_of_mem n hm))
        (List.nodup_cons.mp hnodup).2]
      simp [List.filter_cons, hBn]

theorem filter_erase_delKeep (a : Arbiter) (n : String) (id : Nat)
    (w : Watcher) (hT : Tidy a)
    (hlook : lookupD a.watchersNames n = some id)
    (hfw : findHeap a.heap id = some w)
    (hwname : w.name = n) (rest : List String) :
    (a.watchers.erase id).filter (delKeepB a.heap rest)
      = a.watchers.filter (delKeepB a.heap (n :: rest)) := by
  obtain ⟨ht1, ht2, ht3, ht4, ht5, ht6, ht7, ht8, ht9, ht10⟩ := hT
  rw [ht1.erase_eq_filter id, List.filter_filter]
  apply List.filter_congr
  intro j hj
  obtain ⟨wj, hwj⟩ := Option.isSome_iff_exists.mp (ht2 j hj)
  have hjobj : wj ∈ a.objs := (mem_objs_iff a wj).mpr ⟨j, hj, hwj⟩
  have hlkj : lookupD a.watchersNames wj.name = some j := by
    have h1 := ht5 wj hjobj
    rw [findHeap_objId a.heap j wj hwj] at h1
    exact h1
  have hiff : wj.name = n ↔ j = id := by
    constructor
    · intro he
      rw [he, hlook] at hlkj
      exact (Option.some.inj hlkj).symm
    · intro he
      rw [he, hfw] at hwj
      have hwe : w = wj := Option.some.inj hwj
      rw [← hwe, hwname]
  unfold delKeepB heapProj
  simp only [hwj]
  by_cases hje : j = id
  · have hn2 : wj.name = n := hiff.mpr hje
    simp [hje, hn2, List.contains_cons]
  · have hn2 : wj.name ≠ n := fun h2 => hje (hiff.mp h2)
    simp [hje, hn2, List.contains_cons]

theorem tidy_delete_step (a A : Arbiter) (n : String) (id : Nat) (w : Watcher)
    (hT : Tidy a)
    (hlook : lookupD a.watchersNames n = some id)
    (hfw : findHeap a.heap id = some w)
    (hwname : w.name = n)
    (hA : A = { a with
        heap := stopInHeap a.heap id
      , watchers := a.watchers.erase id
      , watchersNames := eraseD a.watchersNames n }) :
    Tidy A ∧
    (∀ m, m ≠ n → m ∈ a.objs.map (fun v => v.name) →
      m ∈ A.objs.map (fun v => v.name)) := by
  subst hA
  obtain ⟨ht1, ht2, ht3, ht4, ht5, ht6, ht7, ht8, ht9, ht10⟩ := hT
  have hproj : ∀ i, heapProj (stopInHeap a.heap id) i = heapProj a.heap i :=
    fun i => heapProj_stopInHeap a.heap id i
  have hWsub : List.Sublist (a.watchers.erase id) a.watchers :=
    List.erase_sublist id a.watchers
  have hnames_eq : (((a.watchers.erase id).filterMap
        (fun j => findHeap (stopInHeap a.heap id) j)).map (fun v => v.name))
      = (((a.watchers.erase id).filterMap
        (fun j => findHeap a.heap j)).map (fun v => v.name)) :=
    filterMap_findHeap_names_congr a.heap (stopInHeap a.heap id) hproj _
  have hnames_sub : List.Sublist
      (((a.watchers.erase id).filterMap
        (fun j => findHeap a.heap j)).map (fun v => v.name))
      (a.objs.map (fun v => v.name)) :=
    (hWsub.filterMap _).map _
  refine ⟨⟨?_, ?_, ?_, ?_, ?_, ?_, ?_, ?_, ?_, ?_⟩, ?_⟩
  · exact hWsub.nodup ht1
  · intro j hj
    show (findHeap (stopInHeap a.heap id) j).isSome
    rw [findHeap_isSome_of_proj a.heap (stopInHeap a.heap id) j (hproj j)]
    exact ht2 j (hWsub.subset hj)
  · intro w' hw'
    obtain ⟨j, hj, hfj⟩ := (mem_objs_iff _ w').mp hw'
    have hj2 : j ∈ a.watchers := hWsub.subset hj
    obtain ⟨w0, hw0⟩ := Option.isSome_iff_exists.mp (ht2 j hj2)
    obtain ⟨w1, hw1, hname1, _⟩ :=
      findHeap_proj_corr a.heap (stopInHeap a.heap id) j hproj w0 hw0
    rw [hfj] at hw1
    have hwe : w' = w1 := Option.some.inj hw1
    have hobj0 : w0 ∈ a.objs := (mem_objs_iff a w0).mpr ⟨j, hj2, hw0⟩
    rw [hwe, hname1]
    exact ht3 w0 hobj0
  · show ((((a.watchers.erase id).filterMap
        (fun j => findHeap (stopInHeap a.heap id) j)).map
          (fun v => v.name)).Nodup)
    rw [hnames_eq]
    exact hnames_sub.nodup ht4
  · intro w' hw'
    obtain ⟨j, hj, hfj⟩ := (mem_objs_iff _ w').mp hw'
    have hj2 : j ∈ a.watchers := hWsub.subset hj
    obtain ⟨w0, hw0⟩ := Option.isSome_iff_exists.mp (ht2 j hj2)
    obtain ⟨w1, hw1, hname1, _⟩ :=
      findHeap_proj_corr a.heap (stopInHeap a.heap id) j hproj w0 hw0
    rw [hfj] at hw1
    have hwe : w' = w1 := Option.some.inj hw1
    have hobj0 : w0 ∈ a.objs := (mem_objs_iff a w0).mpr ⟨j, hj2, hw0⟩
    have hlk0 : lookupD a.watchersNames w0.name = some j := by
      have h1 := ht5 w0 hobj0
      rw [findHeap_objId a.heap j w0 hw0] at h1
      exact h1
    have hjne : j ≠ id := ((ht1.mem_erase_iff).mp hj).1
    have hnea : w'.name ≠ n := by
      intro he
      have h2 : lookupD a.watchersNames n = some j := by
        rw [← he, hwe, hname1]
        exact hlk0
      rw [hlook] at h2
      exact hjne (Option.some.inj h2).symm
    show lookupD (eraseD a.watchersNames n) w'.name = some w'.objId
    rw [lookupD_eraseD_ne a.watchersNames n w'.name hnea]
    rw [findHeap_objId (stopInHeap a.heap id) j w' hfj]
    rw [hwe, hname1]
    exact hlk0
  · intro kv hkv
    have hfilt : eraseD a.watchersNames n
        = a.watchersNames.filter (fun p => !(p.1 == n)) := by
      unfold eraseD
      exact eraseP_unique_eq_filter (fun p : String × Nat => p.1) n _ ht7
    rw [hfilt] at hkv
    have hm := List.mem_filter.mp hkv
    have hkvne : kv.1 ≠ n := by simpa using hm.2
    obtain ⟨hkvw, v, hv, hvname⟩ :
        kv.2 ∈ a.watchers ∧ ∃ v, findHeap a.heap kv.2 = some v ∧
          v.name = kv.1 := by
      have h6 := ht6 kv hm.1
      exact ⟨h6.1, h6.2⟩
    have hne2 : kv.2 ≠ id := by
      intro he
      rw [he, hfw] at hv
      have : w = v := Option.some.inj hv
      exact hkvne (by rw [← hvname, ← this, hwname])
    refine ⟨(ht1.mem_erase_iff).mpr ⟨hne2, hkvw⟩, ?_⟩
    obtain ⟨v', hv', hvn', _⟩ :=
      findHeap_proj_corr a.heap (stopInHeap a.heap id) kv.2 hproj v hv
    exact ⟨v', hv', by rw [hvn', hvname]⟩
  · show (((eraseD a.watchersNames n).map (fun kv => kv.1)).Nodup)
    unfold eraseD
    exact ((List.eraseP_sublist _).map _).nodup ht7
  · intro v hv
    have h1 : v.objId ∈ (stopInHeap a.heap id).map (fun u => u.objId) :=
      List.mem_map_of_mem _ hv
    rw [map_objId_stopInHeap] at h1
    obtain ⟨v0, hv0, hveq⟩ := List.mem_map.mp h1
    show v.objId < a.nextId
    rw [← hveq]
    exact ht8 v0 hv0
  · show (((stopInHeap a.heap id).map (fun u => u.objId)).Nodup)
    rw [map_objId_stopInHeap]
    exact ht9
  · exact ht10
  · intro m hmn hm
    obtain ⟨wm, hwm, hwmname⟩ := List.mem_map.mp hm
    obtain ⟨j, hj, hfj⟩ := (mem_objs_iff a wm).mp hwm
    have hjne : j ≠ id := by
      intro he
      rw [he, hfw] at hfj
      have hwe : w = wm := Option.some.inj hfj
      exact hmn (by rw [← hwmname, ← hwe, hwname])
    obtain ⟨w1, hw1, hname1, _⟩ :=
      findHeap_proj_corr a.heap (stopInHeap a.heap id) j hproj wm hfj
    refine List.mem_map.mpr ⟨w1, ?_, by rw [hname1, hwmname]⟩
    exact (mem_objs_iff _ w1).mpr
      ⟨j, (ht1.mem_erase_iff).mpr ⟨hjne, hj⟩, hw1⟩

theorem deleteWatchersLoop_spec :
    ∀ (l : List String) (a : Arbiter),
    Tidy a →
    (∀ n ∈ l, n ∈ a.objs.map (fun v => v.name)) →
    l.Nodup →
    ∃ h' tr,
      deleteWatchersLoop a l =
        ({ a with
            heap := h'
          , watchers := a.watchers.filter (delKeepB a.heap l)
          , watchersNames :=
              a.watchersNames.filter (fun kv => !(l.contains kv.1)) },
         tr, none) ∧
      (∀ i, heapProj h' i = heapProj a.heap i) ∧
      h'.map (fun v => v.objId) = a.heap.map (fun v => v.objId)
  | [], a, _, _, _ => by
    refine ⟨a.heap, [], ?_, fun _ => rfl, rfl⟩
    have h1 : a.watchers.filter (delKeepB a.heap []) = a.watchers :=
      List.filter_eq_self.mpr (fun j _ => by
        unfold delKeepB
        cases heapProj a.heap j <;> rfl)
    have h2 : a.watchersNames.filter
        (fun kv => !(([] : List String).contains kv.1)) = a.watchersNames :=
      List.filter_eq_self.mpr (fun kv _ => rfl)
    rw [h1, h2]
    rfl
  | n :: rest, a, hT, hsub, hnodup => by
    have hTc := hT
    obtain ⟨ht1, ht2, ht3, ht4, ht5, ht6, ht7, ht8, ht9, ht10⟩ := hTc
    obtain ⟨w0, hw0m, hw0n⟩ : ∃ w0 ∈ a.objs, w0.name = n := by
      obtain ⟨w0, h1, h2⟩ :=
        List.mem_map.mp (hsub n (List.mem_cons_self n rest))
      exact ⟨w0, h1, h2⟩
    have hlookn : lookupD a.watchersNames n = some w0.objId := by
      rw [← hw0n]
      exact ht5 w0 hw0m
    obtain ⟨hidmem, w, hfw, hwname⟩ :
        w0.objId ∈ a.watchers ∧ ∃ w, findHeap a.heap w0.objId = some w ∧
          w.name = n := by
      have h6 := ht6 (n, w0.objId) (lookupD_mem _ _ _ hlookn)
      exact ⟨h6.1, h6.2⟩
    have hwobj : w ∈ a.objs := (mem_objs_iff a w).mpr ⟨w0.objId, hidmem, hfw⟩
    have hplow : pyLower w.name = n := by rw [ht3 w hwobj, hwname]
    have hcont : a.watchers.contains w0.objId = true :=
      List.elem_eq_true_of_mem hidmem
    obtain ⟨hTA, hsubA⟩ := tidy_delete_step a _ n w0.objId w hT hlookn hfw
      hwname rfl
    obtain ⟨h'', tr'', hIH, hproj'', hids''⟩ :=
      deleteWatchersLoop_spec rest
        { a with heap := stopInHeap a.heap w0.objId
               , watchers := a.watchers.erase w0.objId
               , watchersNames := eraseD a.watchersNames n }
        hTA
        (fun m hm => hsubA m
          (fun he => (List.nodup_cons.mp hnodup).1 (he ▸ hm))
          (hsub m (List.mem_cons_of_mem n hm)))
        (List.nodup_cons.mp hnodup).2
    refine ⟨h'', .watcherStopped w0.objId :: .watcherUnregistered w0.objId ::
        .watcherRemoved w0.objId :: tr'', ?_, ?_, ?_⟩
    · unfold deleteWatchersLoop
      simp only [show a.getWatcher n = some w0.objId from hlookn, hfw]
      try dsimp only []
      simp only [hplow, hlookn]
      try dsimp only []
      rw [if_pos hcont]
      rw [hIH]
      try dsimp only []
      rw [delKeepB_congr a.heap (stopInHeap a.heap w0.objId)
        (fun i => heapProj_stopInHeap _ _ i) rest]
      rw [filter_erase_delKeep a n w0.objId w hT hlookn hfw hwname rest]
      rw [filter_eraseD_key a.watchersNames n rest ht7]
    · exact fun i => (hproj'' i).trans (heapProj_stopInHeap _ _ _)
    · exact hids''.trans (map_objId_stopInHeap _ _)

theorem addedWatchers_names (cfg : Config) :
    ∀ (l : List String) (base : Nat),
    (∀ n ∈ l, n ∈ cfg.watchers.map (fun e => e.name)) →
    (addedWatchers cfg base l).map (fun w => w.name) = l
  | [], _, _ => rfl
  | n :: rest, base, hsub => by
    obtain ⟨e, hfind, _, hename⟩ :=
      find?_name_of_mem (fun e => e.name) cfg.watchers n
        (hsub n (List.mem_cons_self n rest))
    have hge : getWatcherConfig cfg n = some e := hfind
    unfold addedWatchers
    simp only [hge]
    rw [List.map_cons]
    rw [addedWatchers_names cfg rest (base + 1)
      (fun m hm => hsub m (List.mem_cons_of_mem n hm))]
    rw [show ({ Watcher.load_from_config e base with
        initialized := true, stopped := false } : Watcher).name = e.name
      from rfl, hename]

theorem addedWatchers_objId_mem (cfg : Config) :
    ∀ (l : List String) (base : Nat) (w : Watcher),
    w ∈ addedWatchers cfg base l → base ≤ w.objId ∧ w.objId < base + l.length
  | [], _, _, hw => absurd hw (List.not_mem_nil _)
  | n :: rest, base, w, hw => by
    unfold addedWatchers at hw
    cases hge : getWatcherConfig cfg n with
    | none => rw [hge] at hw; cases hw
    | some e =>
      rw [hge] at hw
      rcases List.mem_cons.mp hw with rfl | hw2
      · refine ⟨Nat.le_refl _, ?_⟩
        show base < base + (n :: rest).length
        rw [List.length_cons]
        omega
      · have h1 := addedWatchers_objId_mem cfg rest (base + 1) w hw2
        rw [List.length_cons]
        omega

theorem addedWatchers_objId_nodup (cfg : Config) :
    ∀ (l : List String) (base : Nat),
    ((addedWatchers cfg base l).map (fun w => w.objId)).Nodup
  | [], _ => List.nodup_nil
  | n :: rest, base => by
    unfold addedWatchers
    cases hge : getWatcherConfig cfg n with
    | none => exact List.nodup_nil
    | some e =>
      rw [List.map_cons]
      refine List.Nodup.cons ?_ (addedWatchers_objId_nodup cfg rest (base + 1))
      intro hmem
      obtain ⟨w2, hw2, hweq⟩ := List.mem_map.mp hmem
      have hb : w2.objId = base := hweq
      have h1 := (addedWatchers_objId_mem cfg rest (base + 1) w2 hw2).1
      omega

theorem addedWatchers_mem_cfg (cfg : Config) :
    ∀ (l : List String) (base : Nat) (w : Watcher),
    w ∈ addedWatchers cfg base l →
    ∃ e, getWatcherConfig cfg w.name = some e ∧ w.cfg = watcherCfg2dict e
  | [], _, _, hw => absurd hw (List.not_mem_nil _)
  | n :: rest, base, w, hw => by
    unfold addedWatchers at hw
    cases hge : getWatcherConfig cfg n with
    | none => rw [hge] at hw; cases hw
    | some e =>
      rw [hge] at hw
      rcases List.mem_cons.mp hw with rfl | hw2
      · refine ⟨e, ?_, rfl⟩
        have hge2 : cfg.watchers.find? (fun v => v.name == n) = some e := hge
        have hen : e.name = n := by simpa using List.find?_some hge2
        rw [show ({ Watcher.load_from_config e base with
            initialized := true, stopped := false } : Watcher).name = e.name
          from rfl, hen]
        exact hge
      · exact addedWatchers_mem_cfg cfg rest (base + 1) w hw2

theorem addWatchersLoop_spec (cfg : Config) :
    ∀ (l : List String) (a : Arbiter),
    (∀ n ∈ l, n ∈ cfg.watchers.map (fun e => e.name)) →
    (∀ n ∈ l, pyLower n = n) →
    (∀ n ∈ l, lookupD a.watchersNames n = none) →
    l.Nodup →
    ∃ tr,
      addWatchersLoop cfg a l =
        ({ a with
            heap := a.heap ++ addedWatchers cfg a.nextId l
          , nextId := a.nextId + l.length
          , watchers := a.watchers ++
              (addedWatchers cfg a.nextId l).map (fun w => w.objId)
          , watchersNames := a.watchersNames ++
              (addedWatchers cfg a.nextId l).map
                (fun w => (w.name, w.objId)) },
         tr, none)
  | [], a, _, _, _, _ => by
    refine ⟨[], ?_⟩
    unfold addWatchersLoop addedWatchers
    simp
  | n :: rest, a, hsub, hlow, hfresh, hnodup => by
    obtain ⟨e, hfind, _, hename⟩ :=
      find?_name_of_mem (fun e => e.name) cfg.watchers n
        (hsub n (List.mem_cons_self n rest))
    have hge : getWatcherConfig cfg n = some e := hfind
    have hkey : pyLower ({ Watcher.load_from_config e a.nextId with
        initialized := true, stopped := false } : Watcher).name = n := by
      rw [show ({ Watcher.load_from_config e a.nextId with
          initialized := true, stopped := false } : Watcher).name = e.name
        from rfl, hename]
      exact hlow n (List.mem_cons_self n rest)
    have hins : insertD a.watchersNames n a.nextId
        = a.watchersNames ++ [(n, a.nextId)] := by
      unfold insertD
      rw [(lookupD_eq_none_iff _ _).mp (hfresh n (List.mem_cons_self n rest))]
      simp
    obtain ⟨tr, hIH⟩ := addWatchersLoop_spec cfg rest
      { a with
          heap := a.heap ++ [{ Watcher.load_from_config e a.nextId with
            initialized := true, stopped := false }]
        , nextId := a.nextId + 1
        , watchers := a.watchers ++ [a.nextId]
        , watchersNames := a.watchersNames ++ [(n, a.nextId)] }
      (fun m hm => hsub m (List.mem_cons_of_mem n hm))
      (fun m hm => hlow m (List.mem_cons_of_mem n hm))
      (fun m hm => by
        have hmn : m ≠ n := fun he =>
          (List.nodup_cons.mp hnodup).1 (he ▸ hm)
        show lookupD (a.watchersNames ++ [(n, a.nextId)]) m = none
        rw [lookupD_append_ne a.watchersNames n m a.nextId hmn]
        exact hfresh m (List.mem_cons_of_mem n hm))
      (List.nodup_cons.mp hnodup).2
    refine ⟨.watcherConstructed a.nextId :: .watcherInitialized a.nextId ::
        .watcherStarted a.nextId :: .watcherRegistered a.nextId :: tr, ?_⟩
    have hAW : addedWatchers cfg a.nextId (n :: rest)
        = { Watcher.load_from_config e a.nextId with
            initialized := true, stopped := false }
          :: addedWatchers cfg (a.nextId + 1) rest := by
      conv_lhs => unfold addedWatchers
      rw [hge]
    unfold addWatchersLoop
    simp only [hge]
    try dsimp only []
    simp only [hkey, hins]
    rw [hIH]
    try dsimp only []
    rw [hAW]
    simp [List.append_assoc, List.length_cons, hename,
      Nat.add_comm, Nat.add_assoc, Nat.add_left_comm]
    exact ⟨rfl, hename.symm, rfl⟩

theorem contains_eq_true_of_mem (l : List String) (x : String) (h : x ∈ l) :
    l.contains x = true :=
  List.elem_eq_true_of_mem h

theorem contains_eq_false_of_not_mem (l : List String) (x : String)
    (h : ¬ x ∈ l) : l.contains x = false := by
  cases hc : l.contains x with
  | false => rfl
  | true => exact absurd (List.mem_of_elem_eq_true hc) h

theorem setUnionS_nil (a : List String) : setUnionS a [] = a := by
  unfold setUnionS
  simp

theorem filterMap_map_eq_self {α β : Type} (g : α → β) (F : β → Option α) :
    ∀ (l : List α), (∀ x ∈ l, F (g x) = some x) → (l.map g).filterMap F = l
  | [], _ => rfl
  | x :: l, h => by
    rw [List.map_cons, List.filterMap_cons, h x (List.mem_cons_self x l)]
    rw [filterMap_map_eq_self g F l (fun y hy => h y (List.mem_cons_of_mem x hy))]

theorem lookupD_map_pair (n : String) :
    ∀ (l : List Watcher),
    lookupD (l.map (fun w => (w.name, w.objId))) n =
      (l.find? (fun w => w.name == n)).map (fun w => w.objId)
  | [] => rfl
  | w :: l => by
    rw [List.map_cons, lookupD_cons, List.find?_cons]
    cases hw : (w.name == n) with
    | true => simp [hw]
    | false => simp only [hw, cond_false, Bool.false_eq_true, if_false]
               exact lookupD_map_pair n l

theorem lookupD_filter_none (q : String × Nat → Bool) (k : String)
    (d : List (String × Nat)) (h : lookupD d k = none) :
    lookupD (d.filter q) k = none := by
  rw [lookupD_eq_none_iff] at h ⊢
  rw [List.find?_eq_none] at h ⊢
  intro kv hkv
  exact h kv (List.mem_of_mem_filter hkv)

theorem find?_append_first {α : Type} (l1 l2 : List α) (p : α → Bool) (x : α)
    (h : l1.find? p = some x) : (l1 ++ l2).find? p = some x := by
  rw [List.find?_append, h]
  rfl

theorem find?_append_second {α : Type} (l1 l2 : List α) (p : α → Bool)
    (h : l1.find? p = none) : (l1 ++ l2).find? p = l2.find? p := by
  rw [List.find?_append, h]
  rfl

theorem addedSockets_names (cfg : Config) :
    ∀ (l : List String),
    (∀ n ∈ l, n ∈ cfg.sockets.map (fun e => e.name)) →
    ((l.filterMap (fun n => (getSocketConfig cfg n).map (fun e =>
      { CircusSocket.load_from_config e with bound := true }))).map
        (fun s => s.name)) = l
  | [], _ => rfl
  | n :: rest, hsub => by
    obtain ⟨e, hfind, _, hename⟩ :=
      find?_name_of_mem (fun e => e.name) cfg.sockets n
        (hsub n (List.mem_cons_self n rest))
    have hge : getSocketConfig cfg n = some e := hfind
    rw [List.filterMap_cons, hge]
    simp only [Option.map_some']
    rw [List.map_cons]
    rw [addedSockets_names cfg rest
      (fun m hm => hsub m (List.mem_cons_of_mem n hm))]
    rw [show ({ CircusSocket.load_from_config e with bound := true }
        : CircusSocket).name = e.name from rfl, hename]

theorem setDiff_nil_left (b : List String) : setDiff [] b = [] := rfl

theorem setUnionS_nil_nil : setUnionS ([] : List String) [] = [] := rfl

theorem tidy_transfer (a : Arbiter) (h' : List Watcher)
    (S : List CircusSocket) (hT : Tidy a)
    (hp : ∀ i, heapProj h' i = heapProj a.heap i)
    (hids : h'.map (fun w => w.objId) = a.heap.map (fun w => w.objId))
    (hS : (S.map (fun s => s.name)).Nodup) :
    Tidy { a with heap := h', sockets := S } := by
  obtain ⟨ht1, ht2, ht3, ht4, ht5, ht6, ht7, ht8, ht9, ht10⟩ := hT
  have hnames_eq : ((a.watchers.filterMap (fun j => findHeap h' j)).map
        (fun v => v.name))
      = ((a.watchers.filterMap (fun j => findHeap a.heap j)).map
        (fun v => v.name)) :=
    filterMap_findHeap_names_congr a.heap h' hp _
  refine ⟨ht1, ?_, ?_, ?_, ?_, ?_, ht7, ?_, ?_, hS⟩
  · intro j hj
    show (findHeap h' j).isSome
    rw [findHeap_isSome_of_proj a.heap h' j (hp j)]
    exact ht2 j hj
  · intro w' hw'
    obtain ⟨j, hj, hfj⟩ := (mem_objs_iff _ w').mp hw'
    obtain ⟨w0, hw0⟩ := Option.isSome_iff_exists.mp (ht2 j hj)
    obtain ⟨w1, hw1, hname1, _⟩ := findHeap_proj_corr a.heap h' j hp w0 hw0
    rw [hfj] at hw1
    have hwe : w' = w1 := Option.some.inj hw1
    rw [hwe, hname1]
    exact ht3 w0 ((mem_objs_iff a w0).mpr ⟨j, hj, hw0⟩)
  · show (((a.watchers.filterMap (fun j => findHeap h' j)).map
        (fun v => v.name)).Nodup)
    rw [hnames_eq]
    exact ht4
  · intro w' hw'
    obtain ⟨j, hj, hfj⟩ := (mem_objs_iff _ w').mp hw'
    obtain ⟨w0, hw0⟩ := Option.isSome_iff_exists.mp (ht2 j hj)
    obtain ⟨w1, hw1, hname1, _⟩ := findHeap_proj_corr a.heap h' j hp w0 hw0
    rw [hfj] at hw1
    have hwe : w' = w1 := Option.some.inj hw1
    show lookupD a.watchersNames w'.name = some w'.objId
    rw [hwe, hname1, findHeap_objId h' j w1 (hwe ▸ hfj),
      ← findHeap_objId a.heap j w0 hw0]
    exact ht5 w0 ((mem_objs_iff a w0).mpr ⟨j, hj, hw0⟩)
  · intro kv hkv
    obtain ⟨hkvw, v, hv, hvname⟩ :
        kv.2 ∈ a.watchers ∧ ∃ v, findHeap a.heap kv.2 = some v ∧
          v.name = kv.1 := by
      have h6 := ht6 kv hkv
      exact ⟨h6.1, h6.2⟩
    obtain ⟨v', hv', hvn', _⟩ := findHeap_proj_corr a.heap h' kv.2 hp v hv
    exact ⟨hkvw, v', hv', by rw [hvn', hvname]⟩
  · intro v hv
    have h1 : v.objId ∈ h'.map (fun u => u.objId) :=
      List.mem_map_of_mem _ hv
    rw [hids] at h1
    obtain ⟨v0, hv0, hveq⟩ := List.mem_map.mp h1
    show v.objId < a.nextId
    rw [← hveq]
    exact ht8 v0 hv0
  · show ((h'.map (fun u => u.objId)).Nodup)
    rw [hids]
    exact ht9

theorem socket_clauses_after_phase (cfg : Config) (a : Arbiter)
    (S : List CircusSocket)
    (hnodupS : (a.sockets.map (fun s => s.name)).Nodup)
    (hmatch : ∀ n ∈ dedupFirst (a.sockets.map (fun s => s.name)),
      match a.getSocket n, getSocketConfig cfg n with
      | some s, some e => socketCfg2dict e = s.cfg
      | _, _ => True)
    (hS : S = a.sockets.filter (fun s =>
        (cfg.sockets.map (fun e => e.name)).contains s.name)
      ++ (setDiff (dedupFirst (cfg.sockets.map (fun e => e.name)))
            (dedupFirst (a.sockets.map (fun s => s.name)))).filterMap
          (fun n => (getSocketConfig cfg n).map (fun e =>
            { CircusSocket.load_from_config e with bound := true }))) :
    ((S.map (fun s => s.name)).Nodup) ∧
    (∀ n ∈ dedupFirst (cfg.sockets.map (fun s => s.name)),
      n ∈ dedupFirst (S.map (fun s => s.name))) ∧
    (∀ n ∈ dedupFirst (S.map (fun s => s.name)),
      n ∈ dedupFirst (cfg.sockets.map (fun s => s.name))) ∧
    (∀ n ∈ dedupFirst (S.map (fun s => s.name)),
      ∃ s e, S.find? (fun t => t.name == n) = some s ∧
        getSocketConfig cfg n = some e ∧ socketCfg2dict e = s.cfg) := by
  have hdl_sub : ∀ n ∈ setDiff (dedupFirst (cfg.sockets.map (fun e => e.name)))
      (dedupFirst (a.sockets.map (fun s => s.name))),
      n ∈ cfg.sockets.map (fun e => e.name) :=
    fun n hn => (mem_dedupFirst _ n).mp ((mem_setDiff _ _ n).mp hn).1
  have hdl_notcur : ∀ n ∈ setDiff
      (dedupFirst (cfg.sockets.map (fun e => e.name)))
      (dedupFirst (a.sockets.map (fun s => s.name))),
      ¬ n ∈ a.sockets.map (fun s => s.name) :=
    fun n hn hc => ((mem_setDiff _ _ n).mp hn).2 ((mem_dedupFirst _ n).mpr hc)
  have haddednames : ((setDiff (dedupFirst (cfg.sockets.map (fun e => e.name)))
        (dedupFirst (a.sockets.map (fun s => s.name)))).filterMap
          (fun n => (getSocketConfig cfg n).map (fun e =>
            { CircusSocket.load_from_config e with bound := true }))).map
        (fun s => s.name)
      = setDiff (dedupFirst (cfg.sockets.map (fun e => e.name)))
          (dedupFirst (a.sockets.map (fun s => s.name))) :=
    addedSockets_names cfg _ hdl_sub
  have hkeptnodup : ((a.sockets.filter (fun s =>
      (cfg.sockets.map (fun e => e.name)).contains s.name)).map
        (fun s => s.name)).Nodup :=
    ((List.filter_sublist _).map _).nodup hnodupS
  have hkept_in_a : ∀ t ∈ a.sockets.filter (fun s =>
      (cfg.sockets.map (fun e => e.name)).contains s.name),
      t.name ∈ a.sockets.map (fun s => s.name) :=
    fun t ht => List.mem_map_of_mem _ (List.mem_of_mem_filter ht)
  have hkept_in_cfg : ∀ t ∈ a.sockets.filter (fun s =>
      (cfg.sockets.map (fun e => e.name)).contains s.name),
      t.name ∈ cfg.sockets.map (fun e => e.name) := by
    intro t ht
    have hc := List.of_mem_filter ht
    exact List.mem_of_elem_eq_true hc
  have hmapapp : S.map (fun s => s.name)
      = ((a.sockets.filter (fun s =>
          (cfg.sockets.map (fun e => e.name)).contains s.name)).map
            (fun s => s.name))
        ++ setDiff (dedupFirst (cfg.sockets.map (fun e => e.name)))
            (dedupFirst (a.sockets.map (fun s => s.name))) := by
    rw [hS, List.map_append, haddednames]
  have hnodupAll : ((S.map (fun s => s.name)).Nodup) := by
    rw [hmapapp]
    refine List.Nodup.append hkeptnodup
      (nodup_setDiff _ _ (nodup_dedupFirst _)) ?_
    intro x hx1 hx2
    obtain ⟨t, ht, htn⟩ := List.mem_map.mp hx1
    exact hdl_notcur x hx2 (htn ▸ hkept_in_a t ht)
  have hclause3 : ∀ n ∈ S.map (fun s => s.name),
      n ∈ cfg.sockets.map (fun e => e.name) := by
    intro n hn
    rw [hmapapp] at hn
    rcases List.mem_append.mp hn with h1 | h1
    · obtain ⟨t, ht, htn⟩ := List.mem_map.mp h1
      exact htn ▸ hkept_in_cfg t ht
    · exact hdl_sub n h1
  refine ⟨hnodupAll, ?_, ?_, ?_⟩
  · intro n hn
    rw [mem_dedupFirst] at hn
    rw [mem_dedupFirst, hmapapp]
    by_cases hcur : n ∈ a.sockets.map (fun s => s.name)
    · obtain ⟨s0, hs0, hs0n⟩ := List.mem_map.mp hcur
      refine List.mem_append_left _ ?_
      refine List.mem_map.mpr ⟨s0, ?_, hs0n⟩
      refine List.mem_filter.mpr ⟨hs0, ?_⟩
      rw [hs0n]
      exact contains_eq_true_of_mem _ n hn
    · refine List.mem_append_right _ ?_
      exact (mem_setDiff _ _ n).mpr ⟨(mem_dedupFirst _ n).mpr hn,
        fun hc => hcur ((mem_dedupFirst _ n).mp hc)⟩
  · intro n hn
    rw [mem_dedupFirst] at hn
    rw [mem_dedupFirst]
    exact hclause3 n hn
  · intro n hn
    rw [mem_dedupFirst] at hn
    have hncfg : n ∈ cfg.sockets.map (fun e => e.name) := hclause3 n hn
    obtain ⟨e, hfe, hemem, hename⟩ :=
      find?_name_of_mem (fun e => e.name) cfg.sockets n hncfg
    have hge : getSocketConfig cfg n = some e := hfe
    by_cases hcur : n ∈ a.sockets.map (fun s => s.name)
    · obtain ⟨s0, hfind0, hs0mem, hs0n⟩ :=
        find?_name_of_mem (fun s => s.name) a.sockets n hcur
      have hgs : a.getSocket n = some s0 := hfind0
      have hs0kept : s0 ∈ a.sockets.filter (fun s =>
          (cfg.sockets.map (fun e => e.name)).contains s.name) := by
        refine List.mem_filter.mpr ⟨hs0mem, ?_⟩
        rw [hs0n]
        exact contains_eq_true_of_mem _ n hncfg
      have hfk : (a.sockets.filter (fun s =>
          (cfg.sockets.map (fun e => e.name)).contains s.name)).find?
            (fun t => t.name == n) = some s0 :=
        find?_eq_of_name_mem_nodup (fun s => s.name) _ hkeptnodup s0
          hs0kept n hs0n
      refine ⟨s0, e, ?_, hge, ?_⟩
      · rw [hS]
        exact find?_append_first _ _ _ s0 hfk
      · have hm := hmatch n ((mem_dedupFirst _ n).mpr hcur)
        rw [hgs, hge] at hm
        exact hm
    · have hndl : n ∈ setDiff (dedupFirst (cfg.sockets.map (fun e => e.name)))
          (dedupFirst (a.sockets.map (fun s => s.name))) :=
        (mem_setDiff _ _ n).mpr ⟨(mem_dedupFirst _ n).mpr hncfg,
          fun hc => hcur ((mem_dedupFirst _ n).mp hc)⟩
      have hs1mem : ({ CircusSocket.load_from_config e with bound := true }
            : CircusSocket) ∈
          (setDiff (dedupFirst (cfg.sockets.map (fun e => e.name)))
            (dedupFirst (a.sockets.map (fun s => s.name)))).filterMap
              (fun n => (getSocketConfig cfg n).map (fun e =>
                { CircusSocket.load_from_config e with bound := true })) :=
        List.mem_filterMap.mpr ⟨n, hndl, by rw [hge]; rfl⟩
      have hs1name : ({ CircusSocket.load_from_config e with bound := true }
          : CircusSocket).name = n := hename
      have haddnodup : (((setDiff
            (dedupFirst (cfg.sockets.map (fun e => e.name)))
            (dedupFirst (a.sockets.map (fun s => s.name)))).filterMap
              (fun n => (getSocketConfig cfg n).map (fun e =>
                { CircusSocket.load_from_config e with bound := true }))).map
            (fun s => s.name)).Nodup := by
        rw [haddednames]
        exact nodup_setDiff _ _ (nodup_dedupFirst _)
      have hfk : (a.sockets.filter (fun s =>
          (cfg.sockets.map (fun e => e.name)).contains s.name)).find?
            (fun t => t.name == n) = none := by
        rw [List.find?_eq_none]
        intro t ht hbeq
        have htn : t.name = n := by simpa using hbeq
        exact hcur (htn ▸ hkept_in_a t ht)
      refine ⟨{ CircusSocket.load_from_config e with bound := true }, e,
        ?_, hge, rfl⟩
      rw [hS, find?_append_second _ _ _ hfk]
      exact find?_eq_of_name_mem_nodup (fun s => s.name) _ haddnodup _
        hs1mem n hs1name

theorem survivors_names_mem (a : Arbiter) (hT : Tidy a) (delW : List String)
    (n : String) :
    (n ∈ (((a.watchers.filter (delKeepB a.heap delW)).filterMap
        (fun j => findHeap a.heap j)).map (fun v => v.name))) ↔
    (n ∈ a.objs.map (fun v => v.name) ∧ ¬ n ∈ delW) := by
  obtain ⟨ht1, ht2, ht3, ht4, ht5, ht6, ht7, ht8, ht9, ht10⟩ := hT
  constructor
  · intro hn
    obtain ⟨w, hw, hwname⟩ := List.mem_map.mp hn
    obtain ⟨j, hj, hfj⟩ := List.mem_filterMap.mp hw
    have hjw : j ∈ a.watchers := List.mem_of_mem_filter hj
    have hkeep : delKeepB a.heap delW j = true := List.of_mem_filter hj
    have hwobj : w ∈ a.objs := (mem_objs_iff a w).mpr ⟨j, hjw, hfj⟩
    refine ⟨hwname ▸ List.mem_map_of_mem _ hwobj, ?_⟩
    unfold delKeepB heapProj at hkeep
    rw [hfj] at hkeep
    simp only [Option.map_some'] at hkeep
    intro hmem
    rw [hwname, contains_eq_true_of_mem delW n hmem] at hkeep
    simp at hkeep
  · intro hpair
    obtain ⟨hn, hnd⟩ := hpair
    obtain ⟨w, hwobj, hwname⟩ := List.mem_map.mp hn
    obtain ⟨j, hj, hfj⟩ := (mem_objs_iff a w).mp hwobj
    have hkeep : delKeepB a.heap delW j = true := by
      unfold delKeepB heapProj
      rw [hfj]
      simp only [Option.map_some']
      rw [hwname, contains_eq_false_of_not_mem delW n hnd]
      rfl
    exact List.mem_map.mpr ⟨w, List.mem_filterMap.mpr
      ⟨j, List.mem_filter.mpr ⟨hj, hkeep⟩, hfj⟩, hwname⟩

theorem delete_add_spec (cfg : Config) (a3 : Arbiter)
    (delW addAll : List String) (hT : Tidy a3) (hTC : TidyCfg cfg)
    (hdelsub : ∀ n ∈ delW, n ∈ a3.objs.map (fun v => v.name))
    (hdelnodup : delW.Nodup)
    (haddsub : ∀ n ∈ addAll, n ∈ cfg.watchers.map (fun e => e.name))
    (haddnodup : addAll.Nodup)
    (haddfresh : ∀ n ∈ addAll,
      n ∈ delW ∨ ¬ n ∈ a3.objs.map (fun v => v.name)) :
    ∃ a4 a5 t4 t5,
      deleteWatchersLoop a3 delW = (a4, t4, none) ∧
      addWatchersLoop cfg a4 addAll = (a5, t5, none) ∧
      a5.cfg = a3.cfg ∧ a5.configFile = a3.configFile ∧
      a5.sockets = a3.sockets ∧ a5.alive = a3.alive ∧
      (∀ n, n ∈ a5.objs.map (fun v => v.name) ↔
        ((n ∈ a3.objs.map (fun v => v.name) ∧ ¬ n ∈ delW) ∨ n ∈ addAll)) ∧
      (∀ n ∈ a5.objs.map (fun v => v.name),
        ∃ id w, a5.getWatcher n = some id ∧ findHeap a5.heap id = some w ∧
          w.name = n ∧
          ((n ∈ a3.objs.map (fun v => v.name) ∧ ¬ n ∈ delW ∧
            ∃ w3 ∈ a3.objs, w3.name = n ∧ w3.cfg = w.cfg) ∨
           (n ∈ addAll ∧
            ∃ e, getWatcherConfig cfg n = some e ∧
              w.cfg = watcherCfg2dict e))) := by
  have hTc := hT
  obtain ⟨ht1, ht2, ht3, ht4, ht5, ht6, ht7, ht8, ht9, ht10⟩ := hTc
  obtain ⟨h4, t4, hdelEq, hproj4, hids4⟩ :=
    deleteWatchersLoop_spec delW a3 hT hdelsub hdelnodup
  -- keys of the name table are watcher names
  have hkeyobj : ∀ k, k ∈ a3.watchersNames.map (fun kv => kv.1) →
      k ∈ a3.objs.map (fun v => v.name) := by
    intro k hk
    obtain ⟨kv, hkv, hkveq⟩ := List.mem_map.mp hk
    obtain ⟨hkvw, v, hv, hvname⟩ :
        kv.2 ∈ a3.watchers ∧ ∃ v, findHeap a3.heap kv.2 = some v ∧
          v.name = kv.1 := by
      have h6 := ht6 kv hkv
      exact ⟨h6.1, h6.2⟩
    refine List.mem_map.mpr ⟨v, (mem_objs_iff a3 v).mpr ⟨kv.2, hkvw, hv⟩, ?_⟩
    rw [hvname, hkveq]
  have hfresh : ∀ n ∈ addAll,
      lookupD (a3.watchersNames.filter
        (fun kv => !(delW.contains kv.1))) n = none := by
    intro n hn
    rcases haddfresh n hn with hdel | hnobj
    · refine lookupD_filter_out _ n _ ?_
      intro v
      rw [contains_eq_true_of_mem delW n hdel]
      rfl
    · refine lookupD_filter_none _ n _ ?_
      refine lookupD_eq_none_of_not_mem_keys _ n ?_
      exact fun hk => hnobj (hkeyobj n hk)
  have hlow : ∀ n ∈ addAll, pyLower n = n := by
    intro n hn
    obtain ⟨e, he, hename⟩ := List.mem_map.mp (haddsub n hn)
    rw [← hename]
    exact hTC.1 e he
  obtain ⟨t5, haddEq0⟩ := addWatchersLoop_spec cfg addAll
    { a3 with heap := h4
            , watchers := a3.watchers.filter (delKeepB a3.heap delW)
            , watchersNames := a3.watchersNames.filter
                (fun kv => !(delW.contains kv.1)) }
    haddsub hlow hfresh haddnodup
  have haddEq : addWatchersLoop cfg
      { a3 with heap := h4
              , watchers := a3.watchers.filter (delKeepB a3.heap delW)
              , watchersNames := a3.watchersNames.filter
                  (fun kv => !(delW.contains kv.1)) } addAll =
      ({ a3 with
          heap := h4 ++ addedWatchers cfg a3.nextId addAll
        , nextId := a3.nextId + addAll.length
        , watchers := a3.watchers.filter (delKeepB a3.heap delW) ++
            (addedWatchers cfg a3.nextId addAll).map (fun w => w.objId)
        , watchersNames := a3.watchersNames.filter
              (fun kv => !(delW.contains kv.1)) ++
            (addedWatchers cfg a3.nextId addAll).map
              (fun w => (w.name, w.objId)) },
       t5, none) := haddEq0
  -- facts about the added watchers
  have hAWnames : (addedWatchers cfg a3.nextId addAll).map
      (fun w => w.name) = addAll := addedWatchers_names cfg addAll _ haddsub
  have hAWnodup : ((addedWatchers cfg a3.nextId addAll).map
      (fun w => w.name)).Nodup := by
    rw [hAWnames]
    exact haddnodup
  have hh4fresh : ∀ v ∈ h4, v.objId < a3.nextId := by
    intro v hv
    have h1 : v.objId ∈ h4.map (fun u => u.objId) := List.mem_map_of_mem _ hv
    rw [hids4] at h1
    obtain ⟨v0, hv0, hveq⟩ := List.mem_map.mp h1
    rw [← hveq]
    exact ht8 v0 hv0
  have hAWresolve : ∀ w ∈ addedWatchers cfg a3.nextId addAll,
      findHeap (h4 ++ addedWatchers cfg a3.nextId addAll) w.objId
        = some w := by
    intro w hw
    rw [findHeap_append_right]
    · exact findHeap_of_mem_nodup _ (addedWatchers_objId_nodup cfg addAll _)
        w hw
    · intro v hv heq
      have h1 := hh4fresh v hv
      have h2 := (addedWatchers_objId_mem cfg addAll a3.nextId w hw).1
      omega
  -- the survivor references resolve in the new heap exactly as in h4
  have hW4resolve : ∀ j ∈ a3.watchers.filter (delKeepB a3.heap delW),
      findHeap (h4 ++ addedWatchers cfg a3.nextId addAll) j
        = findHeap h4 j := by
    intro j hj
    have hjw : j ∈ a3.watchers := List.mem_of_mem_filter hj
    obtain ⟨w0, hw0⟩ := Option.isSome_iff_exists.mp (ht2 j hjw)
    obtain ⟨w4, hw4, _, _⟩ := findHeap_proj_corr a3.heap h4 j
      (fun i => hproj4 i) w0 hw0
    rw [hw4]
    exact findHeap_append_left _ _ _ _ hw4
  have hpart1 : (a3.watchers.filter (delKeepB a3.heap delW)).filterMap
        (fun j => findHeap (h4 ++ addedWatchers cfg a3.nextId addAll) j)
      = (a3.watchers.filter (delKeepB a3.heap delW)).filterMap
        (fun j => findHeap h4 j) :=
    List.filterMap_congr hW4resolve
  have hpart1names : ((a3.watchers.filter (delKeepB a3.heap delW)).filterMap
        (fun j => findHeap h4 j)).map (fun v => v.name)
      = ((a3.watchers.filter (delKeepB a3.heap delW)).filterMap
        (fun j => findHeap a3.heap j)).map (fun v => v.name) :=
    filterMap_findHeap_names_congr a3.heap h4 (fun i => hproj4 i) _
  have hpart2 : ((addedWatchers cfg a3.nextId addAll).map
        (fun w => w.objId)).filterMap
        (fun j => findHeap (h4 ++ addedWatchers cfg a3.nextId addAll) j)
      = addedWatchers cfg a3.nextId addAll :=
    filterMap_map_eq_self _ _ _ hAWresolve
  refine ⟨_, _, t4, t5, hdelEq, haddEq, rfl, rfl, rfl, rfl, ?_, ?_⟩
  · -- membership characterization of the final objs names
    intro n
    show n ∈ ((a3.watchers.filter (delKeepB a3.heap delW) ++
        (addedWatchers cfg a3.nextId addAll).map (fun w => w.objId)).filterMap
          (fun j => findHeap (h4 ++ addedWatchers cfg a3.nextId addAll) j)).map
            (fun v => v.name) ↔ _
    rw [List.filterMap_append, List.map_append, hpart1, hpart1names, hpart2,
      hAWnames]
    rw [List.mem_append]
    rw [survivors_names_mem a3 hT delW n]
  · intro n hn
    have hn2 : (n ∈ a3.objs.map (fun v => v.name) ∧ ¬ n ∈ delW) ∨
        n ∈ addAll := by
      have hiff : n ∈ ((a3.watchers.filter (delKeepB a3.heap delW) ++
          (addedWatchers cfg a3.nextId addAll).map
            (fun w => w.objId)).filterMap
            (fun j => findHeap (h4 ++ addedWatchers cfg a3.nextId addAll) j)).map
              (fun v => v.name) := hn
      rw [List.filterMap_append, List.map_append, hpart1, hpart1names, hpart2,
        hAWnames, List.mem_append, survivors_names_mem a3 hT delW n] at hiff
      exact hiff
    by_cases haddn : n ∈ addAll
    · -- an added watcher
      have hnAW : n ∈ (addedWatchers cfg a3.nextId addAll).map
          (fun w => w.name) := by rw [hAWnames]; exact haddn
      obtain ⟨w, hwAW, hwname⟩ := List.mem_map.mp hnAW
      have hfindAW : (addedWatchers cfg a3.nextId addAll).find?
          (fun v => v.name == n) = some w :=
        find?_eq_of_name_mem_nodup (fun v => v.name) _ hAWnodup w hwAW n
          hwname
      refine ⟨w.objId, w, ?_, hAWresolve w hwAW, hwname, ?_⟩
      · show lookupD (a3.watchersNames.filter
            (fun kv => !(delW.contains kv.1)) ++
          (addedWatchers cfg a3.nextId addAll).map
            (fun v => (v.name, v.objId))) n = some w.objId
        rw [lookupD_append, hfresh n haddn, lookupD_map_pair, hfindAW]
        rfl
      · refine Or.inr ⟨haddn, ?_⟩
        obtain ⟨e, hge, hcfg⟩ := addedWatchers_mem_cfg cfg addAll _ w hwAW
        rw [hwname] at hge
        exact ⟨e, hge, hcfg⟩
    · -- a surviving watcher
      have hsurv : n ∈ a3.objs.map (fun v => v.name) ∧ ¬ n ∈ delW := by
        rcases hn2 with h1 | h1
        · exact h1
        · exact absurd h1 haddn
      obtain ⟨hnobj, hndel⟩ := hsurv
      obtain ⟨w3, hw3obj, hw3name⟩ := List.mem_map.mp hnobj
      obtain ⟨j0, hj0, hfj0⟩ := (mem_objs_iff a3 w3).mp hw3obj
      have hj0eq : w3.objId = j0 := findHeap_objId a3.heap j0 w3 hfj0
      have hfw3 : findHeap a3.heap w3.objId = some w3 := by
        rw [hj0eq]
        exact hfj0
      have hlk3 : lookupD a3.watchersNames n = some w3.objId := by
        rw [← hw3name]
        exact ht5 w3 hw3obj
      obtain ⟨w4, hw4, hw4name, hw4cfg⟩ := findHeap_proj_corr a3.heap h4
        w3.objId (fun i => hproj4 i) w3 hfw3
      refine ⟨w3.objId, w4, ?_, findHeap_append_left _ _ _ _ hw4, ?_, ?_⟩
      · show lookupD (a3.watchersNames.filter
            (fun kv => !(delW.contains kv.1)) ++
          (addedWatchers cfg a3.nextId addAll).map
            (fun v => (v.name, v.objId))) n = some w3.objId
        rw [lookupD_append, lookupD_filter_keep _ n _ (fun v => by
          rw [contains_eq_false_of_not_mem delW n hndel]
          rfl), hlk3]
      · rw [hw4name, hw3name]
      · exact Or.inl ⟨hnobj, hndel, w3, hw3obj, hw3name, hw4cfg.symm⟩

theorem watchersPhase_spec (cfg : Config) (a3 : Arbiter)
    (hT : Tidy a3) (hTC : TidyCfg cfg) :
    ∃ a5 tw,
      watchersPhase cfg a3 [] = (a5, tw, none) ∧
      a5.cfg = a3.cfg ∧ a5.configFile = a3.configFile ∧
      a5.sockets = a3.sockets ∧ a5.alive = a3.alive ∧
      (∀ n ∈ dedupFirst ((a5.iterWatchers true).map (fun w => w.name)),
        n ∈ dedupFirst (cfg.watchers.map (fun e => e.name))) ∧
      (∀ n ∈ dedupFirst (cfg.watchers.map (fun e => e.name)),
        n ∈ dedupFirst ((a5.iterWatchers true).map (fun w => w.name))) ∧
      (∀ n ∈ dedupFirst ((a5.iterWatchers true).map (fun w => w.name)),
        ∃ id w e, a5.getWatcher n = some id ∧ findHeap a5.heap id = some w ∧
          getWatcherConfig cfg n = some e ∧ watcherCfg2dict e = w.cfg) := by
  have hTc := hT
  obtain ⟨ht1, ht2, ht3, ht4, ht5, ht6, ht7, ht8, ht9, ht10⟩ := hTc
  have hcurmem : ∀ n,
      n ∈ dedupFirst ((a3.iterWatchers true).map (fun w => w.name)) ↔
        n ∈ a3.objs.map (fun v => v.name) :=
    fun n => (mem_dedupFirst _ n).trans (mem_iterWatchers_names a3 true n)
  have hcurnodup :
      (dedupFirst ((a3.iterWatchers true).map (fun w => w.name))).Nodup :=
    nodup_dedupFirst _
  -- resolve a current watcher name through the raw-name table and the heap
  have hderef : ∀ n, n ∈ a3.objs.map (fun v => v.name) →
      ∃ w3, w3 ∈ a3.objs ∧ w3.name = n ∧
        a3.getWatcher n = some w3.objId ∧
        findHeap a3.heap w3.objId = some w3 := by
    intro n hn
    obtain ⟨w3, hw3obj, hw3name⟩ := List.mem_map.mp hn
    obtain ⟨j0, hj0, hfj0⟩ := (mem_objs_iff a3 w3).mp hw3obj
    have hj0eq : w3.objId = j0 := findHeap_objId a3.heap j0 w3 hfj0
    refine ⟨w3, hw3obj, hw3name, ?_, ?_⟩
    · show lookupD a3.watchersNames n = some w3.objId
      rw [← hw3name]
      exact ht5 w3 hw3obj
    · rw [hj0eq]
      exact hfj0
  -- the maybechanged names sit in both the current and the new name sets
  have hmbc : ∀ n ∈ setDiff
      (dedupFirst ((a3.iterWatchers true).map (fun w => w.name)))
      (setDiff (dedupFirst ((a3.iterWatchers true).map (fun w => w.name)))
        (dedupFirst (cfg.watchers.map (fun e => e.name)))),
      n ∈ dedupFirst ((a3.iterWatchers true).map (fun w => w.name)) ∧
        n ∈ dedupFirst (cfg.watchers.map (fun e => e.name)) := by
    intro n hn
    obtain ⟨h1, h2⟩ := (mem_setDiff _ _ n).mp hn
    refine ⟨h1, ?_⟩
    by_contra hnew
    exact h2 ((mem_setDiff _ _ n).mpr ⟨h1, hnew⟩)
  have hres : ∀ n ∈ setDiff
      (dedupFirst ((a3.iterWatchers true).map (fun w => w.name)))
      (setDiff (dedupFirst ((a3.iterWatchers true).map (fun w => w.name)))
        (dedupFirst (cfg.watchers.map (fun e => e.name)))),
      ∃ id w e, a3.getWatcher n = some id ∧ findHeap a3.heap id = some w ∧
        getWatcherConfig cfg n = some e := by
    intro n hn
    obtain ⟨hcur, hnew⟩ := hmbc n hn
    obtain ⟨w3, _, _, hlk, hfw⟩ := hderef n ((hcurmem n).mp hcur)
    obtain ⟨e, hfe, _, _⟩ := find?_name_of_mem (fun e => e.name) cfg.watchers
      n ((mem_dedupFirst _ n).mp hnew)
    exact ⟨w3.objId, w3, e, hlk, hfw, hfe⟩
  have hchgEq := changedWatchersLoop_spec a3 cfg
    (setDiff (dedupFirst ((a3.iterWatchers true).map (fun w => w.name)))
      (setDiff (dedupFirst ((a3.iterWatchers true).map (fun w => w.name)))
        (dedupFirst (cfg.watchers.map (fun e => e.name)))))
    []
    (setDiff (dedupFirst ((a3.iterWatchers true).map (fun w => w.name)))
      (dedupFirst (cfg.watchers.map (fun e => e.name))))
    (setDiff (dedupFirst (cfg.watchers.map (fun e => e.name)))
      (dedupFirst ((a3.iterWatchers true).map (fun w => w.name))))
    hres
    (fun n _ h => absurd h (List.not_mem_nil n))
    (fun n hn h => ((mem_setDiff _ _ n).mp hn).2 h)
    (fun n hn h => ((mem_setDiff _ _ n).mp h).2 ((hmbc n hn).1))
    (nodup_setDiff _ _ hcurnodup)
  -- the changed names, scheduled as delete plus add
  have hchgsub : ∀ n ∈ (setDiff
      (dedupFirst ((a3.iterWatchers true).map (fun w => w.name)))
      (setDiff (dedupFirst ((a3.iterWatchers true).map (fun w => w.name)))
        (dedupFirst (cfg.watchers.map (fun e => e.name))))).filter
          (watcherChangedB a3 cfg),
      n ∈ dedupFirst ((a3.iterWatchers true).map (fun w => w.name)) ∧
        n ∈ dedupFirst (cfg.watchers.map (fun e => e.name)) ∧
        ¬ n ∈ setDiff
          (dedupFirst ((a3.iterWatchers true).map (fun w => w.name)))
          (dedupFirst (cfg.watchers.map (fun e => e.name))) := by
    intro n hn
    have hm := List.mem_of_mem_filter hn
    obtain ⟨h1, h2⟩ := hmbc n hm
    exact ⟨h1, h2, ((mem_setDiff _ _ n).mp hm).2⟩
  obtain ⟨a4, a5, t4, t5, hdelE, haddE, hcfg5, hfile5, hsock5, halive5,
      hmem5, hres5⟩ :=
    delete_add_spec cfg a3
      (setDiff (dedupFirst ((a3.iterWatchers true).map (fun w => w.name)))
        (dedupFirst (cfg.watchers.map (fun e => e.name)))
       ++ (setDiff
          (dedupFirst ((a3.iterWatchers true).map (fun w => w.name)))
          (setDiff (dedupFirst ((a3.iterWatchers true).map (fun w => w.name)))
            (dedupFirst (cfg.watchers.map (fun e => e.name))))).filter
            (watcherChangedB a3 cfg))
      (setDiff (dedupFirst (cfg.watchers.map (fun e => e.name)))
        (dedupFirst ((a3.iterWatchers true).map (fun w => w.name)))
       ++ (setDiff
          (dedupFirst ((a3.iterWatchers true).map (fun w => w.name)))
          (setDiff (dedupFirst ((a3.iterWatchers true).map (fun w => w.name)))
            (dedupFirst (cfg.watchers.map (fun e => e.name))))).filter
            (watcherChangedB a3 cfg))
      hT hTC
      (by
        intro n hn
        rcases List.mem_append.mp hn with h1 | h1
        · exact (hcurmem n).mp ((mem_setDiff _ _ n).mp h1).1
        · exact (hcurmem n).mp (hchgsub n h1).1)
      (by
        refine List.Nodup.append (nodup_setDiff _ _ hcurnodup)
          (List.Nodup.filter _ (nodup_setDiff _ _ hcurnodup)) ?_
        intro x hx1 hx2
        exact (hchgsub x hx2).2.2 hx1)
      (by
        intro n hn
        rcases List.mem_append.mp hn with h1 | h1
        · exact (mem_dedupFirst _ n).mp ((mem_setDiff _ _ n).mp h1).1
        · exact (mem_dedupFirst _ n).mp (hchgsub n h1).2.1)
      (by
        refine List.Nodup.append (nodup_setDiff _ _ (nodup_dedupFirst _))
          (List.Nodup.filter _ (nodup_setDiff _ _ hcurnodup)) ?_
        intro x hx1 hx2
        exact ((mem_setDiff _ _ x).mp hx1).2 (hchgsub x hx2).1)
      (by
        intro n hn
        rcases List.mem_append.mp hn with h1 | h1
        · refine Or.inr ?_
          intro hobj
          exact ((mem_setDiff _ _ n).mp h1).2 ((hcurmem n).mpr hobj)
        · exact Or.inl (List.mem_append_right _ h1))
  refine ⟨a5, t4 ++ t5, ?_, hcfg5, hfile5, hsock5, halive5, ?_, ?_, ?_⟩
  · unfold watchersPhase
    rw [if_neg (by simp : ¬ (([] : List String) ≠ []))]
    simp only [setDiff_nil, setUnionS_nil, hchgEq, List.nil_append,
      hdelE, haddE]
  · -- every running name is configured
    intro n hn
    have hn5 : n ∈ a5.objs.map (fun v => v.name) :=
      (mem_iterWatchers_names a5 true n).mp ((mem_dedupFirst _ n).mp hn)
    rcases (hmem5 n).mp hn5 with ⟨hobj, hndel⟩ | hadd
    · -- survivor: it cannot sit in cur - new, so it is in new
      by_contra hnnew
      refine hndel (List.mem_append_left _ ?_)
      exact (mem_setDiff _ _ n).mpr ⟨(hcurmem n).mpr hobj, hnnew⟩
    · rcases List.mem_append.mp hadd with h1 | h1
      · exact ((mem_setDiff _ _ n).mp h1).1
      · exact (hchgsub n h1).2.1
  · -- every configured name is running
    intro n hn
    rw [mem_dedupFirst, mem_iterWatchers_names]
    refine (hmem5 n).mpr ?_
    by_cases hcur : n ∈ a3.objs.map (fun v => v.name)
    · by_cases hB : watcherChangedB a3 cfg n = true
      · refine Or.inr (List.mem_append_right _ ?_)
        refine List.mem_filter.mpr ⟨?_, hB⟩
        refine (mem_setDiff _ _ n).mpr ⟨(hcurmem n).mpr hcur, ?_⟩
        intro hd
        exact ((mem_setDiff _ _ n).mp hd).2 hn
      · refine Or.inl ⟨hcur, ?_⟩
        intro hdel
        rcases List.mem_append.mp hdel with h1 | h1
        · exact ((mem_setDiff _ _ n).mp h1).2 hn
        · exact hB (List.of_mem_filter h1)
    · refine Or.inr (List.mem_append_left _ ?_)
      exact (mem_setDiff _ _ n).mpr ⟨hn, fun hc => hcur ((hcurmem n).mp hc)⟩
  · -- each running name resolves with a matching snapshot
    intro n hn
    have hn5 : n ∈ a5.objs.map (fun v => v.name) :=
      (mem_iterWatchers_names a5 true n).mp ((mem_dedupFirst _ n).mp hn)
    obtain ⟨id, w, hlk5, hfind5, hwname, hcase⟩ := hres5 n hn5
    rcases hcase with ⟨hobj, hndel, w3, hw3obj, hw3name, hw3cfg⟩ |
      ⟨hadd, e, hge, hcfge⟩
    · -- survivor: the maybechanged test passed, so the snapshots agree
      have hnnew : n ∈ dedupFirst (cfg.watchers.map (fun e => e.name)) := by
        by_contra hnnew
        refine hndel (List.mem_append_left _ ?_)
        exact (mem_setDiff _ _ n).mpr ⟨(hcurmem n).mpr hobj, hnnew⟩
      obtain ⟨e, hfe, _, _⟩ := find?_name_of_mem (fun e => e.name)
        cfg.watchers n ((mem_dedupFirst _ n).mp hnnew)
      have hge : getWatcherConfig cfg n = some e := hfe
      obtain ⟨w3b, hw3bobj, hw3bname, hlk3, hfw3⟩ := hderef n hobj
      have hw3b : w3b = w3 := by
        have h1 : lookupD a3.watchersNames n = some w3.objId := by
          rw [← hw3name]
          exact ht5 w3 hw3obj
        have h2 : w3b.objId = w3.objId :=
          Option.some.inj ((hlk3.symm.trans h1))
        have h3 : findHeap a3.heap w3.objId = some w3 := by
          obtain ⟨j0, hj0, hfj0⟩ := (mem_objs_iff a3 w3).mp hw3obj
          rw [findHeap_objId a3.heap j0 w3 hfj0]
          exact hfj0
        have h4 := hfw3
        rw [h2, h3] at h4
        exact (Option.some.inj h4).symm
      have hB : watcherChangedB a3 cfg n = false := by
        cases hBc : watcherChangedB a3 cfg n with
        | false => rfl
        | true =>
          exfalso
          refine hndel (List.mem_append_right _ ?_)
          refine List.mem_filter.mpr ⟨?_, hBc⟩
          refine (mem_setDiff _ _ n).mpr ⟨(hcurmem n).mpr hobj, ?_⟩
          intro hd
          exact ((mem_setDiff _ _ n).mp hd).2 hnnew
      have hBeq : watcherCfg2dict e = w3.cfg := by
        unfold watcherChangedB at hB
        simp only [hlk3, hfw3, hge] at hB
        rw [hw3b] at hB
        simpa using hB
      exact ⟨id, w, e, hlk5, hfind5, hge, by rw [hBeq, hw3cfg]⟩
    · exact ⟨id, w, e, hlk5, hfind5, hge, hcfge.symm⟩

theorem socketsPhase_of_converged (cfg : Config) (a : Arbiter)
    (hc : Converged cfg a) : socketsPhase cfg a = (a, [], [], none) := by
  obtain ⟨h1, h2, h3, h4, h5, h6, h7⟩ := hc
  have hAdd : setDiff (dedupFirst (cfg.sockets.map (fun s => s.name)))
      (dedupFirst (a.sockets.map (fun s => s.name))) = [] :=
    setDiff_eq_nil _ _ h2
  have hDel : setDiff (dedupFirst (a.sockets.map (fun s => s.name)))
      (dedupFirst (cfg.sockets.map (fun s => s.name))) = [] :=
    setDiff_eq_nil _ _ h3
  have hscan : changedSocketScan a cfg
      (setDiff (dedupFirst (a.sockets.map (fun s => s.name))) []) = none := by
    rw [setDiff_nil]
    exact changedSocketScan_none_of a cfg _ h4
  unfold socketsPhase
  simp only [hAdd, hDel, hscan]
  simp [deleteSocketsLoop, addSocketsLoop]

theorem watchersPhase_of_converged (cfg : Config) (a : Arbiter)
    (hc : Converged cfg a) : watchersPhase cfg a [] = (a, [], none) := by
  obtain ⟨h1, h2, h3, h4, h5, h6, h7⟩ := hc
  have hAddW : setDiff (dedupFirst (cfg.watchers.map (fun e => e.name)))
      (dedupFirst ((a.iterWatchers true).map (fun w => w.name))) = [] :=
    setDiff_eq_nil _ _ h6
  have hDelW : setDiff
      (dedupFirst ((a.iterWatchers true).map (fun w => w.name)))
      (dedupFirst (cfg.watchers.map (fun e => e.name))) = [] :=
    setDiff_eq_nil _ _ h5
  have hchg : changedWatchersLoop a cfg
      (setDiff (dedupFirst ((a.iterWatchers true).map (fun w => w.name))) [])
      [] [] [] = ([], [], [], none) := by
    rw [setDiff_nil]
    exact changedWatchersLoop_unchanged a cfg _ [] [] [] h7
  unfold watchersPhase
  rw [if_neg (by simp : ¬ (([] : List String) ≠ []))]
  simp only [hAddW, hDelW, setDiff_nil_left, setUnionS_nil_nil, hchg]
  simp [deleteWatchersLoop, addWatchersLoop]

theorem reload_noop_of_converged (fs : String → Config) (a : Arbiter)
    (p : Option String) (hc : Converged (fs (p.getD a.configFile)) a) :
    reloadFromConfig fs a p =
      { st := a, trace := [], outcome := .diffApplied } := by
  have hif : ¬ (arbiterCfg2dict (fs (p.getD a.configFile)) ≠ a.cfg) :=
    fun h => h hc.1
  unfold reloadFromConfig
  simp only [if_neg hif, socketsPhase_of_converged _ _ hc,
    watchersPhase_of_converged _ _ hc]
  rfl

/-- When the socket phase collected at least one watcher name referencing
a deleted socket, the watcher phase raises the `ValueError` at once,
before any watcher diffing: the guard at line 250 reduces to nonemptiness
of the collected set. -/
theorem watchersPhase_guard (cfg : Config) (a3 : Arbiter)
    (wds : List String) (h : wds ≠ []) :
    watchersPhase cfg a3 wds =
      (a3, [], some (.valueError "Watchers use a socket which is deleted")) := by
  unfold watchersPhase
  simp only [if_pos h]

theorem reload_diff_converged (fs : String → Config) (a : Arbiter)
    (p : Option String) (hT : Tidy a)
    (hTC : TidyCfg (fs (p.getD a.configFile)))
    (hfirst : (reloadFromConfig fs a p).outcome = .diffApplied) :
    Converged (fs (p.getD a.configFile)) ((reloadFromConfig fs a p).st) ∧
    (reloadFromConfig fs a p).st.configFile = a.configFile := by
  have hTc := hT
  obtain ⟨ht1, ht2, ht3, ht4, ht5, ht6, ht7, ht8, ht9, ht10⟩ := hTc
  -- the arbiter identity is unchanged, else the outcome were a full reload
  by_cases hcfgne : arbiterCfg2dict (fs (p.getD a.configFile)) ≠ a.cfg
  · exfalso
    have hfull : reloadFromConfig fs a p =
        { st := a, trace := []
        , outcome := .fullReload (loadFromConfig fs (p.getD a.configFile)) } := by
      unfold reloadFromConfig
      rw [if_pos hcfgne]
    rw [hfull] at hfirst
    simp at hfirst
  push_neg at hcfgne
  have hif : ¬ (arbiterCfg2dict (fs (p.getD a.configFile)) ≠ a.cfg) :=
    fun h => h hcfgne
  -- the changed-socket scan returned no error, else TypeError propagated
  cases hscan : changedSocketScan a (fs (p.getD a.configFile))
      (setDiff (dedupFirst (a.sockets.map (fun s => s.name)))
        (setDiff (dedupFirst (a.sockets.map (fun s => s.name)))
          (dedupFirst ((fs (p.getD a.configFile)).sockets.map
            (fun s => s.name))))) with
  | some e =>
    exfalso
    have hsp : socketsPhase (fs (p.getD a.configFile)) a
        = (a, [], [], some e) := by
      unfold socketsPhase
      simp only [hscan]
    unfold reloadFromConfig at hfirst
    simp only [if_neg hif, hsp] at hfirst
    simp at hfirst
  | none =>
  have hmatchlist := changedSocketScan_matches a (fs (p.getD a.configFile))
    _ hscan
  have hmatch : ∀ n ∈ dedupFirst (a.sockets.map (fun s => s.name)),
      match a.getSocket n, getSocketConfig (fs (p.getD a.configFile)) n with
      | some s, some e => socketCfg2dict e = s.cfg
      | _, _ => True := by
    intro n hn
    cases hge : getSocketConfig (fs (p.getD a.configFile)) n with
    | none => cases hgs : a.getSocket n <;> simp [hgs, hge]
    | some e =>
      have hge2 : (fs (p.getD a.configFile)).sockets.find?
          (fun t => t.name == n) = some e := hge
      have hen : e.name = n := by simpa using List.find?_some hge2
      have hnnew : n ∈ dedupFirst
          ((fs (p.getD a.configFile)).sockets.map (fun s => s.name)) := by
        refine (mem_dedupFirst _ n).mpr ?_
        exact hen ▸ List.mem_map_of_mem _ (List.mem_of_find?_eq_some hge2)
      have hmem : n ∈ setDiff (dedupFirst (a.sockets.map (fun s => s.name)))
          (setDiff (dedupFirst (a.sockets.map (fun s => s.name)))
            (dedupFirst ((fs (p.getD a.configFile)).sockets.map
              (fun s => s.name)))) :=
        (mem_setDiff _ _ n).mpr
          ⟨hn, fun hd => ((mem_setDiff _ _ n).mp hd).2 hnnew⟩
      obtain ⟨s, e2, hgs, hge3, heq⟩ := hmatchlist n hmem
      have he2 : e2 = e := by
        rw [hge] at hge3
        exact (Option.some.inj hge3).symm
      simp only [hgs, hge]
      rw [← he2]
      exact heq
  obtain ⟨h', wds, tr, hphase, hproj, hids, htr, hwds⟩ :=
    socketsPhase_spec (fs (p.getD a.configFile)) a ht10 hmatch
  -- no watcher referenced a deleted socket, else ValueError propagated
  by_cases hwne : wds ≠ []
  · exfalso
    unfold reloadFromConfig at hfirst
    simp only [if_neg hif, hphase,
      watchersPhase_guard _ _ wds hwne] at hfirst
    simp at hfirst
  push_neg at hwne
  subst hwne
  -- the intermediate state keeps the invariants
  obtain ⟨hSnodup, hc2, hc3, hc4⟩ :=
    socket_clauses_after_phase (fs (p.getD a.configFile)) a
      (a.sockets.filter (fun s =>
        ((fs (p.getD a.configFile)).sockets.map
          (fun e => e.name)).contains s.name)
      ++ (setDiff (dedupFirst ((fs (p.getD a.configFile)).sockets.map
            (fun e => e.name)))
            (dedupFirst (a.sockets.map (fun s => s.name)))).filterMap
          (fun n => (getSocketConfig (fs (p.getD a.configFile)) n).map
            (fun e => { CircusSocket.load_from_config e with bound := true })))
      ht10 hmatch rfl
  have hT3 : Tidy { a with
      heap := h'
    , sockets :=
        a.sockets.filter (fun s =>
          ((fs (p.getD a.configFile)).sockets.map
            (fun e => e.name)).contains s.name)
        ++ (setDiff (dedupFirst ((fs (p.getD a.configFile)).sockets.map
              (fun e => e.name)))
              (dedupFirst (a.sockets.map (fun s => s.name)))).filterMap
            (fun n => (getSocketConfig (fs (p.getD a.configFile)) n).map
              (fun e =>
                { CircusSocket.load_from_config e with bound := true })) } :=
    tidy_transfer a h' _ hT hproj hids hSnodup
  obtain ⟨a5, tw, hwp, hcfg5, hfile5, hsock5, halive5, hw5, hw6, hw7⟩ :=
    watchersPhase_spec (fs (p.getD a.configFile)) _ hT3 hTC
  have hrl : reloadFromConfig fs a p =
      { st := a5, trace := tr ++ tw, outcome := .diffApplied } := by
    unfold reloadFromConfig
    simp only [if_neg hif, hphase, hwp]
  rw [hrl]
  have hSeq : a5.sockets =
      a.sockets.filter (fun s =>
        ((fs (p.getD a.configFile)).sockets.map
          (fun e => e.name)).contains s.name)
      ++ (setDiff (dedupFirst ((fs (p.getD a.configFile)).sockets.map
            (fun e => e.name)))
            (dedupFirst (a.sockets.map (fun s => s.name)))).filterMap
          (fun n => (getSocketConfig (fs (p.getD a.configFile)) n).map
            (fun e =>
              { CircusSocket.load_from_config e with bound := true })) :=
    hsock5
  refine ⟨⟨?_, ?_, ?_, ?_, hw5, hw6, hw7⟩, ?_⟩
  · rw [hcfg5]
    exact hcfgne
  · intro n hn
    show n ∈ dedupFirst (a5.sockets.map (fun s => s.name))
    rw [hSeq]
    exact hc2 n hn
  · intro n hn
    rw [show (a5.sockets.map (fun s => s.name))
        = _ from congrArg (List.map (fun s => s.name)) hSeq] at hn
    exact hc3 n hn
  · intro n hn
    rw [show (a5.sockets.map (fun s => s.name))
        = _ from congrArg (List.map (fun s => s.name)) hSeq] at hn
    obtain ⟨s, e, hfind, hge, hcfg⟩ := hc4 n hn
    refine ⟨s, e, ?_, hge, hcfg⟩
    show a5.sockets.find? (fun t => t.name == n) = some s
    rw [hSeq]
    exact hfind
  · exact hfile5

theorem foldl_alive {β : Type} (g : Arbiter → β → Arbiter)
    (h : ∀ st b, (g st b).alive = st.alive) :
    ∀ (l : List β) (a : Arbiter), (l.foldl g a).alive = a.alive
  | [], _ => rfl
  | b :: l, a => by
    rw [List.foldl_cons, foldl_alive g h l (g a b), h]

theorem foldl_stop_alive (l : List Watcher) (a : Arbiter) :
    (l.foldl (fun (st : Arbiter) (w : Watcher) =>
      { st with heap := stopInHeap st.heap w.objId }) a).alive = a.alive :=
  foldl_alive (fun st w => { st with heap := stopInHeap st.heap w.objId })
    (fun _ _ => rfl) l a

theorem foldl_start_alive (l : List Watcher) (a : Arbiter) :
    (l.foldl (fun (st : Arbiter) (w : Watcher) =>
      { st with heap := startInHeap st.heap w.objId }) a).alive = a.alive :=
  foldl_alive (fun st w => { st with heap := startInHeap st.heap w.objId })
    (fun _ _ => rfl) l a

theorem foldl_init_alive (l : List Watcher) (a : Arbiter) :
    (l.foldl (fun (st : Arbiter) (w : Watcher) =>
      { st with heap := initInHeap st.heap w.objId }) a).alive = a.alive :=
  foldl_alive (fun st w => { st with heap := initInHeap st.heap w.objId })
    (fun _ _ => rfl) l a

theorem foldl_register_alive (l : List Watcher) (a : Arbiter) :
    (l.foldl (fun (st : Arbiter) (w : Watcher) =>
      { st with watchersNames := insertD st.watchersNames (pyLower w.name) w.objId
              , heap := initInHeap st.heap w.objId }) a).alive = a.alive :=
  foldl_alive
    (fun st w =>
      { st with watchersNames := insertD st.watchersNames (pyLower w.name) w.objId
              , heap := initInHeap st.heap w.objId })
    (fun _ _ => rfl) l a

theorem stopWatchers_alive_false (a : Arbiter)
    (h : a.alive = false) (b : Bool) : a.stopWatchers b = (a, []) := by
  unfold Arbiter.stopWatchers
  rw [h]
  rfl

theorem manageWatchers_alive_false (a : Arbiter)
    (h : a.alive = false) : a.manageWatchers = (a, []) := by
  unfold Arbiter.manageWatchers
  rw [h]
  rfl

theorem stopWatchers_alive (a : Arbiter) (b : Bool) :
    (a.stopWatchers b).1.alive = (a.alive && !b) := by
  unfold Arbiter.stopWatchers
  rcases h : a.alive <;> rcases b <;> simp [h, foldl_stop_alive]

theorem startWatchers_alive (a : Arbiter) :
    a.startWatchers.1.alive = a.alive :=
  foldl_start_alive _ _

theorem initAll_alive (a : Arbiter) :
    a.initAll.1.alive = a.alive :=
  foldl_register_alive _ _

theorem addWatcher_alive (a : Arbiter) (n c : String) (o : WatcherOpts) :
    (a.addWatcher n c o).1.alive = a.alive := by
  unfold Arbiter.addWatcher
  split
  · rfl
  · split <;> rfl

theorem rmWatcher_alive (a : Arbiter) (n : String) :
    (a.rmWatcher n).1.alive = a.alive := by
  unfold Arbiter.rmWatcher
  cases lookupD a.watchersNames n
  · rfl
  · simp only []
    split <;> rfl

theorem deleteSocketsLoop_alive (ns : List String) :
    ∀ (a : Arbiter) (acc : List String),
      (deleteSocketsLoop a acc ns).1.alive = a.alive := by
  induction ns with
  | nil => intro a acc; rfl
  | cons n rest ih =>
    intro a acc
    unfold deleteSocketsLoop
    cases a.getSocket n with
    | none => rfl
    | some s =>
      dsimp only []
      rw [ih]

theorem addSocketsLoop_alive (ns : List String) (cfg : Config) :
    ∀ (a : Arbiter), (addSocketsLoop cfg a ns).1.alive = a.alive := by
  induction ns with
  | nil => intro a; rfl
  | cons n rest ih =>
    intro a
    unfold addSocketsLoop
    cases getSocketConfig cfg n with
    | none => rfl
    | some e =>
      dsimp only []
      rw [ih]

theorem reinitWatchers_alive (a : Arbiter) :
    (reinitWatchers a).1.alive = a.alive :=
  foldl_init_alive _ _

theorem deleteWatchersLoop_alive (ns : List String) :
    ∀ (a : Arbiter), (deleteWatchersLoop a ns).1.alive = a.alive := by
  induction ns with
  | nil => intro a; rfl
  | cons n rest ih =>
    intro a
    unfold deleteWatchersLoop
    cases a.getWatcher n with
    | none => rfl
    | some id =>
      dsimp only []
      cases findHeap a.heap id with
      | none => rfl
      | some w =>
        dsimp only []
        cases lookupD a.watchersNames (pyLower w.name) with
        | none => rfl
        | some j =>
          dsimp only []
          split
          · rw [ih]
          · rfl

theorem addWatchersLoop_alive (ns : List String) (cfg : Config) :
    ∀ (a : Arbiter), (addWatchersLoop cfg a ns).1.alive = a.alive := by
  induction ns with
  | nil => intro a; rfl
  | cons n rest ih =>
    intro a
    unfold addWatchersLoop
    cases getWatcherConfig cfg n with
    | none => rfl
    | some e =>
      dsimp only []
      rw [ih]

theorem socketsPhase_alive (cfg : Config) (a : Arbiter) :
    (socketsPhase cfg a).1.alive = a.alive := by
  unfold socketsPhase
  dsimp only []
  split
  · rfl
  · split
    · rename_i a1 t1 wds e heq
      have h := congrArg (fun r => r.1.alive) heq
      dsimp only [] at h
      rw [deleteSocketsLoop_alive] at h
      exact h.symm
    · rename_i a1 t1 wds heq
      have ha1 : a1.alive = a.alive := by
        have h := congrArg (fun r => r.1.alive) heq
        dsimp only [] at h
        rw [deleteSocketsLoop_alive] at h
        exact h.symm
      split
      · rename_i a2 t2 e heq2
        have h := congrArg (fun r => r.1.alive) heq2
        dsimp only [] at h
        rw [addSocketsLoop_alive] at h
        exact h.symm.trans ha1
      · rename_i a2 t2 heq2
        have ha2 : a2.alive = a.alive := by
          have h := congrArg (fun r => r.1.alive) heq2
          dsimp only [] at h
          rw [addSocketsLoop_alive] at h
          exact h.symm.trans ha1
        dsimp only []
        split
        · rw [reinitWatchers_alive]
          exact ha2
        · exact ha2

theorem watchersPhase_alive (cfg : Config) (a : Arbiter) (wds : List String) :
    (watchersPhase cfg a wds).1.alive = a.alive := by
  unfold watchersPhase
  dsimp only []
  split
  · rfl
  · split
    · rfl
    · rename_i r delW addW heq4
      split
      · rename_i a4 t4 e heq5
        have h := congrArg (fun r => r.1.alive) heq5
        dsimp only [] at h
        rw [deleteWatchersLoop_alive] at h
        exact h.symm
      · rename_i a4 t4 heq5
        have ha4 : a4.alive = a.alive := by
          have h := congrArg (fun r => r.1.alive) heq5
          dsimp only [] at h
          rw [deleteWatchersLoop_alive] at h
          exact h.symm
        dsimp only []
        rw [addWatchersLoop_alive]
        exact ha4

theorem reloadFromConfig_alive (fs : String → Config) (a : Arbiter)
    (p : Option String) : (reloadFromConfig fs a p).st.alive = a.alive := by
  unfold reloadFromConfig
  dsimp only []
  split
  · rfl
  · split
    · rename_i a3 ts wds e heq
      have h := congrArg (fun r => r.1.alive) heq
      dsimp only [] at h
      rw [socketsPhase_alive] at h
      exact h.symm
    · rename_i a3 ts wds heq
      have ha3 : a3.alive = a.alive := by
        have h := congrArg (fun r => r.1.alive) heq
        dsimp only [] at h
        rw [socketsPhase_alive] at h
        exact h.symm
      split
      · rename_i a5 tw e heq2
        have h := congrArg (fun r => r.1.alive) heq2
        dsimp only [] at h
        rw [watchersPhase_alive] at h
        exact h.symm.trans ha3
      · rename_i a5 tw heq2
        have h := congrArg (fun r => r.1.alive) heq2
        dsimp only [] at h
        rw [watchersPhase_alive] at h
        exact h.symm.trans ha3

theorem stop_alive (a : Arbiter) : a.stop.1.alive = false := by
  unfold Arbiter.stop
  rcases ha : a.alive <;> simp [ha, stopWatchers_alive]

theorem manageWatchers_state (a : Arbiter) : a.manageWatchers.1 = a := by
  unfold Arbiter.manageWatchers
  split <;> rfl

theorem restart_alive (a : Arbiter) : a.restart.1.alive = a.alive := by
  unfold Arbiter.restart
  dsimp only []
  rw [startWatchers_alive, stopWatchers_alive]
  simp

theorem step_alive_of_false (fs : String → Config) (op : Op) (a : Arbiter)
    (h : a.alive = false) : (step fs op a).1.alive = false := by
  cases op with
  | stop => rw [step, stop_alive]
  | stopWatchers b => rw [step, stopWatchers_alive, h, Bool.false_and]
  | startWatchers => rw [step, startWatchers_alive, h]
  | restart => rw [step, restart_alive, h]
  | manageWatchers => rw [step, manageWatchers_state, h]
  | initAll => rw [step, initAll_alive, h]
  | addWatcher n c o =>
    show (a.addWatcher n c o).1.alive = false
    rw [addWatcher_alive, h]
  | rmWatcher n =>
    show (a.rmWatcher n).1.alive = false
    rw [rmWatcher_alive, h]
  | reloadFromConfig p =>
    show (reloadFromConfig fs a p).st.alive = false
    rw [reloadFromConfig_alive, h]

theorem step_alive_flip (fs : String → Config) (op : Op) (a : Arbiter)
    (ht : a.alive = true) (hf : (step fs op a).1.alive = false) :
    op = .stop ∨ op = .stopWatchers true := by
  cases op with
  | stop => exact Or.inl rfl
  | stopWatchers b =>
    cases b with
    | true => exact Or.inr rfl
    | false =>
      rw [step, stopWatchers_alive, ht] at hf
      simp at hf
  | startWatchers => rw [step, startWatchers_alive, ht] at hf; cases hf
  | restart => rw [step, restart_alive, ht] at hf; cases hf
  | manageWatchers => rw [step, manageWatchers_state, ht] at hf; cases hf
  | initAll => rw [step, initAll_alive, ht] at hf; cases hf
  | addWatcher n c o =>
    rw [show (step fs (.addWatcher n c o) a).1 = (a.addWatcher n c o).1 from rfl,
      addWatcher_alive, ht] at hf
    cases hf
  | rmWatcher n =>
    rw [show (step fs (.rmWatcher n) a).1 = (a.rmWatcher n).1 from rfl,
      rmWatcher_alive, ht] at hf
    cases hf
  | reloadFromConfig p =>
    rw [show (step fs (.reloadFromConfig p) a).1 = (reloadFromConfig fs a p).st from rfl,
      reloadFromConfig_alive, ht] at hf
    cases hf

/-! ## Claims -/

/-- C2: for a reload where only `numprocesses` changed (scenario 4,
`reload4` to `reload5` for `test3`), the claim says the watcher object is
preserved and `set_numprocesses` is called.  Evaluating the code at that
input: the reload succeeds but the running watcher (object 0) is stopped,
unregistered and removed, a fresh object (1) is constructed and started in
its place, and `set_numprocesses` is never called — the `if False:` dead
branch at line 258 skips the optimisation the spec (and the repository's
own test, which asserts `a.watchers[0] == w`) expects. -/
theorem reload_numprocesses_change_replaces_watcher :
    (reloadFromConfig (fun _ => config5) arb4 (some "r5")).outcome =
      .diffApplied ∧
    (reloadFromConfig (fun _ => config5) arb4 (some "r5")).st.watchers = [1] ∧
    Event.watcherStopped 0 ∈
      (reloadFromConfig (fun _ => config5) arb4 (some "r5")).trace ∧
    ((reloadFromConfig (fun _ => config5) arb4 (some "r5")).trace.all
      (fun e => match e with
        | .setNumprocesses _ _ => false
        | _ => true)) = true ∧
    arb4.watchers = [0] := by decide

/-- C3: for a reload where socket `s1` moved from port 9000 to 9001
(scenario 5) while watcher `w` references `circus.sockets.s1`, the claim
says the reload succeeds, rebinding the socket and restarting the watcher.
Evaluating the code: the changed-socket branch reaches
`for w in self.iter_watchers:` (line 218, the call parentheses are
missing), iterating the bound method raises `TypeError`, and the reload
aborts with no state change at all. -/
theorem reload_changed_socket_raises_type_error :
    reloadFromConfig (fun _ => configB5) arbA none =
      { st := arbA, trace := []
      , outcome := .error (.typeError "instancemethod object is not iterable") } ∧
    (∃ s, arbA.getSocket "s1" = some s ∧ s.cfg = s1cfg) ∧
    getSocketConfig configB5 "s1" =
      some { name := "s1", host := "localhost", port := 9001 } ∧
    socketCfg2dict { name := "s1", host := "localhost", port := 9001 } ≠ s1cfg := by
  refine ⟨by decide, ⟨{ name := "s1", cfg := s1cfg, bound := true }, by decide, rfl⟩,
    by decide, by decide⟩

/-- C4: when the `ArbiterCfg` projection of the newly loaded configuration
differs from the stored `cfg`, `reload_from_config` performs no diff at
all: it returns the full reload built by `load_from_config` on the new
file, emits no events, and leaves `self` untouched. -/
theorem reload_arbiter_cfg_change_full_reload (fs : String → Config)
    (a : Arbiter) (p : Option String)
    (h : arbiterCfg2dict (fs (p.getD a.configFile)) ≠ a.cfg) :
    reloadFromConfig fs a p =
      { st := a, trace := []
      , outcome := .fullReload (loadFromConfig fs (p.getD a.configFile)) } := by
  unfold reloadFromConfig
  rw [if_pos h]

/-- Witness for C4 at a concrete changed configuration. -/
theorem reload_arbiter_cfg_change_full_reload_witness :
    arbiterCfg2dict configNewDelay ≠ arbEmpty.cfg ∧
    reloadFromConfig (fun _ => configNewDelay) arbEmpty none =
      { st := arbEmpty, trace := []
      , outcome := .fullReload (loadFromConfig (fun _ => configNewDelay) "P") } :=
  ⟨by decide,
   reload_arbiter_cfg_change_full_reload (fun _ => configNewDelay) arbEmpty none
     (by decide)⟩

/-- C10: `add_watcher` with an empty, unregistered name does not raise — it
**returns** the `ValueError` instance (line 479 of `arbiter.py` has
`return`, not `raise`), constructs nothing and mutates nothing. -/
theorem add_watcher_empty_name_returns_value_error
    (a : Arbiter) (cmd : String) (opts : WatcherOpts)
    (h : lookupD a.watchersNames "" = none) :
    a.addWatcher "" cmd opts =
      (a, [], .valueErrorInstance "command name should not be empty") := by
  unfold Arbiter.addWatcher
  simp [h]

/-- Witness for C10 at the empty arbiter. -/
theorem add_watcher_empty_name_returns_value_error_witness :
    lookupD arbEmpty.watchersNames "" = none ∧
    arbEmpty.addWatcher "" "cmd" {} =
      (arbEmpty, [], .valueErrorInstance "command name should not be empty") :=
  ⟨rfl, add_watcher_empty_name_returns_value_error arbEmpty "cmd" {} rfl⟩

/-- C7 counterexample: with `foo` registered, `add_watcher("FOO")` — the
same name up to letter case — does **not** raise `AlreadyExist`: the raw
name misses the lowercased key, a second watcher is constructed and
appended, and the `foo` table entry is silently overwritten. -/
theorem add_watcher_case_insensitive_counterexample :
    lookupD arbFoo.watchersNames "foo" = some 0 ∧
    pyLower "FOO" = "foo" ∧
    (arbFoo.addWatcher "FOO" "c" {}).2.2 = .watcher 1 ∧
    (arbFoo.addWatcher "FOO" "c" {}).1.watchers = [0, 1] ∧
    (arbFoo.addWatcher "FOO" "c" {}).1.watchersNames = [("foo", 1)] := by decide

/-- C7 (amended): the `AlreadyExist` check compares the **raw** name
against the lowercased keys, so it fires exactly when the given name
equals the lowercase form of a registered one; when it fires nothing is
mutated, and when it does not fire (even for a name differing only in
case from a registered watcher) a new watcher is constructed and
registered. -/
theorem add_watcher_conflict_raw_name
    (a : Arbiter) (name cmd : String) (opts : WatcherOpts) :
    ((lookupD a.watchersNames name).isSome →
      a.addWatcher name cmd opts =
        (a, [], .raised (.alreadyExist (name ++ " already exist")))) ∧
    (lookupD a.watchersNames name = none → name ≠ "" →
      (a.addWatcher name cmd opts).2.2 = .watcher a.nextId ∧
      (a.addWatcher name cmd opts).1.watchers = a.watchers ++ [a.nextId]) := by
  constructor
  · intro h
    unfold Arbiter.addWatcher
    simp [h]
  · intro h hne
    unfold Arbiter.addWatcher
    simp [h, hne]

/-- Witness for C7's amended theorem: exact-name re-registration raises. -/
theorem add_watcher_conflict_raw_name_witness :
    (lookupD arbFoo.watchersNames "foo").isSome = true ∧
    arbFoo.addWatcher "foo" "c" {} =
      (arbFoo, [], .raised (.alreadyExist ("foo" ++ " already exist"))) :=
  ⟨rfl, (add_watcher_conflict_raw_name arbFoo "foo" "c" {}).1 rfl⟩

/-- C6 counterexample: `add_watcher("A"); rm_watcher("A")` does not restore
the state — registration stored the key `a`, and `rm_watcher` pops the raw
key `A`, raising `KeyError` and leaving `numwatchers` at 1. -/
theorem add_rm_watcher_uppercase_counterexample :
    (arbEmpty.addWatcher "A" "cmd" {}).2.2 = .watcher 0 ∧
    ((arbEmpty.addWatcher "A" "cmd" {}).1.rmWatcher "A").2.2 =
      some (.keyError "A") ∧
    ((arbEmpty.addWatcher "A" "cmd" {}).1.rmWatcher "A").1.numwatchers = 1 ∧
    arbEmpty.numwatchers = 0 := by decide

/-- C6 (amended): for a fresh non-empty name that equals its own lowercase
form, `add_watcher` then `rm_watcher` succeeds and restores the watcher
list, the name table, and `numwatchers` to their prior values. -/
theorem add_rm_watcher_roundtrip
    (a : Arbiter) (name cmd : String) (opts : WatcherOpts)
    (hlow : pyLower name = name) (hfree : lookupD a.watchersNames name = none)
    (hne : name ≠ "") (hfresh : a.nextId ∉ a.watchers) :
    (a.addWatcher name cmd opts).2.2 = .watcher a.nextId ∧
    ((a.addWatcher name cmd opts).1.rmWatcher name).2.2 = none ∧
    ((a.addWatcher name cmd opts).1.rmWatcher name).1.watchers = a.watchers ∧
    ((a.addWatcher name cmd opts).1.rmWatcher name).1.watchersNames
      = a.watchersNames ∧
    ((a.addWatcher name cmd opts).1.rmWatcher name).1.numwatchers
      = a.numwatchers := by
  have hins : insertD a.watchersNames (pyLower name) a.nextId
      = a.watchersNames ++ [(name, a.nextId)] := by
    rw [hlow]
    unfold insertD
    rw [lookupD_eq_none_iff] at hfree
    simp [hfree]
  have hadd : a.addWatcher name cmd opts =
      ({ a with
          heap := a.heap ++
            [{ mkWatcher a.nextId name cmd opts with initialized := true }]
        , nextId := a.nextId + 1
        , watchers := a.watchers ++ [a.nextId]
        , watchersNames := a.watchersNames ++ [(name, a.nextId)] },
       [.watcherConstructed a.nextId, .watcherInitialized a.nextId,
        .watcherRegistered a.nextId],
       .watcher a.nextId) := by
    unfold Arbiter.addWatcher
    simp [hfree, hne, hins]
  rw [hadd]
  have hrm : ({ a with
      heap := a.heap ++
        [{ mkWatcher a.nextId name cmd opts with initialized := true }]
    , nextId := a.nextId + 1
    , watchers := a.watchers ++ [a.nextId]
    , watchersNames := a.watchersNames ++ [(name, a.nextId)] } :
      Arbiter).rmWatcher name =
      ({ a with
          heap := stopInHeap (a.heap ++
            [{ mkWatcher a.nextId name cmd opts with initialized := true }])
            a.nextId
        , nextId := a.nextId + 1
        , watchers := a.watchers
        , watchersNames := a.watchersNames },
       [.watcherUnregistered a.nextId, .watcherRemoved a.nextId,
        .watcherStopped a.nextId],
       none) := by
    unfold Arbiter.rmWatcher
    rw [lookupD_append_single a.watchersNames name a.nextId hfree]
    dsimp only []
    rw [eraseD_append_single a.watchersNames name a.nextId hfree]
    have hcontains : (a.watchers ++ [a.nextId]).contains a.nextId = true := by
      simp
    rw [if_pos hcontains]
    rw [List.erase_append_right [a.nextId] hfresh]
    simp [List.erase_cons_head]
  rw [hrm]
  exact ⟨rfl, rfl, rfl, rfl, rfl⟩

/-- Witness for C6's amended round trip at the empty arbiter. -/
theorem add_rm_watcher_roundtrip_witness :
    (pyLower "w" = "w" ∧ lookupD arbEmpty.watchersNames "w" = none ∧
      arbEmpty.nextId ∉ arbEmpty.watchers) ∧
    ((arbEmpty.addWatcher "w" "cmd" {}).1.rmWatcher "w").2.2 = none ∧
    ((arbEmpty.addWatcher "w" "cmd" {}).1.rmWatcher "w").1.numwatchers
      = arbEmpty.numwatchers :=
  ⟨⟨by decide, rfl, by decide⟩,
   (add_rm_watcher_roundtrip arbEmpty "w" "cmd" {} (by decide) rfl (by decide)
      (by decide)).2.1,
   (add_rm_watcher_roundtrip arbEmpty "w" "cmd" {} (by decide) rfl (by decide)
      (by decide)).2.2.2.2⟩

/-- C8 counterexample: two watchers of equal priority whose object
identities run opposite to their insertion order: `iter_watchers(False)`
yields them in object-identity order `[1, 2]`, not insertion order
`[2, 1]` — the tuple sort falls back to comparing the watcher objects
themselves, not the positions. -/
theorem iter_watchers_tie_counterexample :
    (∀ w ∈ arbTie.objs, w.priority = 0) ∧
    arbTie.objs.map (fun w => w.objId) = [2, 1] ∧
    (arbTie.iterWatchers false).map (fun w => w.objId) = [1, 2] := by decide

/-- C8 (amended): `iter_watchers(True)` is sorted decreasing and
`iter_watchers(False)` increasing in the lexicographic key (priority,
object identity): priorities are monotone as claimed, but ties follow the
interpreter's object comparison — descending in one direction and
ascending in the other — not insertion order.  `start_watchers` starts in
the `True` order and `stop_watchers` (while alive) stops in the `False`
order. -/
theorem iter_watchers_priority_sorted (a : Arbiter) (halive : a.alive = true) :
    (a.iterWatchers true).Pairwise (fun w1 w2 => wkeyLe w2 w1) ∧
    (a.iterWatchers false).Pairwise wkeyLe ∧
    a.startWatchers.2 =
      (a.iterWatchers true).map (fun w => Event.watcherStarted w.objId) ∧
    (a.stopWatchers false).2 =
      (a.iterWatchers false).map (fun w => Event.watcherStopped w.objId) := by
  refine ⟨?_, ?_, rfl, ?_⟩
  · unfold Arbiter.iterWatchers
    rw [if_pos rfl, List.pairwise_reverse]
    exact List.sorted_insertionSort wkeyLe _
  · exact List.sorted_insertionSort wkeyLe _
  · unfold Arbiter.stopWatchers
    simp [halive]

/-- Witness for C8's amended ordering at the tied-priority fixture. -/
theorem iter_watchers_priority_sorted_witness :
    arbTie.alive = true ∧
    ((arbTie.iterWatchers true).Pairwise (fun w1 w2 => wkeyLe w2 w1) ∧
     (arbTie.iterWatchers false).Pairwise wkeyLe ∧
     arbTie.startWatchers.2 =
       (arbTie.iterWatchers true).map (fun w => Event.watcherStarted w.objId) ∧
     (arbTie.stopWatchers false).2 =
       (arbTie.iterWatchers false).map (fun w => Event.watcherStopped w.objId)) :=
  ⟨rfl, iter_watchers_priority_sorted arbTie rfl⟩

/-- C9: the `alive` flag never returns to `true` under any operation; it
drops to `false` only through `stop` or `stop_watchers(stop_alive=True)`;
and once `false`, `manage_watchers` and `stop_watchers` return immediately
without touching the state or emitting any event. -/
theorem alive_flag_lifecycle (fs : String → Config) (op : Op) (a : Arbiter) :
    ((step fs op a).1.alive = true → a.alive = true) ∧
    (a.alive = true → (step fs op a).1.alive = false →
      op = .stop ∨ op = .stopWatchers true) ∧
    (a.alive = false →
      a.manageWatchers = (a, []) ∧ ∀ b, a.stopWatchers b = (a, [])) := by
  refine ⟨?_, step_alive_flip fs op a, ?_⟩
  · intro h
    cases ha : a.alive with
    | true => rfl
    | false =>
      rw [step_alive_of_false fs op a ha] at h
      cases h
  · intro h
    exact ⟨manageWatchers_alive_false a h,
      fun b => stopWatchers_alive_false a h b⟩

/-- Witness for C9 at a stopped arbiter. -/
theorem alive_flag_lifecycle_witness :
    arbDead.alive = false ∧ arbDead.manageWatchers = (arbDead, []) ∧
    arbDead.stopWatchers true = (arbDead, []) :=
  ⟨rfl,
   ((alive_flag_lifecycle (fun _ => baseConfig) .manageWatchers arbDead).2.2
      rfl).1,
   ((alive_flag_lifecycle (fun _ => baseConfig) .manageWatchers arbDead).2.2
      rfl).2 true⟩

/-- C5 (amended): for a well-formed arbiter whose watcher names are
lowercase (part of `Tidy`) and a configuration with lowercase watcher
names (part of `TidyCfg`), if a first `reload_from_config` succeeds by
diffing, an immediately following `reload_from_config` of the same path
is a no-op: it emits no events, raises nothing, and returns the state of
the first call unchanged. -/
theorem reload_idempotent_lowercase (fs : String → Config) (a : Arbiter)
    (p : Option String) (hT : Tidy a)
    (hTC : TidyCfg (fs (p.getD a.configFile)))
    (hfirst : (reloadFromConfig fs a p).outcome = .diffApplied) :
    reloadFromConfig fs (reloadFromConfig fs a p).st p =
      { st := (reloadFromConfig fs a p).st, trace := []
      , outcome := .diffApplied } := by
  obtain ⟨hconv, hfile⟩ := reload_diff_converged fs a p hT hTC hfirst
  have hconv2 : Converged
      (fs (p.getD (reloadFromConfig fs a p).st.configFile))
      (reloadFromConfig fs a p).st := by
    rw [hfile]
    exact hconv
  exact reload_noop_of_converged fs _ p hconv2

/-- Witness for C5: the `foo` arbiter reloaded twice against the matching
configuration; the first call applies an empty diff, the second is a
no-op. -/
theorem reload_idempotent_lowercase_witness :
    Tidy arbFoo ∧ TidyCfg configFoo ∧
    (reloadFromConfig (fun _ => configFoo) arbFoo none).outcome
      = .diffApplied ∧
    reloadFromConfig (fun _ => configFoo)
        (reloadFromConfig (fun _ => configFoo) arbFoo none).st none =
      { st := (reloadFromConfig (fun _ => configFoo) arbFoo none).st
      , trace := [], outcome := .diffApplied } := by
  have hTf : Tidy arbFoo := by
    refine ⟨by decide, by decide, by decide, by decide, by decide, ?_,
      by decide, by decide, by decide, by decide⟩
    intro kv hkv
    have hkv2 : kv = ("foo", 0) := List.mem_singleton.mp hkv
    subst hkv2
    exact ⟨by decide, mkWatcher 0 "foo" "c" {}, rfl, rfl⟩
  have hTCf : TidyCfg configFoo := ⟨by decide, by decide, by decide⟩
  refine ⟨hTf, hTCf, by decide, ?_⟩
  exact reload_idempotent_lowercase (fun _ => configFoo) arbFoo none hTf
    hTCf (by decide)

/-- C5 counterexample: a configuration with the uppercase watcher name
`Test`. The first reload succeeds (and registers the key `test`), but the
second reload of the same path raises `KeyError("Test")` inside the
maybe-changed scan — `get_watcher` looks the raw name up in the
lowercased-key table — instead of being a quiet no-op. -/
theorem reload_twice_uppercase_counterexample :
    firstReloadT.outcome = .diffApplied ∧
    (reloadFromConfig (fun _ => configT) firstReloadT.st none).outcome =
      .error (.keyError "Test") ∧
    (reloadFromConfig (fun _ => configT) firstReloadT.st none).st
      = firstReloadT.st := by decide

/-- C1 (amended): when the reload deletes a socket referenced by some
watcher command, `reload_from_config` raises the `ValueError` before the
watcher phase mutates anything: the watcher list and name table come out
unchanged, the heap is preserved up to the projection to names and
configurations, and the trace carries no watcher mutation — but the socket
deletions and additions have already been applied, so the state does not
remain at A. -/
theorem reload_orphaned_socket_fail_fast (fs : String → Config)
    (a : Arbiter) (p : Option String)
    (hcfg : arbiterCfg2dict (fs (p.getD a.configFile)) = a.cfg)
    (hnodupS : (a.sockets.map (fun s => s.name)).Nodup)
    (hmatch : ∀ n ∈ dedupFirst (a.sockets.map (fun s => s.name)),
      match a.getSocket n, getSocketConfig (fs (p.getD a.configFile)) n with
      | some s, some e => socketCfg2dict e = s.cfg
      | _, _ => True)
    (href : ∃ s ∈ a.sockets,
      ¬ s.name ∈ (fs (p.getD a.configFile)).sockets.map (fun e => e.name) ∧
      ∃ w ∈ a.iterWatchers true,
        strContains w.cmd ("circus.sockets." ++ pyLower s.name) = true) :
    ∃ h' tr,
      (∀ id, heapProj h' id = heapProj a.heap id) ∧
      tr.all (fun e => !e.isWatcherMutation) = true ∧
      reloadFromConfig fs a p =
        { st := { a with
            heap := h'
          , sockets :=
              a.sockets.filter (fun s =>
                ((fs (p.getD a.configFile)).sockets.map
                  (fun e => e.name)).contains s.name)
              ++ (setDiff
                    (dedupFirst ((fs (p.getD a.configFile)).sockets.map
                      (fun e => e.name)))
                    (dedupFirst (a.sockets.map (fun s => s.name)))).filterMap
                  (fun n => (getSocketConfig (fs (p.getD a.configFile)) n).map
                    (fun e =>
                      { CircusSocket.load_from_config e with bound := true })) }
        , trace := tr
        , outcome :=
            .error (.valueError "Watchers use a socket which is deleted") } := by
  obtain ⟨h', wds, tr, hphase, hproj, hids, htr, hwds⟩ :=
    socketsPhase_spec (fs (p.getD a.configFile)) a hnodupS hmatch
  obtain ⟨s, hs, hnot, w, hw, hmark⟩ := href
  have hwmem : w.name ∈ wds := hwds s hs hnot w hw hmark
  have hne : wds ≠ [] := by
    intro hnil
    rw [hnil] at hwmem
    exact List.not_mem_nil _ hwmem
  have hif : ¬ (arbiterCfg2dict (fs (p.getD a.configFile)) ≠ a.cfg) :=
    fun h => h hcfg
  refine ⟨h', tr ++ [], hproj, ?_, ?_⟩
  · rw [List.all_append, htr]
    rfl
  · unfold reloadFromConfig
    simp only [if_neg hif, hphase, watchersPhase_guard _ _ wds hne]

/-- Witness for C1 at scenario 6 (`arbA` reloaded with config B, which
drops socket `s1` while keeping watcher `w`). -/
theorem reload_orphaned_socket_fail_fast_witness :
    (∃ s ∈ arbA.sockets,
      ¬ s.name ∈ configB.sockets.map (fun e => e.name) ∧
      ∃ w ∈ arbA.iterWatchers true,
        strContains w.cmd ("circus.sockets." ++ pyLower s.name) = true) ∧
    (∃ h' tr,
      (∀ id, heapProj h' id = heapProj arbA.heap id) ∧
      tr.all (fun e => !e.isWatcherMutation) = true ∧
      reloadFromConfig (fun _ => configB) arbA (some "B") =
        { st := { arbA with heap := h', sockets := [] }
        , trace := tr
        , outcome :=
            .error (.valueError "Watchers use a socket which is deleted") }) := by
  have href : ∃ s ∈ arbA.sockets,
      ¬ s.name ∈ configB.sockets.map (fun e => e.name) ∧
      ∃ w ∈ arbA.iterWatchers true,
        strContains w.cmd ("circus.sockets." ++ pyLower s.name) = true :=
    ⟨{ name := "s1", cfg := s1cfg, bound := true }, by decide, by decide,
     wWatcher, by decide, by decide⟩
  have hmatch : ∀ n ∈ dedupFirst (arbA.sockets.map (fun s => s.name)),
      match arbA.getSocket n, getSocketConfig configB n with
      | some s, some e => socketCfg2dict e = s.cfg
      | _, _ => True := by
    intro n hn
    have hn1 : n = "s1" := by
      have he : dedupFirst (arbA.sockets.map (fun s => s.name)) = ["s1"] := by
        decide
      rw [he] at hn
      exact List.mem_singleton.mp hn
    subst hn1
    exact trivial
  exact ⟨href,
    reload_orphaned_socket_fail_fast (fun _ => configB) arbA (some "B")
      (by decide) (by decide) hmatch href⟩

/-- C1 counterexample: in scenario 6 (socket `s1` deleted, watcher `w`
kept) the reload does fail with the `ValueError`, but the arbiter state
does **not** remain at config A: `s1` has already been closed and removed.
And with a configuration removing both `s1` and `w`, the watcher
referencing the deleted socket is itself deleted yet the same error is
still raised — the guard only tests nonemptiness of the collected set. -/
theorem reload_orphaned_socket_counterexample :
    (reloadFromConfig (fun _ => configB) arbA (some "B")).outcome =
      .error (.valueError "Watchers use a socket which is deleted") ∧
    (reloadFromConfig (fun _ => configB) arbA (some "B")).st.sockets = [] ∧
    arbA.sockets ≠ [] ∧
    getWatcherConfig configB "w" = some wCfg ∧
    baseConfig.watchers = [] ∧
    (reloadFromConfig (fun _ => baseConfig) arbA none).outcome =
      .error (.valueError "Watchers use a socket which is deleted") := by
  decide

end Circus
